import Mathlib

/-!
Verification of the clawdo task store (src/src/db.ts, src/src/sanitize.ts,
src/src/inbox.ts) against its natural-language specification.

Strings are modelled as lists of characters (JS strings are sequences of
UTF-16 code units; every string handled here is made of basic-plane
characters, for which the two views agree).  Fallible operations return an
explicit error value together with the persisted state at the moment the
exception propagates, so that partially applied mutations are observable.
-/

namespace Clawdo

/-- Strings of the embedded program: JS strings as lists of characters. -/
abbrev Str := List Char

/-- Characters of the JS regex class \s (whitespace), as matched by the
sanitizer's patterns. -/
def isJsSpace (c : Char) : Bool :=
  let v := c.toNat
  v = 0x20 || v = 0x09 || v = 0x0a || v = 0x0b || v = 0x0c || v = 0x0d ||
  v = 0xa0 || v = 0x1680 || (0x2000 ≤ v && v ≤ 0x200a) || v = 0x2028 ||
  v = 0x2029 || v = 0x202f || v = 0x205f || v = 0x3000 || v = 0xfeff

/-- Characters of the JS regex class \w (word characters), used for the
word-boundary assertions \b of the injection patterns. -/
def isWordChar (c : Char) : Bool :=
  ('a' ≤ c && c ≤ 'z') || ('A' ≤ c && c ≤ 'Z') || ('0' ≤ c && c ≤ '9') || c = '_'

/-- ASCII control characters stripped by stripControlChars, first pass:
the class made of 00-08, 0B, 0C, 0E-1F and 7F (tab and newline kept). -/
def isAsciiCtl (c : Char) : Bool :=
  let v := c.toNat
  v ≤ 0x08 || v = 0x0b || v = 0x0c || (0x0e ≤ v && v ≤ 0x1f) || v = 0x7f

/-- Invisible and directional Unicode characters stripped by
stripControlChars, second pass: 200B-200F, 202A-202E, FEFF, 2060-2064. -/
def isInvisible (c : Char) : Bool :=
  let v := c.toNat
  (0x200b ≤ v && v ≤ 0x200f) || (0x202a ≤ v && v ≤ 0x202e) ||
  v = 0xfeff || (0x2060 ≤ v && v ≤ 0x2064)

/-- stripControlChars from sanitize.ts: two global replacements with the
empty string, i.e. two filters. -/
def stripControlChars (t : Str) : Str :=
  (t.filter (fun c => !isAsciiCtl c)).filter (fun c => !isInvisible c)

/-- Case-insensitive character comparison for the /i regex flag.  The
patterns are ASCII keywords and the regexes carry no unicode flag, so the
canonicalisation is exactly ASCII case folding. -/
def lowerAscii (c : Char) : Char :=
  if 'A' ≤ c && c ≤ 'Z' then Char.ofNat (c.toNat + 32) else c

/-- Test whether one input character matches one (lowercase) pattern
character, case-insensitively. -/
def ciEq (p c : Char) : Bool := lowerAscii c = p

/-- Match a literal keyword (given in lowercase) case-insensitively at the
head of the input; return the rest of the input on success. -/
def eatLit : Str → Str → Option Str
  | [], rest => some rest
  | p :: ps, c :: cs => if ciEq p c then eatLit ps cs else none
  | _ :: _, [] => none

/-- Consume a maximal run of \s characters (the deterministic reading of a
greedy \s* whose continuation cannot start with whitespace). -/
def eatSpaces : Str → Str
  | c :: cs => if isJsSpace c then eatSpaces cs else c :: cs
  | [] => []

/-- Consume a greedy optional trailing s or S (the S? of INSTRUCTIONS? and
PROMPTS?, which ends the pattern, so greediness is never backtracked). -/
def optS : Str → Str
  | c :: cs => if ciEq 's' c then cs else c :: cs
  | [] => []

/-- Pattern 1 body: SYSTEM\s*(MESSAGE|PROMPT|INSTRUCTION), tried after the
caller has checked the leading word boundary. -/
def patSystem (l : Str) : Option Str :=
  match eatLit ("system".data) l with
  | none => none
  | some r1 =>
    let r2 := eatSpaces r1
    match eatLit ("message".data) r2 with
    | some r => some r
    | none =>
      match eatLit ("prompt".data) r2 with
      | some r => some r
      | none => eatLit ("instruction".data) r2

/-- Tail of pattern 2 after the optional ALL group:
(PREVIOUS|PRIOR)\s*(INSTRUCTIONS?|PROMPTS?). -/
def patIgnoreTail (r : Str) : Option Str :=
  let afterWord :=
    match eatLit ("previous".data) r with
    | some x => some x
    | none => eatLit ("prior".data) r
  match afterWord with
  | none => none
  | some r4 =>
    let r5 := eatSpaces r4
    match eatLit ("instruction".data) r5 with
    | some r6 => some (optS r6)
    | none =>
      match eatLit ("prompt".data) r5 with
      | some r6 => some (optS r6)
      | none => none

/-- Pattern 2 body: IGNORE\s*(ALL\s*)?(PREVIOUS|PRIOR)\s*(INSTRUCTIONS?|PROMPTS?).
The optional ALL group is tried greedily first, with the regex engine's
fallback to the empty alternative on failure of the continuation. -/
def patIgnore (l : Str) : Option Str :=
  match eatLit ("ignore".data) l with
  | none => none
  | some r1 =>
    let r2 := eatSpaces r1
    match eatLit ("all".data) r2 with
    | some r3 =>
      match patIgnoreTail (eatSpaces r3) with
      | some r => some r
      | none => patIgnoreTail r2
    | none => patIgnoreTail r2

/-- Pattern 3 body: (EXECUTE|RUN|EVAL)\s*[:(/]. -/
def patExecVerb (l : Str) : Option Str :=
  let afterWord :=
    match eatLit ("execute".data) l with
    | some x => some x
    | none =>
      match eatLit ("run".data) l with
      | some x => some x
      | none => eatLit ("eval".data) l
  match afterWord with
  | none => none
  | some r1 =>
    match eatSpaces r1 with
    | c :: cs => if c = ':' || c = '(' || c = '/' then some cs else none
    | [] => none

/-- Pattern 4 body: exec\s*\(. -/
def patExecCall (l : Str) : Option Str :=
  match eatLit ("exec".data) l with
  | none => none
  | some r1 =>
    match eatSpaces r1 with
    | c :: cs => if c = '(' then some cs else none
    | [] => none

/-- Word boundary \b at the end of a match: the rest must not start with a
word character. -/
def noWordAhead : Str → Bool
  | [] => true
  | c :: _ => !isWordChar c

/-- Pattern 5 body: message\s+tool\b. -/
def patMessageTool (l : Str) : Option Str :=
  match eatLit ("message".data) l with
  | none => none
  | some r1 =>
    match r1 with
    | c :: cs =>
      if isJsSpace c then
        match eatLit ("tool".data) (eatSpaces cs) with
        | some r => if noWordAhead r then some r else none
        | none => none
      else none
    | [] => none

/-- Pattern 6 body: sessions_spawn\b. -/
def patSpawn (l : Str) : Option Str :=
  match eatLit ("sessions_spawn".data) l with
  | some r => if noWordAhead r then some r else none
  | none => none

/-- Second alternation of pattern 7:
(API\s+KEY|PASSWORD|TOKEN|SECRET|CREDENTIAL). -/
def patCredWord (r : Str) : Option Str :=
  match eatLit ("api".data) r with
  | some r1 =>
    (match r1 with
     | c :: cs =>
       if isJsSpace c then eatLit ("key".data) (eatSpaces cs) else none
     | [] => none)
  | none =>
    match eatLit ("password".data) r with
    | some x => some x
    | none =>
      match eatLit ("token".data) r with
      | some x => some x
      | none =>
        match eatLit ("secret".data) r with
        | some x => some x
        | none => eatLit ("credential".data) r

/-- Pattern 7 body: (SEND|LEAK|EXTRACT)\s+(API\s+KEY|PASSWORD|TOKEN|SECRET|CREDENTIAL). -/
def patExfil (l : Str) : Option Str :=
  let afterWord :=
    match eatLit ("send".data) l with
    | some x => some x
    | none =>
      match eatLit ("leak".data) l with
      | some x => some x
      | none => eatLit ("extract".data) l
  match afterWord with
  | none => none
  | some r1 =>
    match r1 with
    | c :: cs => if isJsSpace c then patCredWord (eatSpaces cs) else none
    | [] => none

/-- Replacement text of every injection pattern. -/
def filteredMark : Str := "[FILTERED]".data

/-- One pass of a global regex replacement (String.replace with the g flag):
scan left to right, at each position whose left neighbour is not a word
character (all seven patterns start with \b followed by a word character)
try the pattern body; on a match emit the marker and resume after the
match, otherwise copy one character.  Word boundaries are judged on the
source string, as the regex engine does.  The fuel starts at the length of
the input plus one and every step consumes at least one input character,
so it never runs out. -/
def replaceScan (body : Str → Option Str) : Nat → Bool → Str → Str
  | 0, _, l => l
  | _ + 1, _, [] => []
  | fuel + 1, prevW, c :: cs =>
    match (if prevW then none else body (c :: cs)) with
    | some rest =>
      let n := (c :: cs).length - rest.length
      let lastC := ((c :: cs).take n).getLastD c
      filteredMark ++ replaceScan body fuel (isWordChar lastC) rest
    | none => c :: replaceScan body fuel (isWordChar c) cs

/-- Global replacement of one injection pattern by the marker. -/
def replacePat (body : Str → Option Str) (l : Str) : Str :=
  replaceScan body (l.length + 1) false l

/-- stripInjectionPatterns from sanitize.ts: the seven global replacements
applied in the order of the INJECTION_PATTERNS array. -/
def stripInjectionPatterns (t : Str) : Str :=
  replacePat patExfil
    (replacePat patSpawn
      (replacePat patMessageTool
        (replacePat patExecCall
          (replacePat patExecVerb
            (replacePat patIgnore
              (replacePat patSystem t))))))

/-- Truncation marker of truncate in sanitize.ts. -/
def truncMark : Str := "... [truncated]".data

/-- truncate from sanitize.ts.  substring with a negative bound clamps to
zero, exactly as truncated subtraction on Nat does. -/
def truncate (t : Str) (maxLen : Nat) : Str :=
  if t.length ≤ maxLen then t
  else t.take (maxLen - truncMark.length) ++ truncMark

/-- sanitize from sanitize.ts: the full pipeline.  The early return for an
empty input agrees with running the (empty-preserving) pipeline. -/
def sanitize (t : Str) (maxLen : Nat) : Str :=
  truncate (stripInjectionPatterns (stripControlChars t)) maxLen

/-- Task status values. -/
inductive TStatus where
  | proposed | todo | inProgress | done | archived
deriving DecidableEq, Repr

/-- Autonomy levels. -/
inductive Autonomy where
  | auto | autoNotify | collab
deriving DecidableEq, Repr

/-- Urgency values. -/
inductive UrgLevel where
  | now | soon | whenever | someday
deriving DecidableEq, Repr

/-- Authorship of a task or of an action (added_by, actor). -/
inductive Actor where
  | human | agent
deriving DecidableEq, Repr

/-- Stable error kinds of ClawdoError plus the generic validation errors
thrown by the sanitizer.  checkFailed stands for a SQLite CHECK-constraint
failure that wrapSQLiteError passes through unwrapped (its message matches
none of the recognised constraint patterns). -/
inductive ErrCode where
  | taskNotFound | blockerNotFound | circularDependency | rateLimited
  | permissionDenied | taskBlocked | taskNotConfirmed | taskAlreadyDone
  | taskAlreadyInProgress | invalidTransition | taskAlreadyArchived
  | blockerAlreadyDone | invalidProjectFormat | invalidDate | invalidUrgency
  | invalidAutonomy | textTooLong | emptyText | notesTooLong | tagTooLong
  | idExists | checkFailed
deriving DecidableEq, Repr

/-- Errors carry their stable kind plus the structured context fields the
claims inspect (the current autonomy of a refused edit, the proposal count
or the remaining cooldown of a rate limit); other context fields of the
source are not modelled. -/
structure CError where
  code : ErrCode
  currentAutonomy : Option Autonomy := none
  proposedCount : Option Nat := none
  cooldownSec : Option Nat := none
deriving DecidableEq, Repr

/-- Plain error with no context payload. -/
def err (c : ErrCode) : CError := { code := c }

/-- sanitizeText from sanitize.ts: strip, then reject empty-after-trim or
over-limit text.  The trim() emptiness test is the all-whitespace test. -/
def sanitizeText (t : Str) : Except CError Str :=
  if t = [] then .error (err .emptyText)
  else
    let clean := stripInjectionPatterns (stripControlChars t)
    if clean.all isJsSpace then .error (err .emptyText)
    else if clean.length > 1000 then .error (err .textTooLong)
    else .ok clean

/-- sanitizeNotes from sanitize.ts: empty input maps to the empty string,
otherwise strip and reject over-limit notes. -/
def sanitizeNotes (notes : Option Str) : Except CError Str :=
  match notes with
  | none => .ok []
  | some t =>
    if t = [] then .ok []
    else
      let clean := stripInjectionPatterns (stripControlChars t)
      if clean.length > 5000 then .error (err .notesTooLong)
      else .ok clean

/-- sanitizeTag from sanitize.ts: empty input maps to null, otherwise strip
control characters and reject over-limit tags. -/
def sanitizeTag (tag : Option Str) : Except CError (Option Str) :=
  match tag with
  | none => .ok none
  | some t =>
    if t = [] then .ok none
    else
      let cleaned := stripControlChars t
      if cleaned.length > 50 then .error (err .tagTooLong)
      else .ok (some cleaned)

/-- Characters admitted by the tag regexes after the marker. -/
def tagChar (c : Char) : Bool :=
  ('a' ≤ c && c ≤ 'z') || ('0' ≤ c && c ≤ '9') || c = '-'

/-- Test for the createTask project regex, a plus sign then one or more tag
characters. -/
def plusTag : Str → Bool
  | '+' :: c :: cs => tagChar c && cs.all tagChar
  | _ => false

/-- Test for the createTask context regex, an at sign then one or more tag
characters. -/
def atTag : Str → Bool
  | '@' :: c :: cs => tagChar c && cs.all tagChar
  | _ => false

/-- validateTaskId from sanitize.ts: exactly eight lowercase alphanumeric
characters. -/
def validateTaskId (id : Str) : Bool :=
  id.length = 8 && id.all (fun c => ('a' ≤ c && c ≤ 'z') || ('0' ≤ c && c ≤ '9'))

/-- Decimal digit test. -/
def isDigit (c : Char) : Bool := '0' ≤ c && c ≤ '9'

/-- Test for the due-date regex, four digits, dash, two digits, dash, two
digits. -/
def dateShape : Str → Bool
  | [a, b, c, d, '-', e, f, '-', g, h] =>
    isDigit a && isDigit b && isDigit c && isDigit d &&
    isDigit e && isDigit f && isDigit g && isDigit h
  | _ => false

/-- Decimal value of a digit list. -/
def digitsVal (l : Str) : Nat :=
  l.foldl (fun acc c => acc * 10 + (c.toNat - '0'.toNat)) 0

/-- Calendar validity of a well-shaped date string, matching the engine's
rejection (NaN) of out-of-range ISO dates. -/
def calendarOk : Str → Bool
  | [a, b, c, d, _, e, f, _, g, h] =>
    let y := digitsVal [a, b, c, d]
    let m := digitsVal [e, f]
    let dd := digitsVal [g, h]
    let leap := (y % 4 = 0 && y % 100 ≠ 0) || y % 400 = 0
    let maxD :=
      if m = 2 then (if leap then 29 else 28)
      else if m = 4 || m = 6 || m = 9 || m = 11 then 30
      else 31
    1 ≤ m && m ≤ 12 && 1 ≤ dd && dd ≤ maxD
  | _ => false

/-- A task row of the tasks table. -/
structure Task where
  id : Str
  text : Str
  status : TStatus
  autonomy : Autonomy
  urgency : UrgLevel
  project : Option Str
  context : Option Str
  dueDate : Option Str
  blockedBy : Option Str
  addedBy : Actor
  createdAt : Str
  startedAt : Option Str
  completedAt : Option Str
  notes : Option Str
  attempts : Nat
  lastAttemptAt : Option Str
  tokensUsed : Nat
  durationSec : Nat
deriving DecidableEq, Repr

/-- A row of the task_history table.  The source serialises the old and new
task as JSON strings; the snapshots are kept as task values here, an
injective representation of the same data. -/
structure HistEntry where
  taskId : Str
  action : String
  actor : Actor
  timestamp : Str
  notes : Option Str
  sessionId : Option Str
  sessionLogPath : Option Str
  oldTask : Option Task
  newTask : Option Task
  toolsUsed : Option (List Str)
deriving DecidableEq, Repr

/-- The persisted state: the tasks table (in insertion order), the
task_history table and the config key/value table. -/
structure Store where
  tasks : List Task
  history : List HistEntry
  config : List (Str × Option Str)
deriving DecidableEq, Repr

/-- Task lookup by exact id (SELECT by primary key). -/
def findTask (s : Store) (i : Str) : Option Task :=
  s.tasks.find? (fun t => t.id == i)

/-- getTask from db.ts: id-format check, then lookup. -/
def getTask (s : Store) (i : Str) : Option Task :=
  if validateTaskId i then findTask s i else none

/-- Config lookup (getConfig): none when the key is absent, some of the
stored nullable value otherwise. -/
def getCfg (s : Store) (k : Str) : Option (Option Str) :=
  (s.config.find? (fun p => p.1 == k)).map (fun p => p.2)

/-- Config write (setConfig, INSERT OR REPLACE). -/
def setCfg (s : Store) (k : Str) (v : Option Str) : Store :=
  if (s.config.find? (fun p => p.1 == k)).isSome then
    { s with config := s.config.map (fun p => if p.1 == k then (k, v) else p) }
  else
    { s with config := s.config ++ [(k, v)] }

/-- History append (addHistory). -/
def addHist (s : Store) (e : HistEntry) : Store :=
  { s with history := s.history ++ [e] }

/-- In-place update of the task with the given id (UPDATE ... WHERE id = ?). -/
def replace1 (s : Store) (i : Str) (f : Task → Task) : Store :=
  { s with tasks := s.tasks.map (fun t => if t.id == i then f t else t) }

/-- countProposed from db.ts: tasks with status proposed and added_by agent. -/
def countProposed (s : Store) : Nat :=
  (s.tasks.filter (fun t => t.status == .proposed && t.addedBy == .agent)).length

/-- Config key of the agent-proposal cooldown timestamp. -/
def lastProposalKey : Str := "last_agent_proposal".data

/-- JS truthiness of an optional string: present and non-empty. -/
def truthy : Option Str → Bool
  | some l => !l.isEmpty
  | none => false

/-- The blockedBy value a chain walk steps to, with the source's
`task?.blockedBy || null` coercion of an empty string to null. -/
def chainNext (s : Store) (cur : Str) : Option Str :=
  match getTask s cur with
  | some t => match t.blockedBy with
    | some b => if b.isEmpty then none else some b
    | none => none
  | none => none

/-- Loop body of detectBlockerCycle, with an explicit fuel.  The source's
while loop terminates through the visited set: every iteration that
recurses pushes a previously unvisited id, and ids that are not stored
task ids end the walk within two further iterations, so the loop runs at
most (number of tasks + 2) iterations and the fuel below never runs out. -/
def detectAux (s : Store) (taskId : Str) : Nat → Option Str → List Str → Bool
  | _, none, _ => false
  | 0, some _, _ => false
  | fuel + 1, some cur, visited =>
    if cur == taskId then true
    else if visited.contains cur then false
    else detectAux s taskId fuel (chainNext s cur) (cur :: visited)

/-- detectBlockerCycle from db.ts: walk the blockedBy chain upward from the
candidate blocker; a hit on the task's own id signals a cycle. -/
def detectBlockerCycle (s : Store) (taskId blockerId : Str) : Bool :=
  detectAux s taskId (s.tasks.length + 2) (some blockerId) []

/-- The autonomy strings admitted by the tasks table CHECK constraint.  The
TypeScript union type is erased at run time, so the insert validates the
raw string. -/
def parseAutonomy (l : Str) : Option Autonomy :=
  if l = "auto".data then some .auto
  else if l = "auto-notify".data then some .autoNotify
  else if l = "collab".data then some .collab
  else none

/-- The urgency strings admitted by the tasks table CHECK constraint. -/
def parseUrgency (l : Str) : Option UrgLevel :=
  if l = "now".data then some .now
  else if l = "soon".data then some .soon
  else if l = "whenever".data then some .whenever
  else if l = "someday".data then some .someday
  else none

/-- Leading-digits numeric parse, the behaviour of parseInt on the decimal
strings the store writes; none models NaN. -/
def parseDec (l : Str) : Option Nat :=
  match l.takeWhile isDigit with
  | [] => none
  | ds => some (digitsVal ds)

/-- Options of createTask.  Autonomy and urgency are carried as raw strings
because the insert, not the signature, enforces their value set. -/
structure CreateOpts where
  autonomy : Option Str := none
  urgency : Option Str := none
  project : Option Str := none
  context : Option Str := none
  dueDate : Option Str := none
  blockedBy : Option Str := none
  confirmed : Bool := false
deriving DecidableEq, Repr

/-- An option with the JS `|| dflt` fallback: empty or absent falls back. -/
def orDefault (o : Option Str) (dflt : Str) : Str :=
  match o with
  | some l => if l.isEmpty then dflt else l
  | none => dflt

/-- An option with the JS `|| null` coercion of the empty string. -/
def orNull (o : Option Str) : Option Str :=
  match o with
  | some l => if l.isEmpty then none else some l
  | none => none

/-- Rate limiting of agent proposals in createTask: cap on concurrently
proposed agent tasks, then the 60-second cooldown read from the config
map; on success the cooldown timestamp is stamped (this write precedes
the row insert in the source).  A non-numeric stored timestamp gives a
NaN elapsed time in the source, whose comparison is false, so the check
is skipped. -/
def rateGate (s : Store) (nowMs : Nat) : Except CError Store :=
  let stamped := setCfg s lastProposalKey (some ((Nat.repr nowMs).data))
  let pc := countProposed s
  if pc ≥ 5 then .error { code := .rateLimited, proposedCount := some pc }
  else
    match getCfg s lastProposalKey with
    | some (some v) =>
      if v.isEmpty then .ok stamped
      else
        match parseDec v with
        | some last =>
          if nowMs - last < 60000 then
            .error { code := .rateLimited,
                     cooldownSec := some ((60000 - (nowMs - last) + 999) / 1000) }
          else .ok stamped
        | none => .ok stamped
    | _ => .ok stamped

/-- The tasks table CHECK on the project column, GLOB pattern
+[a-z0-9-]* (a plus sign, one tag character, then anything). -/
def globPlus : Str → Bool
  | '+' :: c :: _ => tagChar c
  | _ => false

/-- The tasks table CHECK on the context column, GLOB pattern @[a-z0-9-]*. -/
def globAt : Str → Bool
  | '@' :: c :: _ => tagChar c
  | _ => false

/-- createTask from db.ts.  The freshly generated id is a parameter; the
source regenerates ids until getTask is null, so the guard on a stale or
malformed id models an unreachable branch of the generation loop.  nowMs
is Date.now() and nowIso the ISO timestamp.  The returned store is the
persisted state when the call returns or throws; note that the
last_agent_proposal config write precedes the row insert, as in the
source.  The pre-insert tag-format guards are `if (cleanProject && !re…)`
in the source, so JS truthiness skips them when the sanitized tag is the
empty string; such a call goes on to the rate gate and then fails the
INSERT's project or context CHECK constraint, after the cooldown stamp,
with an error wrapSQLiteError passes through unwrapped.  The INSERT's
CHECK constraints are evaluated in schema column order (autonomy,
urgency, project, context); the id and text CHECKs cannot fail after a
successful sanitizeText and a well-formed generated id. -/
def createTask (s : Store) (text : Str) (addedBy : Actor) (o : CreateOpts)
    (freshId : Str) (nowMs : Nat) (nowIso : Str) :
    Except CError Str × Store :=
  match sanitizeText text with
  | .error e => (.error e, s)
  | .ok cleanText =>
  match sanitizeTag o.project with
  | .error e => (.error e, s)
  | .ok cleanProject =>
  match sanitizeTag o.context with
  | .error e => (.error e, s)
  | .ok cleanContext =>
  if (match cleanProject with
      | some p => !p.isEmpty && !plusTag p
      | none => false) then
    (.error (err .invalidProjectFormat), s)
  else if (match cleanContext with
           | some c => !c.isEmpty && !atTag c
           | none => false) then
    (.error (err .invalidProjectFormat), s)
  else if (match o.dueDate with
           | some d => !d.isEmpty && !(dateShape d && calendarOk d)
           | none => false) then
    (.error (err .invalidDate), s)
  else if !validateTaskId freshId || (findTask s freshId).isSome then
    (.error (err .idExists), s)
  else
  match (if truthy o.blockedBy then
           match o.blockedBy with
           | some b =>
             if !validateTaskId b then some (err .blockerNotFound)
             else match getTask s b with
               | none => some (err .blockerNotFound)
               | some _ =>
                 if detectBlockerCycle s freshId b then
                   some (err .circularDependency)
                 else none
           | none => none
         else none) with
  | some e => (.error e, s)
  | none =>
  match (if addedBy = .agent then rateGate s nowMs else .ok s) with
  | .error e => (.error e, s)
  | .ok s1 =>
  let status : TStatus := if addedBy = .agent then .proposed else .todo
  match parseAutonomy (orDefault o.autonomy ("collab".data)) with
  | none => (.error (err .invalidAutonomy), s1)
  | some av =>
  match parseUrgency (orDefault o.urgency ("whenever".data)) with
  | none => (.error (err .invalidUrgency), s1)
  | some uv =>
  if (match cleanProject with
      | some p => !(globPlus p && p.length ≤ 50)
      | none => false) then
    (.error (err .checkFailed), s1)
  else if (match cleanContext with
           | some c => !(globAt c && c.length ≤ 50)
           | none => false) then
    (.error (err .checkFailed), s1)
  else
  let t : Task :=
    { id := freshId, text := cleanText, status := status, autonomy := av,
      urgency := uv, project := cleanProject, context := cleanContext,
      dueDate := orNull o.dueDate, blockedBy := orNull o.blockedBy,
      addedBy := addedBy, createdAt := nowIso, startedAt := none,
      completedAt := none, notes := none, attempts := 0,
      lastAttemptAt := none, tokensUsed := 0, durationSec := 0 }
  let s2 := { s1 with tasks := s1.tasks ++ [t] }
  let s3 := addHist s2
    { taskId := freshId, action := "created", actor := addedBy,
      timestamp := nowIso,
      notes := if status = .proposed then some ("Agent proposed task".data)
               else none,
      sessionId := none, sessionLogPath := none, oldTask := none,
      newTask := none, toolsUsed := none }
  (.ok freshId, s3)

/-- Field updates accepted by updateTask.  The outer option is presence of
the key in the updates object; the inner option of nullable columns is
the null value.  Status and urgency follow the declared TypeScript types;
autonomy is carried only to model the permission gate.  Fields outside
the allowlist are not representable, as the source skips them. -/
structure TaskUpdates where
  text : Option Str := none
  status : Option TStatus := none
  urgency : Option UrgLevel := none
  project : Option (Option Str) := none
  context : Option (Option Str) := none
  dueDate : Option (Option Str) := none
  blockedBy : Option (Option Str) := none
  notes : Option (Option Str) := none
  startedAt : Option (Option Str) := none
  completedAt : Option (Option Str) := none
  autonomy : Option Autonomy := none
deriving DecidableEq, Repr

/-- Presence of at least one allowlisted field (the setClauses emptiness
test of the source). -/
def TaskUpdates.hasField (u : TaskUpdates) : Bool :=
  u.text.isSome || u.status.isSome || u.urgency.isSome || u.project.isSome ||
  u.context.isSome || u.dueDate.isSome || u.blockedBy.isSome ||
  u.notes.isSome || u.startedAt.isSome || u.completedAt.isSome

/-- Sanitization of one optional updates field: an absent key passes
through, a present key runs its field sanitizer (updateTask's per-key
clean-value step). -/
def sanField {A B : Type} (f : A → Except CError B) :
    Option A → Except CError (Option B)
  | some x => (f x).map some
  | none => .ok none

/-- updateTask from db.ts.  Sanitization failures throw before the single
UPDATE statement; constraint failures of the statement itself leave the
row unwritten: the tag CHECKs fire first (in schema column order, passed
through wrapSQLiteError unwrapped), then the blocked_by foreign key,
which better-sqlite3 enforces and wrapSQLiteError maps to
BLOCKER_NOT_FOUND.  Dynamic key order in the updates object only affects
which sanitization error wins, so a fixed order is used.  A present key
overwrites its column and an absent key keeps the stored value, which is
the getD on each field below. -/
def updateTask (s : Store) (i : Str) (u : TaskUpdates) (actor : Actor)
    (nowIso : Str) : Except CError Unit × Store :=
  if !validateTaskId i then (.error (err .taskNotFound), s)
  else
  match findTask s i with
  | none => (.error (err .taskNotFound), s)
  | some existing =>
  if u.autonomy.isSome then
    (.error { code := .permissionDenied,
              currentAutonomy := some existing.autonomy }, s)
  else
  match sanField sanitizeText u.text with
  | .error e => (.error e, s)
  | .ok cleanTextU =>
  match sanField sanitizeNotes u.notes with
  | .error e => (.error e, s)
  | .ok cleanNotesU =>
  match sanField sanitizeTag u.project with
  | .error e => (.error e, s)
  | .ok cleanProjU =>
  match sanField sanitizeTag u.context with
  | .error e => (.error e, s)
  | .ok cleanCtxU =>
  if !u.hasField then (.ok (), s)
  else
  let newTask : Task :=
    { existing with
      text := cleanTextU.getD existing.text,
      status := u.status.getD existing.status,
      urgency := u.urgency.getD existing.urgency,
      project := cleanProjU.getD existing.project,
      context := cleanCtxU.getD existing.context,
      dueDate := u.dueDate.getD existing.dueDate,
      blockedBy := u.blockedBy.getD existing.blockedBy,
      notes := (cleanNotesU.map some).getD existing.notes,
      startedAt := u.startedAt.getD existing.startedAt,
      completedAt := u.completedAt.getD existing.completedAt }
  if (match newTask.project with
      | some p => !(globPlus p && p.length ≤ 50)
      | none => false) then
    (.error (err .checkFailed), s)
  else if (match newTask.context with
           | some c => !(globAt c && c.length ≤ 50)
           | none => false) then
    (.error (err .checkFailed), s)
  else if (match u.blockedBy with
           | some (some b) => (findTask s b).isNone
           | _ => false) then
    (.error (err .blockerNotFound), s)
  else
  let s1 := replace1 s i (fun _ => newTask)
  let s2 := addHist s1
    { taskId := i, action := "updated", actor := actor, timestamp := nowIso,
      notes := none, sessionId := none, sessionLogPath := none,
      oldTask := some existing, newTask := findTask s1 i, toolsUsed := none }
  (.ok (), s2)

/-- startTask from db.ts. -/
def startTask (s : Store) (i : Str) (actor : Actor) (nowIso : Str) :
    Except CError Unit × Store :=
  match getTask s i with
  | none => (.error (err .taskNotFound), s)
  | some task =>
  if task.status = .inProgress then
    (.error (err .taskAlreadyInProgress), s)
  else if task.status ≠ .todo then
    (.error (err .invalidTransition), s)
  else if (match (if truthy task.blockedBy then
                    task.blockedBy.bind (getTask s) else none) with
           | some blocker =>
             blocker.status ≠ .done && blocker.status ≠ .archived
           | none => false) then
    (.error (err .taskBlocked), s)
  else
  let s1 := replace1 s i
    (fun t => { t with status := .inProgress, startedAt := some nowIso })
  let s2 := addHist s1
    { taskId := i, action := "started", actor := actor, timestamp := nowIso,
      notes := none, sessionId := none, sessionLogPath := none,
      oldTask := none, newTask := none, toolsUsed := none }
  (.ok (), s2)

/-- completeTask from db.ts.  On success the done write, the history row
and the cascading unblock happen in one transaction; none of them can
fail, so the success branch is one combined state change. -/
def completeTask (s : Store) (i : Str) (actor : Actor) (nowIso : Str)
    (sessionId sessionLogPath : Option Str) (toolsUsed : Option (List Str)) :
    Except CError Unit × Store :=
  match getTask s i with
  | none => (.error (err .taskNotFound), s)
  | some task =>
  if task.status = .proposed then
    (.error (err .taskNotConfirmed), s)
  else if task.status = .done then
    (.error (err .taskAlreadyDone), s)
  else if (match (if truthy task.blockedBy then
                    task.blockedBy.bind (getTask s) else none) with
           | some blocker =>
             blocker.status ≠ .done && blocker.status ≠ .archived
           | none => false) then
    (.error (err .taskBlocked), s)
  else
  let s1 := { s with
    tasks := s.tasks.map (fun t =>
      let t1 := if t.id == i then
                  { t with status := .done, completedAt := some nowIso }
                else t
      if t1.blockedBy == some i then { t1 with blockedBy := none } else t1) }
  let s2 := addHist s1
    { taskId := i, action := "completed", actor := actor,
      timestamp := nowIso, notes := none, sessionId := sessionId,
      sessionLogPath := sessionLogPath, oldTask := none, newTask := none,
      toolsUsed := toolsUsed }
  (.ok (), s2)

/-- failTask from db.ts: increment attempts, reset to todo, and at three or
more attempts force autonomy to collab and prepend the demotion note. -/
def failTask (s : Store) (i : Str) (reason : Str) (nowIso : Str) :
    Except CError Unit × Store :=
  match getTask s i with
  | none => (.error (err .taskNotFound), s)
  | some task =>
  let newAttempts := task.attempts + 1
  let s1 :=
    if newAttempts ≥ 3 then
      replace1 s i (fun t =>
        { t with
          status := .todo,
          autonomy := .collab,
          attempts := newAttempts,
          lastAttemptAt := some nowIso,
          notes := some ((("[Auto-failed 3 times] ".data)
                           ++ (task.notes.getD [])).take 5000) })
    else
      replace1 s i (fun t =>
        { t with
          status := .todo,
          attempts := newAttempts,
          lastAttemptAt := some nowIso })
  let s2 := addHist s1
    { taskId := i, action := "failed", actor := .agent, timestamp := nowIso,
      notes := some reason, sessionId := none, sessionLogPath := none,
      oldTask := none, newTask := none, toolsUsed := none }
  (.ok (), s2)

/-- archiveTask from db.ts: refused only when already archived. -/
def archiveTask (s : Store) (i : Str) (actor : Actor) (nowIso : Str) :
    Except CError Unit × Store :=
  match getTask s i with
  | none => (.error (err .taskNotFound), s)
  | some task =>
  if task.status = .archived then
    (.error (err .taskAlreadyArchived), s)
  else
  let s1 := replace1 s i (fun t => { t with status := .archived })
  let s2 := addHist s1
    { taskId := i, action := "archived", actor := actor, timestamp := nowIso,
      notes := none, sessionId := none, sessionLogPath := none,
      oldTask := none, newTask := none, toolsUsed := none }
  (.ok (), s2)

/-- unarchiveTask from db.ts: sets status to todo with no precondition on
the current status. -/
def unarchiveTask (s : Store) (i : Str) (actor : Actor) (nowIso : Str) :
    Except CError Unit × Store :=
  match getTask s i with
  | none => (.error (err .taskNotFound), s)
  | some _ =>
  let s1 := replace1 s i (fun t => { t with status := .todo })
  let s2 := addHist s1
    { taskId := i, action := "unarchived", actor := actor,
      timestamp := nowIso, notes := none, sessionId := none,
      sessionLogPath := none, oldTask := none, newTask := none,
      toolsUsed := none }
  (.ok (), s2)

/-- confirmTask from db.ts: proposed to todo only. -/
def confirmTask (s : Store) (i : Str) (actor : Actor) (nowIso : Str) :
    Except CError Unit × Store :=
  match getTask s i with
  | none => (.error (err .taskNotFound), s)
  | some task =>
  if task.status ≠ .proposed then
    (.error (err .invalidTransition), s)
  else
  let s1 := replace1 s i (fun t => { t with status := .todo })
  let s2 := addHist s1
    { taskId := i, action := "confirmed", actor := actor,
      timestamp := nowIso, notes := none, sessionId := none,
      sessionLogPath := none, oldTask := none, newTask := none,
      toolsUsed := none }
  (.ok (), s2)

/-- rejectTask from db.ts: proposed to archived only. -/
def rejectTask (s : Store) (i : Str) (actor : Actor) (reason : Option Str)
    (nowIso : Str) : Except CError Unit × Store :=
  match getTask s i with
  | none => (.error (err .taskNotFound), s)
  | some task =>
  if task.status ≠ .proposed then
    (.error (err .invalidTransition), s)
  else
  let s1 := replace1 s i (fun t => { t with status := .archived })
  let s2 := addHist s1
    { taskId := i, action := "rejected", actor := actor, timestamp := nowIso,
      notes := reason, sessionId := none, sessionLogPath := none,
      oldTask := none, newTask := none, toolsUsed := none }
  (.ok (), s2)

/-- blockTask from db.ts: id checks, existence checks, terminal-blocker
check, cycle check, then the blocked_by write. -/
def blockTask (s : Store) (i blockerId : Str) (actor : Actor)
    (nowIso : Str) : Except CError Unit × Store :=
  if !validateTaskId i || !validateTaskId blockerId then
    (.error (err .taskNotFound), s)
  else
  match getTask s i with
  | none => (.error (err .taskNotFound), s)
  | some _ =>
  match getTask s blockerId with
  | none => (.error (err .blockerNotFound), s)
  | some blocker =>
  if blocker.status = .done || blocker.status = .archived then
    (.error (err .blockerAlreadyDone), s)
  else if detectBlockerCycle s i blockerId then
    (.error (err .circularDependency), s)
  else
  let s1 := replace1 s i (fun t => { t with blockedBy := some blockerId })
  let s2 := addHist s1
    { taskId := i, action := "blocked", actor := actor, timestamp := nowIso,
      notes := some (("Blocked by ".data) ++ blockerId), sessionId := none,
      sessionLogPath := none, oldTask := none, newTask := none,
      toolsUsed := none }
  (.ok (), s2)

/-- unblockTask from db.ts. -/
def unblockTask (s : Store) (i : Str) (actor : Actor) (nowIso : Str) :
    Except CError Unit × Store :=
  match getTask s i with
  | none => (.error (err .taskNotFound), s)
  | some _ =>
  let s1 := replace1 s i (fun t => { t with blockedBy := none })
  let s2 := addHist s1
    { taskId := i, action := "unblocked", actor := actor,
      timestamp := nowIso, notes := none, sessionId := none,
      sessionLogPath := none, oldTask := none, newTask := none,
      toolsUsed := none }
  (.ok (), s2)

/-- Date part of an ISO timestamp (split on the letter T). -/
def datePart (nowIso : Str) : Str := nowIso.takeWhile (fun c => c ≠ 'T')

/-- addNote from db.ts: sanitize, date-stamp, append newline-separated to
the existing notes (empty or null existing notes mean no separator), and
reject the whole operation when the combined length exceeds the limit. -/
def addNote (s : Store) (i : Str) (note : Str) (actor : Actor)
    (nowIso : Str) : Except CError Unit × Store :=
  match getTask s i with
  | none => (.error (err .taskNotFound), s)
  | some task =>
  match sanitizeNotes (some note) with
  | .error e => (.error e, s)
  | .ok cleanNote =>
  let newNote := ('[' :: datePart nowIso) ++ ("] ".data) ++ cleanNote
  let updatedNotes :=
    if truthy task.notes then (task.notes.getD []) ++ ('\n' :: newNote)
    else newNote
  if updatedNotes.length > 5000 then
    (.error (err .textTooLong), s)
  else
  let s1 := replace1 s i (fun t => { t with notes := some updatedNotes })
  let s2 := addHist s1
    { taskId := i, action := "note_added", actor := actor,
      timestamp := nowIso, notes := some cleanNote, sessionId := none,
      sessionLogPath := none, oldTask := none, newTask := none,
      toolsUsed := none }
  (.ok (), s2)

/-- Binary-collation string order (memcmp on the text encoding), used by
the SQL comparisons and by the JS less-than on strings. -/
def strLt : Str → Str → Bool
  | _, [] => false
  | [], _ :: _ => true
  | a :: as, b :: bs => a < b || (a = b && strLt as bs)

/-- Sort rank of an urgency value in the listTasks ORDER BY. -/
def urgRank : UrgLevel → Nat
  | .now => 0
  | .soon => 1
  | .whenever => 2
  | .someday => 3

/-- The listTasks comparator: urgency rank, then created_at, ties kept in
table order (stable sort). -/
def taskLe (a b : Task) : Bool :=
  urgRank a.urgency < urgRank b.urgency ||
  (urgRank a.urgency = urgRank b.urgency && !strLt b.createdAt a.createdAt)

/-- Filters of listTasks.  A single status is the one-element list. -/
structure Filters where
  status : Option (List TStatus) := none
  autonomy : Option Autonomy := none
  urgency : Option UrgLevel := none
  project : Option Str := none
  addedBy : Option Actor := none
  blocked : Option Bool := none
  ready : Bool := false
deriving DecidableEq, Repr

/-- Row predicate of the listTasks WHERE clause. -/
def matchesFilters (f : Filters) (t : Task) : Bool :=
  (match f.status with
   | some l => l.contains t.status
   | none => true) &&
  (match f.autonomy with
   | some a => t.autonomy == a
   | none => true) &&
  (match f.urgency with
   | some u => t.urgency == u
   | none => true) &&
  (match f.project with
   | some p => t.project == some p
   | none => true) &&
  (match f.addedBy with
   | some a => t.addedBy == a
   | none => true) &&
  (match f.blocked with
   | some true => t.blockedBy.isSome
   | some false => t.blockedBy.isNone
   | none => true) &&
  (!f.ready ||
    ((t.status == .todo || t.status == .inProgress) && t.blockedBy.isNone))

/-- listTasks from db.ts: filter, then order by urgency rank and creation
time. -/
def listTasks (s : Store) (f : Filters) : List Task :=
  (s.tasks.filter (matchesFilters f)).mergeSort taskLe

/-- bulkComplete from db.ts: snapshot the filtered list, then inside one
transaction complete every snapshot row that was todo or in_progress and
cascade-unblock its dependents; returns the count. -/
def bulkComplete (s : Store) (f : Filters) (actor : Actor) (nowIso : Str) :
    Nat × Store :=
  (listTasks s f).foldl
    (fun (acc : Nat × Store) task =>
      if task.status == .todo || task.status == .inProgress then
        let sA := { acc.2 with
          tasks := acc.2.tasks.map (fun t =>
            let t1 := if t.id == task.id then
                        { t with status := .done, completedAt := some nowIso }
                      else t
            if t1.blockedBy == some task.id then { t1 with blockedBy := none }
            else t1) }
        let sB := addHist sA
          { taskId := task.id, action := "bulk_completed", actor := actor,
            timestamp := nowIso, notes := none, sessionId := none,
            sessionLogPath := none, oldTask := none, newTask := none,
            toolsUsed := none }
        (acc.1 + 1, sB)
      else acc)
    (0, s)

/-- bulkArchive from db.ts: snapshot the filtered list, archive every
snapshot row that was not archived; returns the count. -/
def bulkArchive (s : Store) (f : Filters) (actor : Actor) (nowIso : Str) :
    Nat × Store :=
  (listTasks s f).foldl
    (fun (acc : Nat × Store) task =>
      if task.status != .archived then
        let sA := replace1 acc.2 task.id (fun t => { t with status := .archived })
        let sB := addHist sA
          { taskId := task.id, action := "bulk_archived", actor := actor,
            timestamp := nowIso, notes := none, sessionId := none,
            sessionLogPath := none, oldTask := none, newTask := none,
            toolsUsed := none }
        (acc.1 + 1, sB)
      else acc)
    (0, s)

/-- canRetry from db.ts: one conditional UPDATE flipping an eligible todo
task to in_progress; threshold is the datetime string one hour before
now, compared against last_attempt_at as text. -/
def canRetry (s : Store) (i : Str) (threshold : Str) : Bool × Store :=
  if !validateTaskId i then (false, s)
  else
    match findTask s i with
    | some t =>
      if t.status == .todo && t.attempts < 3 &&
         (t.lastAttemptAt.isNone ||
          strLt (t.lastAttemptAt.getD []) threshold) then
        (true, replace1 s i (fun u => { u with status := .inProgress }))
      else (false, s)
    | none => (false, s)

/-- acquireLock from db.ts: conditional UPDATE of a config slot that is
currently null. -/
def acquireLock (s : Store) (lockId : Str) (nowIso : Str) : Bool × Store :=
  match getCfg s lockId with
  | some none => (true, setCfg s lockId (some nowIso))
  | _ => (false, s)

/-- releaseLock from db.ts. -/
def releaseLock (s : Store) (lockId : Str) : Store :=
  if (s.config.find? (fun p => p.1 == lockId)).isSome then
    setCfg s lockId none
  else s

/-- countCompletedInLast from db.ts: history rows with action completed and
a timestamp after the cutoff. -/
def countCompletedSince (s : Store) (since : Str) : Nat :=
  (s.history.filter (fun h =>
    h.action == "completed" && strLt since h.timestamp)).length

/-- The seven inbox partitions with the meta fields. -/
structure Inbox where
  autoReady : List Task
  autoNotifyReady : List Task
  urgent : List Task
  overdue : List Task
  proposed : List Task
  stale : List Task
  blocked : List Task
  autoExecutionEnabled : Bool
  tasksCompleted4h : Nat
deriving DecidableEq, Repr

/-- generateInbox from inbox.ts: one read of the non-terminal tasks, then a
single pass pushing each task into every bucket whose condition it meets;
a push-per-condition pass over one list is the same as one filter per
bucket.  today is the date part of now, staleThreshold the ISO timestamp
24 hours ago, since4h the cutoff of the completion counter. -/
def generateInbox (s : Store) (today staleThreshold since4h : Str) : Inbox :=
  let allActive := listTasks s
    { status := some [.todo, .inProgress, .proposed] }
  { proposed := allActive.filter (fun t => t.status == .proposed)
  , urgent := allActive.filter (fun t =>
      t.urgency == .now &&
      (t.status == .todo || t.status == .inProgress))
  , overdue := allActive.filter (fun t =>
      truthy t.dueDate && strLt (t.dueDate.getD []) today &&
      (t.status == .todo || t.status == .inProgress))
  , blocked := allActive.filter (fun t =>
      truthy t.blockedBy &&
      (t.status == .todo || t.status == .inProgress))
  , stale := allActive.filter (fun t =>
      t.status == .inProgress && truthy t.startedAt &&
      strLt (t.startedAt.getD []) staleThreshold)
  , autoReady := allActive.filter (fun t =>
      t.status == .todo && !truthy t.blockedBy && t.autonomy == .auto)
  , autoNotifyReady := allActive.filter (fun t =>
      t.status == .todo && !truthy t.blockedBy && t.autonomy == .autoNotify)
  , autoExecutionEnabled :=
      getCfg s ("auto_execution_enabled".data) == some (some ("true".data))
  , tasksCompleted4h := countCompletedSince s since4h }

/-- One invocation of a public mutating Task Store operation, with all of
its run-time inputs (identifiers, caller data and clock readings) carried
as data. -/
inductive Op where
  | create (text : Str) (addedBy : Actor) (o : CreateOpts) (freshId : Str)
      (nowMs : Nat) (nowIso : Str)
  | update (i : Str) (u : TaskUpdates) (actor : Actor) (nowIso : Str)
  | start (i : Str) (actor : Actor) (nowIso : Str)
  | complete (i : Str) (actor : Actor) (nowIso : Str)
      (sessionId sessionLogPath : Option Str) (toolsUsed : Option (List Str))
  | fail (i : Str) (reason : Str) (nowIso : Str)
  | archive (i : Str) (actor : Actor) (nowIso : Str)
  | unarchive (i : Str) (actor : Actor) (nowIso : Str)
  | bulkComplete (f : Filters) (actor : Actor) (nowIso : Str)
  | bulkArchive (f : Filters) (actor : Actor) (nowIso : Str)
  | confirm (i : Str) (actor : Actor) (nowIso : Str)
  | reject (i : Str) (actor : Actor) (reason : Option Str) (nowIso : Str)
  | block (i blockerId : Str) (actor : Actor) (nowIso : Str)
  | unblock (i : Str) (actor : Actor) (nowIso : Str)
  | note (i : Str) (text : Str) (actor : Actor) (nowIso : Str)
  | retry (i : Str) (threshold : Str)
  | putConfig (k : Str) (v : Option Str)
  | acquire (lockId : Str) (nowIso : Str)
  | release (lockId : Str)
deriving DecidableEq, Repr

/-- Outcome and resulting persisted state of one operation.  A thrown
error is paired with the state at the moment it propagates, so that a
mutation applied before a failure is visible. -/
def execOp (s : Store) : Op → Except CError Unit × Store
  | .create text addedBy o freshId nowMs nowIso =>
    let r := createTask s text addedBy o freshId nowMs nowIso
    (r.1.map (fun _ => ()), r.2)
  | .update i u actor nowIso => updateTask s i u actor nowIso
  | .start i actor nowIso => startTask s i actor nowIso
  | .complete i actor nowIso sid slp tu => completeTask s i actor nowIso sid slp tu
  | .fail i reason nowIso => failTask s i reason nowIso
  | .archive i actor nowIso => archiveTask s i actor nowIso
  | .unarchive i actor nowIso => unarchiveTask s i actor nowIso
  | .bulkComplete f actor nowIso => (.ok (), (bulkComplete s f actor nowIso).2)
  | .bulkArchive f actor nowIso => (.ok (), (bulkArchive s f actor nowIso).2)
  | .confirm i actor nowIso => confirmTask s i actor nowIso
  | .reject i actor reason nowIso => rejectTask s i actor reason nowIso
  | .block i blockerId actor nowIso => blockTask s i blockerId actor nowIso
  | .unblock i actor nowIso => unblockTask s i actor nowIso
  | .note i text actor nowIso => addNote s i text actor nowIso
  | .retry i threshold => (.ok (), (canRetry s i threshold).2)
  | .putConfig k v => (.ok (), setCfg s k v)
  | .acquire lockId nowIso => (.ok (), (acquireLock s lockId nowIso).2)
  | .release lockId => (.ok (), releaseLock s lockId)

/-- The persisted state after one operation (the state is kept whether the
call returns or throws). -/
def runOp (s : Store) (op : Op) : Store := (execOp s op).2

/-- The persisted state after a sequence of operations. -/
def runOps (s : Store) (ops : List Op) : Store := ops.foldl runOp s

/-- The freshly migrated store: empty tables and the seeded config keys. -/
def initStore : Store :=
  { tasks := [], history := [],
    config := [("schema_version".data, some ("1".data)),
               ("heartbeat_lock".data, none),
               ("auto_execution_enabled".data, some ("true".data))] }

/-- States reachable from the migrated store by public operations. -/
def Reachable (s : Store) : Prop := ∃ ops, runOps initStore ops = s

end Clawdo

namespace Clawdo

theorem eatLit_sfx : ∀ (p l r : Str), eatLit p l = some r → r <:+ l := by
  intro p
  induction p with
  | nil =>
    intro l r h
    simp only [eatLit, Option.some.injEq] at h
    exact h ▸ List.suffix_refl l
  | cons a ps ih =>
    intro l r h
    cases l with
    | nil => simp [eatLit] at h
    | cons c cs =>
      simp only [eatLit] at h
      split at h
      · exact (ih cs r h).trans (List.suffix_cons c cs)
      · cases h

theorem eatSpaces_sfx : ∀ l : Str, eatSpaces l <:+ l := by
  intro l
  induction l with
  | nil => exact List.suffix_refl _
  | cons c cs ih =>
    simp only [eatSpaces]
    split
    · exact ih.trans (List.suffix_cons c cs)
    · exact List.suffix_refl _

theorem optS_sfx : ∀ l : Str, optS l <:+ l := by
  intro l
  cases l with
  | nil => exact List.suffix_refl _
  | cons c cs =>
    simp only [optS]
    split
    · exact List.suffix_cons c cs
    · exact List.suffix_refl _

theorem patSystem_sfx : ∀ l r, patSystem l = some r → r <:+ l := by
  intro l r h
  unfold patSystem at h
  cases h1 : eatLit ("system".data) l with
  | none => rw [h1] at h; cases h
  | some r1 =>
    rw [h1] at h
    have hs1 : r1 <:+ l := eatLit_sfx _ _ _ h1
    have hs2 : eatSpaces r1 <:+ l := (eatSpaces_sfx r1).trans hs1
    dsimp only at h
    cases h2 : eatLit ("message".data) (eatSpaces r1) with
    | some rr =>
      rw [h2] at h
      cases h
      exact (eatLit_sfx _ _ _ h2).trans hs2
    | none =>
      rw [h2] at h
      dsimp only at h
      cases h3 : eatLit ("prompt".data) (eatSpaces r1) with
      | some rr =>
        rw [h3] at h
        cases h
        exact (eatLit_sfx _ _ _ h3).trans hs2
      | none =>
        rw [h3] at h
        dsimp only at h
        exact (eatLit_sfx _ _ _ h).trans hs2

end Clawdo

namespace Clawdo

theorem patIgnoreTail_sfx : ∀ l r, patIgnoreTail l = some r → r <:+ l := by
  intro l r h
  unfold patIgnoreTail at h
  cases hw : (match eatLit ("previous".data) l with
              | some x => some x
              | none => eatLit ("prior".data) l) with
  | none => rw [hw] at h; cases h
  | some r4 =>
    rw [hw] at h
    have hs4 : r4 <:+ l := by
      cases h1 : eatLit ("previous".data) l with
      | some x => rw [h1] at hw; cases hw; exact eatLit_sfx _ _ _ h1
      | none => rw [h1] at hw; dsimp only at hw; exact eatLit_sfx _ _ _ hw
    have hs5 : eatSpaces r4 <:+ l := (eatSpaces_sfx r4).trans hs4
    dsimp only at h
    cases h2 : eatLit ("instruction".data) (eatSpaces r4) with
    | some r6 =>
      rw [h2] at h
      cases h
      exact ((optS_sfx r6).trans (eatLit_sfx _ _ _ h2)).trans hs5
    | none =>
      rw [h2] at h
      dsimp only at h
      cases h3 : eatLit ("prompt".data) (eatSpaces r4) with
      | some r6 =>
        rw [h3] at h
        cases h
        exact ((optS_sfx r6).trans (eatLit_sfx _ _ _ h3)).trans hs5
      | none => rw [h3] at h; cases h

theorem patIgnore_sfx : ∀ l r, patIgnore l = some r → r <:+ l := by
  intro l r h
  unfold patIgnore at h
  cases h1 : eatLit ("ignore".data) l with
  | none => rw [h1] at h; cases h
  | some r1 =>
    rw [h1] at h
    have hs2 : eatSpaces r1 <:+ l := (eatSpaces_sfx r1).trans (eatLit_sfx _ _ _ h1)
    dsimp only at h
    cases h2 : eatLit ("all".data) (eatSpaces r1) with
    | some r3 =>
      rw [h2] at h
      dsimp only at h
      cases h3 : patIgnoreTail (eatSpaces r3) with
      | some rr =>
        rw [h3] at h
        cases h
        exact (((patIgnoreTail_sfx _ _ h3).trans (eatSpaces_sfx r3)).trans
          (eatLit_sfx _ _ _ h2)).trans hs2
      | none =>
        rw [h3] at h
        dsimp only at h
        exact (patIgnoreTail_sfx _ _ h).trans hs2
    | none =>
      rw [h2] at h
      dsimp only at h
      exact (patIgnoreTail_sfx _ _ h).trans hs2

theorem patExecVerb_sfx : ∀ l r, patExecVerb l = some r → r <:+ l := by
  intro l r h
  unfold patExecVerb at h
  cases hw : (match eatLit ("execute".data) l with
              | some x => some x
              | none =>
                match eatLit ("run".data) l with
                | some x => some x
                | none => eatLit ("eval".data) l) with
  | none => rw [hw] at h; cases h
  | some r1 =>
    rw [hw] at h
    have hs1 : r1 <:+ l := by
      cases h1 : eatLit ("execute".data) l with
      | some x => rw [h1] at hw; cases hw; exact eatLit_sfx _ _ _ h1
      | none =>
        rw [h1] at hw; dsimp only at hw
        cases h2 : eatLit ("run".data) l with
        | some x => rw [h2] at hw; cases hw; exact eatLit_sfx _ _ _ h2
        | none => rw [h2] at hw; dsimp only at hw; exact eatLit_sfx _ _ _ hw
    dsimp only at h
    cases h3 : eatSpaces r1 with
    | nil => rw [h3] at h; cases h
    | cons c cs =>
      rw [h3] at h
      dsimp only at h
      split at h
      · have hr : cs = r := by injection h
        exact hr ▸ (((List.suffix_cons c cs).trans (h3 ▸ eatSpaces_sfx r1)).trans hs1)
      · cases h

theorem patExecCall_sfx : ∀ l r, patExecCall l = some r → r <:+ l := by
  intro l r h
  unfold patExecCall at h
  cases h1 : eatLit ("exec".data) l with
  | none => rw [h1] at h; cases h
  | some r1 =>
    rw [h1] at h
    dsimp only at h
    cases h3 : eatSpaces r1 with
    | nil => rw [h3] at h; cases h
    | cons c cs =>
      rw [h3] at h
      dsimp only at h
      split at h
      · have hr : cs = r := by injection h
        exact hr ▸ (((List.suffix_cons c cs).trans (h3 ▸ eatSpaces_sfx r1)).trans
          (eatLit_sfx _ _ _ h1))
      · cases h

theorem patMessageTool_sfx : ∀ l r, patMessageTool l = some r → r <:+ l := by
  intro l r h
  unfold patMessageTool at h
  cases h1 : eatLit ("message".data) l with
  | none => rw [h1] at h; cases h
  | some r1 =>
    rw [h1] at h
    dsimp only at h
    cases r1 with
    | nil => cases h
    | cons c cs =>
      dsimp only at h
      split at h
      · cases h2 : eatLit ("tool".data) (eatSpaces cs) with
        | none => rw [h2] at h; cases h
        | some rr =>
          rw [h2] at h
          dsimp only at h
          split at h
          · cases h
            exact ((((eatLit_sfx _ _ _ h2).trans (eatSpaces_sfx cs)).trans
              (List.suffix_cons c cs)).trans (eatLit_sfx _ _ _ h1))
          · cases h
      · cases h

theorem patSpawn_sfx : ∀ l r, patSpawn l = some r → r <:+ l := by
  intro l r h
  unfold patSpawn at h
  cases h1 : eatLit ("sessions_spawn".data) l with
  | none => rw [h1] at h; cases h
  | some rr =>
    rw [h1] at h
    dsimp only at h
    split at h
    · cases h; exact eatLit_sfx _ _ _ h1
    · cases h

theorem patCredWord_sfx : ∀ l r, patCredWord l = some r → r <:+ l := by
  intro l r h
  unfold patCredWord at h
  cases h1 : eatLit ("api".data) l with
  | some r1 =>
    rw [h1] at h
    dsimp only at h
    cases r1 with
    | nil => cases h
    | cons c cs =>
      dsimp only at h
      split at h
      · exact ((eatLit_sfx _ _ _ h).trans (eatSpaces_sfx cs)).trans
          ((List.suffix_cons c cs).trans (eatLit_sfx _ _ _ h1))
      · cases h
  | none =>
    rw [h1] at h
    dsimp only at h
    cases h2 : eatLit ("password".data) l with
    | some x => rw [h2] at h; cases h; exact eatLit_sfx _ _ _ h2
    | none =>
      rw [h2] at h
      dsimp only at h
      cases h3 : eatLit ("token".data) l with
      | some x => rw [h3] at h; cases h; exact eatLit_sfx _ _ _ h3
      | none =>
        rw [h3] at h
        dsimp only at h
        cases h4 : eatLit ("secret".data) l with
        | some x => rw [h4] at h; cases h; exact eatLit_sfx _ _ _ h4
        | none =>
          rw [h4] at h
          dsimp only at h
          exact eatLit_sfx _ _ _ h

theorem patExfil_sfx : ∀ l r, patExfil l = some r → r <:+ l := by
  intro l r h
  unfold patExfil at h
  cases hw : (match eatLit ("send".data) l with
              | some x => some x
              | none =>
                match eatLit ("leak".data) l with
                | some x => some x
                | none => eatLit ("extract".data) l) with
  | none => rw [hw] at h; cases h
  | some r1 =>
    rw [hw] at h
    have hs1 : r1 <:+ l := by
      cases h1 : eatLit ("send".data) l with
      | some x => rw [h1] at hw; cases hw; exact eatLit_sfx _ _ _ h1
      | none =>
        rw [h1] at hw; dsimp only at hw
        cases h2 : eatLit ("leak".data) l with
        | some x => rw [h2] at hw; cases hw; exact eatLit_sfx _ _ _ h2
        | none => rw [h2] at hw; dsimp only at hw; exact eatLit_sfx _ _ _ hw
    dsimp only at h
    cases r1 with
    | nil => cases h
    | cons c cs =>
      dsimp only at h
      split at h
      · exact ((patCredWord_sfx _ _ h).trans (eatSpaces_sfx cs)).trans
          ((List.suffix_cons c cs).trans hs1)
      · cases h

end Clawdo

namespace Clawdo

/-- Characters surviving both control-strip passes. -/
def keptChar (c : Char) : Bool := !isAsciiCtl c && !isInvisible c

theorem filteredMark_kept : ∀ c ∈ filteredMark, keptChar c = true := by decide

theorem truncMark_kept : ∀ c ∈ truncMark, keptChar c = true := by decide

theorem replaceScan_mem (body : Str → Option Str)
    (hb : ∀ l r, body l = some r → r <:+ l) :
    ∀ (fuel : Nat) (prevW : Bool) (l : Str) (c : Char),
      c ∈ replaceScan body fuel prevW l → c ∈ l ∨ c ∈ filteredMark := by
  intro fuel
  induction fuel with
  | zero => intro prevW l c hc; exact Or.inl (by simpa [replaceScan] using hc)
  | succ n ih =>
    intro prevW l c hc
    cases l with
    | nil => simp [replaceScan] at hc
    | cons a as =>
      rw [replaceScan] at hc
      cases hm : (if prevW then none else body (a :: as)) with
      | some rest =>
        rw [hm] at hc
        dsimp only at hc
        rcases List.mem_append.mp hc with hf | hr
        · exact Or.inr hf
        · rcases ih _ rest c hr with hx | hx
          · left
            have hsub : rest ⊆ a :: as := by
              have : body (a :: as) = some rest := by
                by_cases hp : prevW
                · simp [hp] at hm
                · simpa [hp] using hm
              exact (hb _ _ this).subset
            exact hsub hx
          · exact Or.inr hx
      | none =>
        rw [hm] at hc
        rcases List.mem_cons.mp hc with rfl | hr
        · exact Or.inl (List.mem_cons_self _ _)
        · rcases ih _ as c hr with hx | hx
          · exact Or.inl (List.mem_cons_of_mem _ hx)
          · exact Or.inr hx

theorem replacePat_kept (body : Str → Option Str)
    (hb : ∀ l r, body l = some r → r <:+ l) (l : Str)
    (hl : ∀ c ∈ l, keptChar c = true) :
    ∀ c ∈ replacePat body l, keptChar c = true := by
  intro c hc
  rcases replaceScan_mem body hb _ _ _ _ hc with hx | hx
  · exact hl c hx
  · exact filteredMark_kept c hx

theorem stripInj_kept (l : Str) (hl : ∀ c ∈ l, keptChar c = true) :
    ∀ c ∈ stripInjectionPatterns l, keptChar c = true := by
  unfold stripInjectionPatterns
  exact replacePat_kept _ patExfil_sfx _
    (replacePat_kept _ patSpawn_sfx _
      (replacePat_kept _ patMessageTool_sfx _
        (replacePat_kept _ patExecCall_sfx _
          (replacePat_kept _ patExecVerb_sfx _
            (replacePat_kept _ patIgnore_sfx _
              (replacePat_kept _ patSystem_sfx _ hl))))))

theorem stripCtl_kept (l : Str) :
    ∀ c ∈ stripControlChars l, keptChar c = true := by
  intro c hc
  unfold stripControlChars at hc
  have h2 := List.mem_filter.mp hc
  have h1 := List.mem_filter.mp h2.1
  simp only [keptChar]
  rw [Bool.and_eq_true]
  exact ⟨h1.2, h2.2⟩

theorem stripCtl_id (l : Str) (hl : ∀ c ∈ l, keptChar c = true) :
    stripControlChars l = l := by
  unfold stripControlChars
  have h1 : l.filter (fun c => !isAsciiCtl c) = l :=
    List.filter_eq_self.mpr (fun c hc => by
      have := hl c hc
      simp only [keptChar, Bool.and_eq_true] at this
      exact this.1)
  rw [h1]
  exact List.filter_eq_self.mpr (fun c hc => by
    have := hl c hc
    simp only [keptChar, Bool.and_eq_true] at this
    exact this.2)

theorem truncate_kept (l : Str) (n : Nat) (hl : ∀ c ∈ l, keptChar c = true) :
    ∀ c ∈ truncate l n, keptChar c = true := by
  intro c hc
  unfold truncate at hc
  split at hc
  · exact hl c hc
  · rcases List.mem_append.mp hc with hx | hx
    · exact hl c (List.mem_of_mem_take hx)
    · exact truncMark_kept c hx

theorem truncate_idem (l : Str) (n : Nat) :
    truncate (truncate l n) n = truncate l n := by
  by_cases h : l.length ≤ n
  · have h1 : truncate l n = l := by unfold truncate; rw [if_pos h]
    rw [h1, h1]
  · have h1 : truncate l n = l.take (n - truncMark.length) ++ truncMark := by
      unfold truncate; rw [if_neg h]
    rw [h1]
    set z := l.take (n - truncMark.length) ++ truncMark with hz
    have hzlen : z.length = min (n - truncMark.length) l.length + truncMark.length := by
      rw [hz, List.length_append, List.length_take]
    by_cases h15 : truncMark.length ≤ n
    · have hle : z.length ≤ n := by
        rw [hzlen]
        have := Nat.min_le_left (n - truncMark.length) l.length
        omega
      unfold truncate
      rw [if_pos hle]
    · have hmin : n - truncMark.length = 0 := by omega
      have hzm : z = truncMark := by rw [hz, hmin]; simp
      have hgt : ¬ z.length ≤ n := by
        rw [hzlen, hmin]
        simp only [Nat.min_def]
        omega
      unfold truncate
      rw [if_neg hgt, hzm, hmin]
      simp

end Clawdo

namespace Clawdo

/-- C8, amended: the sanitization pipeline is idempotent on every input
whose single-pass output contains no further injection-pattern match (a
second stripInjectionPatterns is a no-op on it); control-character
stripping and truncation are unconditionally idempotent, so a second
sanitize then returns its input unchanged.  The unrestricted claim fails:
a replacement can juxtapose text into a fresh match of an earlier, already
applied pattern (see the counterexample). -/
theorem c8_amended_idempotence (x : Str) (n : Nat)
    (hfix : stripInjectionPatterns (sanitize x n) = sanitize x n) :
    sanitize (sanitize x n) n = sanitize x n := by
  have hkept : ∀ c ∈ sanitize x n, keptChar c = true := by
    intro c hc
    exact truncate_kept _ _ (stripInj_kept _ (stripCtl_kept x)) c hc
  have hctl : stripControlChars (sanitize x n) = sanitize x n :=
    stripCtl_id _ hkept
  rw [show sanitize (sanitize x n) n
        = truncate (stripInjectionPatterns (stripControlChars (sanitize x n))) n
      from rfl]
  rw [hctl, hfix]
  rw [show sanitize x n
        = truncate (stripInjectionPatterns (stripControlChars x)) n from rfl]
  exact truncate_idem _ _

/-- C8, counterexample: filtering IGNORE PREVIOUS INSTRUCTIONS out of this
input leaves a bracket before SYSTEM, creating a word boundary, so the
SYSTEM MESSAGE pattern (whose pass has already run) matches only on the
second sanitize: the pipeline is not idempotent. -/
theorem c8_counterexample :
    ¬ (sanitize (sanitize (("IGNORE PREVIOUS INSTRUCTIONSSYSTEM MESSAGE").data) 1000) 1000
       = sanitize (("IGNORE PREVIOUS INSTRUCTIONSSYSTEM MESSAGE").data) 1000) := by
  decide

/-- C8, witness: a concrete input satisfying the amended theorem's
hypothesis. -/
theorem c8_witness :
    stripInjectionPatterns (sanitize (("hello").data) 100)
      = sanitize (("hello").data) 100 ∧
    sanitize (sanitize (("hello").data) 100) 100 = sanitize (("hello").data) 100 :=
  ⟨by decide, c8_amended_idempotence _ _ (by decide)⟩

end Clawdo

namespace Clawdo

theorem setCfg_tasks (s : Store) (k : Str) (v : Option Str) :
    (setCfg s k v).tasks = s.tasks := by
  unfold setCfg
  split <;> rfl

theorem setCfg_history (s : Store) (k : Str) (v : Option Str) :
    (setCfg s k v).history = s.history := by
  unfold setCfg
  split <;> rfl

theorem rateGate_ok (s : Store) (nowMs : Nat) (s1 : Store)
    (h : rateGate s nowMs = .ok s1) :
    s1 = setCfg s lastProposalKey (some ((Nat.repr nowMs).data)) := by
  unfold rateGate at h
  dsimp only at h
  by_cases hpc : countProposed s ≥ 5
  · rw [if_pos hpc] at h; cases h
  · rw [if_neg hpc] at h
    cases hg : getCfg s lastProposalKey with
    | none =>
      rw [hg] at h
      injection h with h
      exact h.symm
    | some v =>
      cases v with
      | none =>
        rw [hg] at h
        injection h with h
        exact h.symm
      | some v0 =>
        rw [hg] at h
        dsimp only at h
        by_cases hv : v0.isEmpty
        · rw [if_pos hv] at h
          injection h with h
          exact h.symm
        · rw [if_neg hv] at h
          cases hp : parseDec v0 with
          | none =>
            rw [hp] at h
            injection h with h
            exact h.symm
          | some last =>
            rw [hp] at h
            dsimp only at h
            by_cases hcd : nowMs - last < 60000
            · rw [if_pos hcd] at h; cases h
            · rw [if_neg hcd] at h
              injection h with h
              exact h.symm

theorem addHist_tasks (s : Store) (e : HistEntry) : (addHist s e).tasks = s.tasks := rfl

theorem createTask_ok (s : Store) (text : Str) (addedBy : Actor)
    (o : CreateOpts) (freshId : Str) (nowMs : Nat) (nowIso : Str)
    (id0 : Str) (s2 : Store)
    (h : createTask s text addedBy o freshId nowMs nowIso = (.ok id0, s2)) :
    id0 = freshId ∧ validateTaskId freshId = true ∧ findTask s freshId = none ∧
    (truthy o.blockedBy = true →
      ∃ b, o.blockedBy = some b ∧ (getTask s b).isSome = true ∧
        detectBlockerCycle s freshId b = false) ∧
    ∃ t : Task,
      s2.tasks = s.tasks ++ [t] ∧
      t.id = freshId ∧ t.addedBy = addedBy ∧
      t.status = (if addedBy = .agent then TStatus.proposed else TStatus.todo) ∧
      t.attempts = 0 ∧ t.blockedBy = orNull o.blockedBy ∧
      parseAutonomy (orDefault o.autonomy ("collab".data)) = some t.autonomy := by
  unfold createTask at h
  repeat' split at h
  all_goals try (exact Except.noConfusion (congrArg Prod.fst h))
  case _ xa ct hct xb cp hcp xc cc hcc hpf hcf hdf hfresh xd hblk xe s1 hrg hag xf av hav xg uv huv hpg hcg =>
    dsimp only at h
    rw [Prod.mk.injEq] at h
    obtain ⟨hid, hs⟩ := h
    injection hid with hid
    have hfresh2 : (!validateTaskId freshId || (findTask s freshId).isSome) = false :=
      Bool.eq_false_iff.mpr hfresh
    rw [Bool.or_eq_false_iff] at hfresh2
    have hval : validateTaskId freshId = true := by
      have := hfresh2.1; simpa using this
    have hfind : findTask s freshId = none := by
      have := hfresh2.2
      simpa [Option.isNone_iff_eq_none] using this
    have hs1tasks : s1.tasks = s.tasks := by
      rw [hag] at hrg
      rw [rateGate_ok s nowMs s1 hrg, setCfg_tasks]
    refine ⟨hid.symm, hval, hfind, ?_, ?_⟩
    · intro htr
      rw [if_pos htr] at hblk
      cases hb : o.blockedBy with
      | none => rw [hb] at htr; cases htr
      | some b =>
        rw [hb] at hblk
        dsimp only at hblk
        split at hblk
        · cases hblk
        · cases hgb : getTask s b with
          | none => rw [hgb] at hblk; cases hblk
          | some bl =>
            rw [hgb] at hblk
            dsimp only at hblk
            split at hblk
            · cases hblk
            · rename_i hcyc
              exact ⟨b, rfl, by rw [hgb]; rfl, by simpa using hcyc⟩
    · refine ⟨{ id := freshId,
                text := ct,
                status := .proposed,
                autonomy := av,
                urgency := uv,
                project := cp,
                context := cc,
                dueDate := orNull o.dueDate,
                blockedBy := orNull o.blockedBy,
                addedBy := addedBy,
                createdAt := nowIso,
                startedAt := none,
                completedAt := none,
                notes := none,
                attempts := 0,
                lastAttemptAt := none,
                tokensUsed := 0,
                durationSec := 0 },
        ?_, rfl, rfl, by rw [hag, if_pos rfl], rfl, rfl, hav⟩
      rw [← hs, addHist_tasks]
      dsimp only
      rw [hs1tasks]
  case _ xa ct hct xb cp hcp xc cc hcc hpf hcf hdf hfresh xd hblk xe s1 hrg hag xf av hav xg uv huv hpg hcg =>
    dsimp only at h
    rw [Prod.mk.injEq] at h
    obtain ⟨hid, hs⟩ := h
    injection hid with hid
    have hfresh2 : (!validateTaskId freshId || (findTask s freshId).isSome) = false :=
      Bool.eq_false_iff.mpr hfresh
    rw [Bool.or_eq_false_iff] at hfresh2
    have hval : validateTaskId freshId = true := by
      have := hfresh2.1; simpa using this
    have hfind : findTask s freshId = none := by
      have := hfresh2.2
      simpa [Option.isNone_iff_eq_none] using this
    have hs1tasks : s1.tasks = s.tasks := by
      rw [if_neg hag] at hrg
      cases hrg
      rfl
    refine ⟨hid.symm, hval, hfind, ?_, ?_⟩
    · intro htr
      rw [if_pos htr] at hblk
      cases hb : o.blockedBy with
      | none => rw [hb] at htr; cases htr
      | some b =>
        rw [hb] at hblk
        dsimp only at hblk
        split at hblk
        · cases hblk
        · cases hgb : getTask s b with
          | none => rw [hgb] at hblk; cases hblk
          | some bl =>
            rw [hgb] at hblk
            dsimp only at hblk
            split at hblk
            · cases hblk
            · rename_i hcyc
              exact ⟨b, rfl, by rw [hgb]; rfl, by simpa using hcyc⟩
    · refine ⟨{ id := freshId,
                text := ct,
                status := .todo,
                autonomy := av,
                urgency := uv,
                project := cp,
                context := cc,
                dueDate := orNull o.dueDate,
                blockedBy := orNull o.blockedBy,
                addedBy := addedBy,
                createdAt := nowIso,
                startedAt := none,
                completedAt := none,
                notes := none,
                attempts := 0,
                lastAttemptAt := none,
                tokensUsed := 0,
                durationSec := 0 },
        ?_, rfl, rfl, by rw [if_neg hag], rfl, rfl, hav⟩
      rw [← hs, addHist_tasks]
      dsimp only
      rw [hs1tasks]

end Clawdo

namespace Clawdo

theorem find_none_append (l1 l2 : List Task) (p : Task → Bool)
    (h : l1.find? p = none) : (l1 ++ l2).find? p = l2.find? p := by
  induction l1 with
  | nil => rfl
  | cons a as ih =>
    rw [List.find?] at h
    cases hp : p a with
    | true => rw [hp] at h; cases h
    | false =>
      rw [hp] at h
      rw [List.cons_append, List.find?, hp]
      exact ih h

/-- C5: a freshly created task starts proposed exactly when its author is
the agent, and todo when its author is the human; the caller-supplied
confirmed option (quantified here inside the options record) has no
influence. -/
theorem c5_creation_status (s : Store) (text : Str) (addedBy : Actor)
    (o : CreateOpts) (freshId : Str) (nowMs : Nat) (nowIso : Str)
    (id0 : Str) (s2 : Store)
    (h : createTask s text addedBy o freshId nowMs nowIso = (.ok id0, s2)) :
    ∃ t, findTask s2 id0 = some t ∧ t.addedBy = addedBy ∧
      t.status = (if addedBy = .agent then TStatus.proposed else TStatus.todo) := by
  obtain ⟨hid, hval, hfind, hblk, t, htasks, htid, hadd, hstatus, _⟩ :=
    createTask_ok s text addedBy o freshId nowMs nowIso id0 s2 h
  subst hid
  refine ⟨t, ?_, hadd, hstatus⟩
  unfold findTask at hfind ⊢
  rw [htasks, find_none_append _ _ _ hfind, List.find?]
  have : (t.id == id0) = true := by
    rw [htid]
    exact beq_self_eq_true id0
  rw [this]

/-- C5, witness: an agent creation with confirmed set to true still starts
proposed, and a human creation starts todo. -/
theorem c5_witness :
    (∃ t, findTask ((createTask initStore (("Agent task").data) .agent
          { confirmed := true } (("aaaaaaaa").data) 0
          (("2026-01-01T00:00:00.000Z").data)).2) (("aaaaaaaa").data) = some t ∧
       t.addedBy = .agent ∧
       t.status = (if Actor.agent = .agent then TStatus.proposed else TStatus.todo)) ∧
    (∃ t, findTask ((createTask initStore (("Human task").data) .human {}
          (("bbbbbbbb").data) 0
          (("2026-01-01T00:00:00.000Z").data)).2) (("bbbbbbbb").data) = some t ∧
       t.addedBy = .human ∧
       t.status = (if Actor.human = .agent then TStatus.proposed else TStatus.todo)) :=
  ⟨c5_creation_status initStore (("Agent task").data) .agent
      { confirmed := true } (("aaaaaaaa").data) 0
      (("2026-01-01T00:00:00.000Z").data) (("aaaaaaaa").data) _ rfl,
   c5_creation_status initStore (("Human task").data) .human {}
      (("bbbbbbbb").data) 0
      (("2026-01-01T00:00:00.000Z").data) (("bbbbbbbb").data) _ rfl⟩

end Clawdo

namespace Clawdo

theorem unblock_step (w : Task) (i : Str) :
    (if w.blockedBy == some i then { w with blockedBy := none } else w).blockedBy ≠ some i := by
  by_cases hb : (w.blockedBy == some i) = true
  · rw [if_pos hb]
    intro hx
    exact Option.noConfusion hx
  · rw [if_neg hb]
    intro hx
    exact hb (by rw [hx]; exact beq_self_eq_true _)

/-- C4: completeTask signals TASK_NOT_CONFIRMED on a proposed task,
TASK_ALREADY_DONE on a done task, and TASK_BLOCKED when the blocker
exists and is neither done nor archived, leaving the store untouched in
each case; on success it marks the task done with completedAt set and, in
the same state change, clears blockedBy on every task that referenced it,
leaving no task blocked by the completed id. -/
theorem c4_complete_task (s : Store) (i : Str) (actor : Actor)
    (nowIso : Str) (sid slp : Option Str) (tu : Option (List Str)) (t : Task)
    (hget : getTask s i = some t) :
    (t.status = .proposed →
      completeTask s i actor nowIso sid slp tu = (.error (err .taskNotConfirmed), s)) ∧
    (t.status = .done →
      completeTask s i actor nowIso sid slp tu = (.error (err .taskAlreadyDone), s)) ∧
    (∀ b blocker, t.status ≠ .proposed → t.status ≠ .done →
      t.blockedBy = some b → b ≠ [] → getTask s b = some blocker →
      blocker.status ≠ .done → blocker.status ≠ .archived →
      completeTask s i actor nowIso sid slp tu = (.error (err .taskBlocked), s)) ∧
    (t.status ≠ .proposed → t.status ≠ .done →
      (∀ b blocker, t.blockedBy = some b → getTask s b = some blocker →
        blocker.status = .done ∨ blocker.status = .archived) →
      ∃ s9, completeTask s i actor nowIso sid slp tu = (.ok (), s9) ∧
        s9.tasks = s.tasks.map (fun u =>
          let u1 := if u.id == i then
                      { u with status := .done, completedAt := some nowIso }
                    else u
          if u1.blockedBy == some i then { u1 with blockedBy := none }
          else u1) ∧
        (∀ u ∈ s9.tasks, u.blockedBy ≠ some i)) := by
  refine ⟨?_, ?_, ?_, ?_⟩
  · intro hp
    unfold completeTask
    rw [hget]
    dsimp only
    rw [if_pos hp]
  · intro hd
    have hp : t.status ≠ .proposed := by rw [hd]; intro hx; cases hx
    unfold completeTask
    rw [hget]
    dsimp only
    rw [if_neg hp, if_pos hd]
  · intro b blocker hp hd hb hbne hgetb hbd hba
    unfold completeTask
    rw [hget]
    dsimp only
    rw [if_neg hp, if_neg hd]
    have htr : truthy t.blockedBy = true := by
      rw [hb]
      cases b with
      | nil => exact absurd rfl hbne
      | cons c cs => rfl
    rw [if_pos htr, hb]
    dsimp only [Option.bind]
    rw [hgetb]
    dsimp only
    have : (blocker.status ≠ TStatus.done && blocker.status ≠ TStatus.archived) = true := by
      simp [hbd, hba]
    rw [if_pos this]
  · intro hp hd hnb
    unfold completeTask
    rw [hget]
    dsimp only
    rw [if_neg hp, if_neg hd]
    have hcheck : (match (if truthy t.blockedBy = true then
                            t.blockedBy.bind (getTask s) else none) with
                   | some blocker =>
                     blocker.status ≠ TStatus.done && blocker.status ≠ TStatus.archived
                   | none => false) = false := by
      by_cases htr : truthy t.blockedBy = true
      · rw [if_pos htr]
        cases hb : t.blockedBy with
        | none => rfl
        | some b =>
          dsimp only [Option.bind]
          cases hgb : getTask s b with
          | none => rfl
          | some blocker =>
            have := hnb b blocker hb hgb
            dsimp only
            rcases this with hx | hx <;> simp [hx]
      · rw [if_neg htr]
    rw [if_neg (by rw [hcheck]; intro hx; cases hx)]
    have hmem : ∀ u ∈ s.tasks.map (fun u =>
        let u1 := if u.id == i then
                    { u with status := TStatus.done, completedAt := some nowIso }
                  else u
        if u1.blockedBy == some i then { u1 with blockedBy := none }
        else u1), u.blockedBy ≠ some i := by
      intro u hu
      rw [List.mem_map] at hu
      obtain ⟨v, hv, rfl⟩ := hu
      exact unblock_step _ i
    exact ⟨_, rfl, rfl, fun u hu => hmem u hu⟩

end Clawdo

namespace Clawdo

/-- C4, witness: a blocker with two dependents; completing it succeeds and
clears blockedBy on both dependents. -/
theorem c4_witness :
    ∃ s9,
      completeTask
        (runOps initStore
          [Op.create (("Blocker").data) .human {} (("aaaaaaaa").data) 0 (("t1").data),
           Op.create (("Dep one").data) .human {} (("bbbbbbbb").data) 0 (("t1").data),
           Op.create (("Dep two").data) .human {} (("cccccccc").data) 0 (("t1").data),
           Op.block (("bbbbbbbb").data) (("aaaaaaaa").data) .human (("t2").data),
           Op.block (("cccccccc").data) (("aaaaaaaa").data) .human (("t2").data)])
        (("aaaaaaaa").data) .human (("t3").data) none none none = (.ok (), s9) ∧
      s9.tasks = (runOps initStore
          [Op.create (("Blocker").data) .human {} (("aaaaaaaa").data) 0 (("t1").data),
           Op.create (("Dep one").data) .human {} (("bbbbbbbb").data) 0 (("t1").data),
           Op.create (("Dep two").data) .human {} (("cccccccc").data) 0 (("t1").data),
           Op.block (("bbbbbbbb").data) (("aaaaaaaa").data) .human (("t2").data),
           Op.block (("cccccccc").data) (("aaaaaaaa").data) .human (("t2").data)]).tasks.map
        (fun u =>
          let u1 := if u.id == (("aaaaaaaa").data) then
                      { u with status := TStatus.done,
                               completedAt := some (("t3").data) }
                    else u
          if u1.blockedBy == some (("aaaaaaaa").data) then
            { u1 with blockedBy := none }
          else u1) ∧
      (∀ u ∈ s9.tasks, u.blockedBy ≠ some (("aaaaaaaa").data)) := by
  refine ((c4_complete_task _ _ .human (("t3").data) none none none
    { id := (("aaaaaaaa").data), text := (("Blocker").data), status := .todo,
      autonomy := .collab, urgency := .whenever, project := none,
      context := none, dueDate := none, blockedBy := none, addedBy := .human,
      createdAt := (("t1").data), startedAt := none, completedAt := none,
      notes := none, attempts := 0, lastAttemptAt := none, tokensUsed := 0,
      durationSec := 0 } (by decide)).2.2.2) (by decide) (by decide) ?_
  intro b blocker hx
  exact Option.noConfusion hx

end Clawdo

namespace Clawdo

/-- C6: for an agent createTask whose earlier input validations pass (each
hypothesis is the literal guard of the source, including the JS-truthiness
tag guards that are skipped when the sanitized tag is empty, so calls
whose tags sanitize to the empty string are covered and reach the
limiter), a proposed-count of five or more fails with the rate-limit
error carrying the count, and a stored last-proposal timestamp less than
sixty seconds old fails with the rate-limit error carrying the remaining
whole seconds; in both cases the returned state is exactly the input
state, so both checks run before the cooldown stamp, the task row insert
and its CHECK constraints, and nothing is written. -/
theorem c6_agent_rate_limit (s : Store) (text ct : Str) (o : CreateOpts)
    (cp cc : Option Str) (freshId : Str) (nowMs : Nat) (nowIso : Str)
    (hpf : (match cp with
            | some p => !p.isEmpty && !plusTag p
            | none => false) = false)
    (hcf : (match cc with
            | some c => !c.isEmpty && !atTag c
            | none => false) = false)
    (hsan : sanitizeText text = .ok ct)
    (hcp : sanitizeTag o.project = .ok cp)
    (hcc : sanitizeTag o.context = .ok cc)
    (hdf : (match o.dueDate with
            | some d => !d.isEmpty && !(dateShape d && calendarOk d)
            | none => false) = false)
    (hid : (!validateTaskId freshId || (findTask s freshId).isSome) = false)
    (hgate : (if truthy o.blockedBy = true then
                match o.blockedBy with
                | some b =>
                  if (!validateTaskId b) = true then some (err ErrCode.blockerNotFound)
                  else match getTask s b with
                    | none => some (err ErrCode.blockerNotFound)
                    | some _ =>
                      if detectBlockerCycle s freshId b = true then
                        some (err ErrCode.circularDependency)
                      else none
                | none => none
              else none) = none) :
    (countProposed s ≥ 5 →
      createTask s text .agent o freshId nowMs nowIso =
        (.error { code := .rateLimited, proposedCount := some (countProposed s) }, s)) ∧
    (¬ countProposed s ≥ 5 →
      ∀ v last, getCfg s lastProposalKey = some (some v) → v.isEmpty = false →
        parseDec v = some last → nowMs - last < 60000 →
        createTask s text .agent o freshId nowMs nowIso =
          (.error { code := .rateLimited,
                    cooldownSec := some ((60000 - (nowMs - last) + 999) / 1000) }, s)) := by
  constructor
  · intro hge
    unfold createTask
    rw [hsan, hcp, hcc]
    dsimp only
    rw [hpf, hcf, hdf, hid]
    rw [if_neg Bool.false_ne_true, if_neg Bool.false_ne_true,
        if_neg Bool.false_ne_true, if_neg Bool.false_ne_true]
    rw [hgate]
    dsimp only
    rw [if_pos (rfl : Actor.agent = Actor.agent)]
    unfold rateGate
    dsimp only
    rw [if_pos hge]
  · intro hlt v last hv hve hparse hcool
    unfold createTask
    rw [hsan, hcp, hcc]
    dsimp only
    rw [hpf, hcf, hdf, hid]
    rw [if_neg Bool.false_ne_true, if_neg Bool.false_ne_true,
        if_neg Bool.false_ne_true, if_neg Bool.false_ne_true]
    rw [hgate]
    dsimp only
    rw [if_pos (rfl : Actor.agent = Actor.agent)]
    unfold rateGate
    dsimp only
    rw [if_neg hlt, hv]
    dsimp only
    rw [hve]
    rw [if_neg Bool.false_ne_true, hparse]
    dsimp only
    rw [if_pos hcool]

end Clawdo

namespace Clawdo

/-- C6, witness: with five agent proposals pending, a sixth agent creation
fails with the count payload; twenty-nine seconds after a stamped
proposal, an agent creation whose project is a zero-width space (the tag
sanitizes to the empty string, so the JS-truthiness format guard is
skipped and the call reaches the limiter) fails with a thirty-one second
wait payload.  Neither failing call changes the store. -/
theorem c6_witness :
    (createTask
        (runOps initStore
          [Op.create (("P1").data) .agent {} (("a1111111").data) 0 (("t1").data),
           Op.create (("P2").data) .agent {} (("a2222222").data) 100000 (("t1").data),
           Op.create (("P3").data) .agent {} (("a3333333").data) 200000 (("t1").data),
           Op.create (("P4").data) .agent {} (("a4444444").data) 300000 (("t1").data),
           Op.create (("P5").data) .agent {} (("a5555555").data) 400000 (("t1").data)])
        (("P6").data) .agent {} (("bbbbbbbb").data) 600000 (("t2").data) =
      (.error { code := .rateLimited,
                proposedCount := some (countProposed
                  (runOps initStore
                    [Op.create (("P1").data) .agent {} (("a1111111").data) 0 (("t1").data),
                     Op.create (("P2").data) .agent {} (("a2222222").data) 100000 (("t1").data),
                     Op.create (("P3").data) .agent {} (("a3333333").data) 200000 (("t1").data),
                     Op.create (("P4").data) .agent {} (("a4444444").data) 300000 (("t1").data),
                     Op.create (("P5").data) .agent {} (("a5555555").data) 400000 (("t1").data)])) },
       runOps initStore
         [Op.create (("P1").data) .agent {} (("a1111111").data) 0 (("t1").data),
          Op.create (("P2").data) .agent {} (("a2222222").data) 100000 (("t1").data),
          Op.create (("P3").data) .agent {} (("a3333333").data) 200000 (("t1").data),
          Op.create (("P4").data) .agent {} (("a4444444").data) 300000 (("t1").data),
          Op.create (("P5").data) .agent {} (("a5555555").data) 400000 (("t1").data)])) ∧
    (createTask
        (runOps initStore
          [Op.create (("P1").data) .agent {} (("a1111111").data) 1000 (("t1").data)])
        (("P2").data) .agent { project := some ['\u200B'] }
        (("bbbbbbbb").data) 30000 (("t2").data) =
      (.error { code := .rateLimited,
                cooldownSec := some ((60000 - (30000 - 1000) + 999) / 1000) },
       runOps initStore
         [Op.create (("P1").data) .agent {} (("a1111111").data) 1000 (("t1").data)])) := by
  constructor
  · exact (c6_agent_rate_limit
      (runOps initStore
        [Op.create (("P1").data) .agent {} (("a1111111").data) 0 (("t1").data),
         Op.create (("P2").data) .agent {} (("a2222222").data) 100000 (("t1").data),
         Op.create (("P3").data) .agent {} (("a3333333").data) 200000 (("t1").data),
         Op.create (("P4").data) .agent {} (("a4444444").data) 300000 (("t1").data),
         Op.create (("P5").data) .agent {} (("a5555555").data) 400000 (("t1").data)])
      (("P6").data) (("P6").data) {} none none (("bbbbbbbb").data) 600000
      (("t2").data) (by decide) (by decide) rfl rfl rfl (by decide) (by decide)
      (by decide)).1 (by decide)
  · exact (c6_agent_rate_limit
      (runOps initStore
        [Op.create (("P1").data) .agent {} (("a1111111").data) 1000 (("t1").data)])
      (("P2").data) (("P2").data) { project := some ['\u200B'] } (some [])
      none (("bbbbbbbb").data) 30000
      (("t2").data) (by decide) (by decide) rfl rfl rfl (by decide) (by decide)
      (by decide)).2 (by decide) (("1000").data) 1000 (by decide) (by decide)
      (by decide) (by decide)

end Clawdo

namespace Clawdo

/-- The combined notes value addNote computes: sanitized note behind a
date stamp, appended newline-separated to the existing notes (empty and
null existing notes take no separator). -/
def combinedNotes (t : Task) (nowIso clean : Str) : Str :=
  if truthy t.notes then
    (t.notes.getD []) ++ ('\n' :: (('[' :: datePart nowIso) ++ (("] ").data) ++ clean))
  else ('[' :: datePart nowIso) ++ (("] ").data) ++ clean

/-- C9: addNote sanitizes the note, prefixes the date stamp, appends
newline-separated to the existing notes, and when the combined text
exceeds the five-thousand character limit the whole call fails with the
too-long error and the store, hence the task's notes field, is exactly
unchanged; a note whose own sanitized form is over the limit likewise
fails unchanged; otherwise the task's notes become the combined text. -/
theorem c9_add_note (s : Store) (i : Str) (note : Str) (actor : Actor)
    (nowIso : Str) (t : Task) (hget : getTask s i = some t) :
    (∀ e, sanitizeNotes (some note) = .error e →
      addNote s i note actor nowIso = (.error e, s)) ∧
    (∀ clean, sanitizeNotes (some note) = .ok clean →
      ((combinedNotes t nowIso clean).length > 5000 →
        addNote s i note actor nowIso = (.error (err .textTooLong), s)) ∧
      (¬ (combinedNotes t nowIso clean).length > 5000 →
        ∃ s9, addNote s i note actor nowIso = (.ok (), s9) ∧
          s9.tasks = s.tasks.map (fun u =>
            if u.id == i then { u with notes := some (combinedNotes t nowIso clean) }
            else u))) := by
  constructor
  · intro e he
    unfold addNote
    rw [hget]
    dsimp only
    rw [he]
  · intro clean hc
    unfold combinedNotes
    constructor
    · intro hlong
      unfold addNote
      rw [hget]
      dsimp only
      rw [hc]
      dsimp only
      by_cases htr : truthy t.notes = true
      · rw [if_pos htr] at hlong
        rw [if_pos htr]
        rw [if_pos (by exact hlong)]
      · rw [if_neg htr] at hlong
        rw [if_neg htr]
        rw [if_pos (by exact hlong)]
    · intro hshort
      unfold addNote
      rw [hget]
      dsimp only
      rw [hc]
      dsimp only
      by_cases htr : truthy t.notes = true
      · rw [if_pos htr] at hshort ⊢
        rw [if_neg hshort]
        exact ⟨_, rfl, rfl⟩
      · rw [if_neg htr] at hshort ⊢
        rw [if_neg hshort]
        exact ⟨_, rfl, rfl⟩

/-- C10: over any store, a fetched active task lands in the urgent bucket
exactly when its urgency is now and its status todo or in_progress, in
the overdue bucket exactly when it carries a due date lexicographically
before today and its status is todo or in_progress, and a task meeting
both conditions appears in both buckets of the same inbox. -/
theorem c10_inbox_partitions (s : Store) (today staleThreshold since4h : Str) :
    (∀ t, t ∈ (generateInbox s today staleThreshold since4h).urgent ↔
      (t ∈ listTasks s { status := some [.todo, .inProgress, .proposed] } ∧
       t.urgency = .now ∧ (t.status = .todo ∨ t.status = .inProgress))) ∧
    (∀ t, t ∈ (generateInbox s today staleThreshold since4h).overdue ↔
      (t ∈ listTasks s { status := some [.todo, .inProgress, .proposed] } ∧
       (∃ d, t.dueDate = some d ∧ d ≠ [] ∧ strLt d today = true) ∧
       (t.status = .todo ∨ t.status = .inProgress))) ∧
    (∀ t, t ∈ listTasks s { status := some [.todo, .inProgress, .proposed] } →
      t.urgency = .now → (t.status = .todo ∨ t.status = .inProgress) →
      (∃ d, t.dueDate = some d ∧ d ≠ [] ∧ strLt d today = true) →
      t ∈ (generateInbox s today staleThreshold since4h).urgent ∧
      t ∈ (generateInbox s today staleThreshold since4h).overdue) := by
  have hurg : ∀ t, t ∈ (generateInbox s today staleThreshold since4h).urgent ↔
      (t ∈ listTasks s { status := some [.todo, .inProgress, .proposed] } ∧
       t.urgency = .now ∧ (t.status = .todo ∨ t.status = .inProgress)) := by
    intro t
    unfold generateInbox
    dsimp only
    rw [List.mem_filter]
    constructor
    · rintro ⟨hm, hc⟩
      rw [Bool.and_eq_true, Bool.or_eq_true] at hc
      refine ⟨hm, by simpa using hc.1, ?_⟩
      rcases hc.2 with hx | hx
      · exact Or.inl (by simpa using hx)
      · exact Or.inr (by simpa using hx)
    · rintro ⟨hm, hu, hs⟩
      refine ⟨hm, ?_⟩
      rw [Bool.and_eq_true, Bool.or_eq_true]
      refine ⟨by simpa using hu, ?_⟩
      rcases hs with hx | hx
      · exact Or.inl (by simpa using hx)
      · exact Or.inr (by simpa using hx)
  have hov : ∀ t, t ∈ (generateInbox s today staleThreshold since4h).overdue ↔
      (t ∈ listTasks s { status := some [.todo, .inProgress, .proposed] } ∧
       (∃ d, t.dueDate = some d ∧ d ≠ [] ∧ strLt d today = true) ∧
       (t.status = .todo ∨ t.status = .inProgress)) := by
    intro t
    unfold generateInbox
    dsimp only
    rw [List.mem_filter]
    constructor
    · rintro ⟨hm, hc⟩
      rw [Bool.and_eq_true, Bool.and_eq_true, Bool.or_eq_true] at hc
      obtain ⟨⟨htr, hlt⟩, hst⟩ := hc
      refine ⟨hm, ?_, ?_⟩
      · cases hd : t.dueDate with
        | none => rw [hd] at htr; cases htr
        | some d =>
          refine ⟨d, rfl, ?_, ?_⟩
          · rw [hd] at htr
            unfold truthy at htr
            intro hx
            rw [hx] at htr
            cases htr
          · rw [hd] at hlt
            simpa using hlt
      · rcases hst with hx | hx
        · exact Or.inl (by simpa using hx)
        · exact Or.inr (by simpa using hx)
    · rintro ⟨hm, ⟨d, hd, hdne, hdlt⟩, hs⟩
      refine ⟨hm, ?_⟩
      rw [Bool.and_eq_true, Bool.and_eq_true, Bool.or_eq_true]
      refine ⟨⟨?_, ?_⟩, ?_⟩
      · rw [hd]
        unfold truthy
        cases d with
        | nil => exact absurd rfl hdne
        | cons c cs => rfl
      · rw [hd]
        simpa using hdlt
      · rcases hs with hx | hx
        · exact Or.inl (by simpa using hx)
        · exact Or.inr (by simpa using hx)
  refine ⟨hurg, hov, ?_⟩
  intro t hm hu hs hd
  exact ⟨(hurg t).mpr ⟨hm, hu, hs⟩, (hov t).mpr ⟨hm, hd, hs⟩⟩

end Clawdo

namespace Clawdo

/-- C9, witness: on a task whose notes hold 4990 characters, appending a
note fails with the too-long error leaving the store unchanged, and on a
task without notes the same append succeeds. -/
theorem c9_witness :
    (addNote
      { tasks :=
          [{ id := (("aaaaaaaa").data),
             text := (("T").data),
             status := .todo,
             autonomy := .collab,
             urgency := .whenever,
             project := none,
             context := none,
             dueDate := none,
             blockedBy := none,
             addedBy := .human,
             createdAt := (("t1").data),
             startedAt := none,
             completedAt := none,
             notes := some (List.replicate 4990 'x'),
             attempts := 0,
             lastAttemptAt := none,
             tokensUsed := 0,
             durationSec := 0 }],
        history := [],
        config := [] }
      (("aaaaaaaa").data) (("Another note").data) .human (("t3").data) =
      (.error (err .textTooLong),
       { tasks :=
           [{ id := (("aaaaaaaa").data),
              text := (("T").data),
              status := .todo,
              autonomy := .collab,
              urgency := .whenever,
              project := none,
              context := none,
              dueDate := none,
              blockedBy := none,
              addedBy := .human,
              createdAt := (("t1").data),
              startedAt := none,
              completedAt := none,
              notes := some (List.replicate 4990 'x'),
              attempts := 0,
              lastAttemptAt := none,
              tokensUsed := 0,
              durationSec := 0 }],
         history := [],
         config := [] })) ∧
    (∃ s9, addNote
      { tasks :=
          [{ id := (("aaaaaaaa").data),
             text := (("T").data),
             status := .todo,
             autonomy := .collab,
             urgency := .whenever,
             project := none,
             context := none,
             dueDate := none,
             blockedBy := none,
             addedBy := .human,
             createdAt := (("t1").data),
             startedAt := none,
             completedAt := none,
             notes := none,
             attempts := 0,
             lastAttemptAt := none,
             tokensUsed := 0,
             durationSec := 0 }],
        history := [],
        config := [] }
      (("aaaaaaaa").data) (("First note").data) .human (("t3").data) =
      (.ok (), s9)) := by
  constructor
  · exact ((c9_add_note
      { tasks :=
          [{ id := (("aaaaaaaa").data),
               text := (("T").data),
               status := .todo,
               autonomy := .collab,
               urgency := .whenever,
               project := none,
               context := none,
               dueDate := none,
               blockedBy := none,
               addedBy := .human,
               createdAt := (("t1").data),
               startedAt := none,
               completedAt := none,
               notes := some (List.replicate 4990 'x'),
               attempts := 0,
               lastAttemptAt := none,
               tokensUsed := 0,
               durationSec := 0 }],
        history := [],
        config := [] }
      (("aaaaaaaa").data) (("Another note").data) .human (("t3").data)
      { id := (("aaaaaaaa").data),
          text := (("T").data),
          status := .todo,
          autonomy := .collab,
          urgency := .whenever,
          project := none,
          context := none,
          dueDate := none,
          blockedBy := none,
          addedBy := .human,
          createdAt := (("t1").data),
          startedAt := none,
          completedAt := none,
          notes := some (List.replicate 4990 'x'),
          attempts := 0,
          lastAttemptAt := none,
          tokensUsed := 0,
          durationSec := 0 }
      rfl).2 (("Another note").data) rfl).1 (by
        unfold combinedNotes
        rw [if_pos (show truthy (some (List.replicate 4990 'x')) = true from by
          rw [show List.replicate 4990 'x' = 'x' :: List.replicate 4989 'x' from rfl]
          rfl)]
        rw [show (some (List.replicate 4990 'x')).getD [] = List.replicate 4990 'x' from rfl]
        rw [List.length_append, List.length_replicate]
        decide)
  · refine ⟨_, (((c9_add_note
      { tasks :=
          [{ id := (("aaaaaaaa").data),
               text := (("T").data),
               status := .todo,
               autonomy := .collab,
               urgency := .whenever,
               project := none,
               context := none,
               dueDate := none,
               blockedBy := none,
               addedBy := .human,
               createdAt := (("t1").data),
               startedAt := none,
               completedAt := none,
               notes := none,
               attempts := 0,
               lastAttemptAt := none,
               tokensUsed := 0,
               durationSec := 0 }],
        history := [],
        config := [] }
      (("aaaaaaaa").data) (("First note").data) .human (("t3").data)
      { id := (("aaaaaaaa").data),
          text := (("T").data),
          status := .todo,
          autonomy := .collab,
          urgency := .whenever,
          project := none,
          context := none,
          dueDate := none,
          blockedBy := none,
          addedBy := .human,
          createdAt := (("t1").data),
          startedAt := none,
          completedAt := none,
          notes := none,
          attempts := 0,
          lastAttemptAt := none,
          tokensUsed := 0,
          durationSec := 0 }
      rfl).2 (("First note").data) rfl).2 (by decide)).choose_spec.1⟩

/-- C10, witness: a todo task with urgency now and a past due date lands in
both the urgent and overdue buckets of the same inbox. -/
theorem c10_witness :
    { id := (("aaaaaaaa").data),
      text := (("U").data),
      status := .todo,
      autonomy := .collab,
      urgency := .now,
      project := none,
      context := none,
      dueDate := some (("2025-12-01").data),
      blockedBy := none,
      addedBy := .human,
      createdAt := (("t1").data),
      startedAt := none,
      completedAt := none,
      notes := none,
      attempts := 0,
      lastAttemptAt := none,
      tokensUsed := 0,
      durationSec := 0 } ∈
      (generateInbox
        { tasks :=
            [{ id := (("aaaaaaaa").data),
               text := (("U").data),
               status := .todo,
               autonomy := .collab,
               urgency := .now,
               project := none,
               context := none,
               dueDate := some (("2025-12-01").data),
               blockedBy := none,
               addedBy := .human,
               createdAt := (("t1").data),
               startedAt := none,
               completedAt := none,
               notes := none,
               attempts := 0,
               lastAttemptAt := none,
               tokensUsed := 0,
               durationSec := 0 }],
          history := [],
          config := [] }
        (("2026-01-05").data) (("t0").data) (("t0").data)).urgent ∧
    { id := (("aaaaaaaa").data),
      text := (("U").data),
      status := .todo,
      autonomy := .collab,
      urgency := .now,
      project := none,
      context := none,
      dueDate := some (("2025-12-01").data),
      blockedBy := none,
      addedBy := .human,
      createdAt := (("t1").data),
      startedAt := none,
      completedAt := none,
      notes := none,
      attempts := 0,
      lastAttemptAt := none,
      tokensUsed := 0,
      durationSec := 0 } ∈
      (generateInbox
        { tasks :=
            [{ id := (("aaaaaaaa").data),
               text := (("U").data),
               status := .todo,
               autonomy := .collab,
               urgency := .now,
               project := none,
               context := none,
               dueDate := some (("2025-12-01").data),
               blockedBy := none,
               addedBy := .human,
               createdAt := (("t1").data),
               startedAt := none,
               completedAt := none,
               notes := none,
               attempts := 0,
               lastAttemptAt := none,
               tokensUsed := 0,
               durationSec := 0 }],
          history := [],
          config := [] }
        (("2026-01-05").data) (("t0").data) (("t0").data)).overdue :=
  (c10_inbox_partitions _ (("2026-01-05").data) (("t0").data)
    (("t0").data)).2.2 _
    (by unfold listTasks; rw [List.mem_mergeSort]; decide) rfl (Or.inl rfl)
    ⟨(("2025-12-01").data), rfl, by decide, by decide⟩

end Clawdo

namespace Clawdo

theorem ok_inj {α β : Type} (a b : α) (h : (Except.ok a : Except β α) = .ok b) :
    a = b := by
  injection h

theorem createTask_err (s : Store) (text : Str) (addedBy : Actor)
    (o : CreateOpts) (freshId : Str) (nowMs : Nat) (nowIso : Str)
    (e : CError) (s2 : Store)
    (h : createTask s text addedBy o freshId nowMs nowIso = (.error e, s2)) :
    s2.tasks = s.tasks ∧ s2.history = s.history ∧
    (s2 = s ∨ (addedBy = .agent ∧
      s2 = setCfg s lastProposalKey (some ((Nat.repr nowMs).data)))) := by
  unfold createTask at h
  repeat' split at h
  all_goals try (exact Except.noConfusion (congrArg Prod.fst h))
  all_goals
    try (have hs : s = s2 := congrArg Prod.snd h
         subst hs
         exact ⟨rfl, rfl, Or.inl rfl⟩)
  all_goals
    have hs1 : _ = s2 := congrArg Prod.snd h
  all_goals
    first
    | (have hag : addedBy = Actor.agent := by assumption
       rw [if_pos hag] at *
       have hset := rateGate_ok s nowMs _ (by assumption)
       rw [hset] at hs1
       rw [← hs1]
       exact ⟨setCfg_tasks _ _ _, setCfg_history _ _ _, Or.inr ⟨hag, rfl⟩⟩)
    | (have hag : ¬ addedBy = Actor.agent := by assumption
       rw [if_neg hag] at *
       have hq := ok_inj s _ (by assumption)
       rw [← hq] at hs1
       rw [← hs1]
       exact ⟨rfl, rfl, Or.inl rfl⟩)

end Clawdo

namespace Clawdo

/-- C7, counterexample: an agent createTask that fails the stored urgency
CHECK still leaves the last-agent-proposal config timestamp updated: the
error propagates after the cooldown stamp and the persisted state is not
the pre-call state. -/
theorem c7_counterexample :
    (createTask initStore (("task").data) .agent
      { urgency := some (("bogus").data) } (("aaaaaaaa").data) 5
      (("t1").data)).1 = .error (err .invalidUrgency) ∧
    (createTask initStore (("task").data) .agent
      { urgency := some (("bogus").data) } (("aaaaaaaa").data) 5
      (("t1").data)).2 ≠ initStore :=
  ⟨rfl, by decide⟩

set_option maxHeartbeats 1600000

/-- C7, amended: a Task Store operation that throws never leaves partially
written task rows or history rows — both tables are exactly the pre-call
ones — and every operation except an agent createTask leaves the whole
state (config included) unchanged; a failing agent createTask may leave
exactly one difference, the last-agent-proposal cooldown timestamp, which
is written before the row insert. -/
theorem c7_amended_atomicity (s : Store) (op : Op) (e : CError) (s2 : Store)
    (h : execOp s op = (.error e, s2)) :
    s2.tasks = s.tasks ∧ s2.history = s.history ∧
    (s2 = s ∨ ∃ text o freshId nowMs nowIso,
      op = .create text .agent o freshId nowMs nowIso ∧
      s2 = setCfg s lastProposalKey (some ((Nat.repr nowMs).data))) := by
  cases op with
  | create text addedBy o freshId nowMs nowIso =>
    simp only [execOp] at h
    have h1 : (createTask s text addedBy o freshId nowMs nowIso).1.map
        (fun _ => ()) = .error e := congrArg Prod.fst h
    have h2 : (createTask s text addedBy o freshId nowMs nowIso).2 = s2 :=
      congrArg Prod.snd h
    cases hc : (createTask s text addedBy o freshId nowMs nowIso).1 with
    | ok v => rw [hc] at h1; exact Except.noConfusion h1
    | error e0 =>
      have hcr : createTask s text addedBy o freshId nowMs nowIso =
          (.error e0, s2) := by
        have := Prod.mk.eta
          (p := createTask s text addedBy o freshId nowMs nowIso)
        rw [hc, h2] at this
        exact this.symm
      obtain ⟨ht, hh, hd⟩ :=
        createTask_err s text addedBy o freshId nowMs nowIso e0 s2 hcr
      refine ⟨ht, hh, ?_⟩
      rcases hd with hd | ⟨hag, hset⟩
      · exact Or.inl hd
      · exact Or.inr ⟨text, o, freshId, nowMs, nowIso, by rw [hag], hset⟩
  | update i u actor nowIso =>
    simp only [execOp] at h
    unfold updateTask at h
    repeat' (first | (split at h) | (dsimp only at h))
    all_goals try (exact Except.noConfusion (congrArg Prod.fst h))
    all_goals
      (have hs : s = s2 := congrArg Prod.snd h
       subst hs
       exact ⟨rfl, rfl, Or.inl rfl⟩)
  | start i actor nowIso =>
    simp only [execOp] at h
    unfold startTask at h
    repeat' split at h
    all_goals try (exact Except.noConfusion (congrArg Prod.fst h))
    all_goals
      (have hs : s = s2 := congrArg Prod.snd h
       subst hs
       exact ⟨rfl, rfl, Or.inl rfl⟩)
  | complete i actor nowIso sid slp tu =>
    simp only [execOp] at h
    unfold completeTask at h
    repeat' split at h
    all_goals try (exact Except.noConfusion (congrArg Prod.fst h))
    all_goals
      (have hs : s = s2 := congrArg Prod.snd h
       subst hs
       exact ⟨rfl, rfl, Or.inl rfl⟩)
  | fail i reason nowIso =>
    simp only [execOp] at h
    unfold failTask at h
    repeat' split at h
    all_goals try (exact Except.noConfusion (congrArg Prod.fst h))
    all_goals
      (have hs : s = s2 := congrArg Prod.snd h
       subst hs
       exact ⟨rfl, rfl, Or.inl rfl⟩)
  | archive i actor nowIso =>
    simp only [execOp] at h
    unfold archiveTask at h
    repeat' split at h
    all_goals try (exact Except.noConfusion (congrArg Prod.fst h))
    all_goals
      (have hs : s = s2 := congrArg Prod.snd h
       subst hs
       exact ⟨rfl, rfl, Or.inl rfl⟩)
  | unarchive i actor nowIso =>
    simp only [execOp] at h
    unfold unarchiveTask at h
    repeat' split at h
    all_goals try (exact Except.noConfusion (congrArg Prod.fst h))
    all_goals
      (have hs : s = s2 := congrArg Prod.snd h
       subst hs
       exact ⟨rfl, rfl, Or.inl rfl⟩)
  | bulkComplete f actor nowIso =>
    simp only [execOp] at h
    exact Except.noConfusion (congrArg Prod.fst h)
  | bulkArchive f actor nowIso =>
    simp only [execOp] at h
    exact Except.noConfusion (congrArg Prod.fst h)
  | confirm i actor nowIso =>
    simp only [execOp] at h
    unfold confirmTask at h
    repeat' split at h
    all_goals try (exact Except.noConfusion (congrArg Prod.fst h))
    all_goals
      (have hs : s = s2 := congrArg Prod.snd h
       subst hs
       exact ⟨rfl, rfl, Or.inl rfl⟩)
  | reject i actor reason nowIso =>
    simp only [execOp] at h
    unfold rejectTask at h
    repeat' split at h
    all_goals try (exact Except.noConfusion (congrArg Prod.fst h))
    all_goals
      (have hs : s = s2 := congrArg Prod.snd h
       subst hs
       exact ⟨rfl, rfl, Or.inl rfl⟩)
  | block i blockerId actor nowIso =>
    simp only [execOp] at h
    unfold blockTask at h
    repeat' split at h
    all_goals try (exact Except.noConfusion (congrArg Prod.fst h))
    all_goals
      (have hs : s = s2 := congrArg Prod.snd h
       subst hs
       exact ⟨rfl, rfl, Or.inl rfl⟩)
  | unblock i actor nowIso =>
    simp only [execOp] at h
    unfold unblockTask at h
    repeat' split at h
    all_goals try (exact Except.noConfusion (congrArg Prod.fst h))
    all_goals
      (have hs : s = s2 := congrArg Prod.snd h
       subst hs
       exact ⟨rfl, rfl, Or.inl rfl⟩)
  | note i text actor nowIso =>
    simp only [execOp] at h
    unfold addNote at h
    repeat' (first | (split at h) | (dsimp only at h))
    all_goals try (exact Except.noConfusion (congrArg Prod.fst h))
    all_goals
      (have hs : s = s2 := congrArg Prod.snd h
       subst hs
       exact ⟨rfl, rfl, Or.inl rfl⟩)
  | retry i threshold =>
    simp only [execOp] at h
    exact Except.noConfusion (congrArg Prod.fst h)
  | putConfig k v =>
    simp only [execOp] at h
    exact Except.noConfusion (congrArg Prod.fst h)
  | acquire lockId nowIso =>
    simp only [execOp] at h
    exact Except.noConfusion (congrArg Prod.fst h)
  | release lockId =>
    simp only [execOp] at h
    exact Except.noConfusion (congrArg Prod.fst h)

set_option maxHeartbeats 200000
/-- C7, witness: a failing startTask on a missing id leaves tasks, history
and the whole store unchanged. -/
theorem c7_witness :
    ((execOp initStore (Op.start (("aaaaaaaa").data) .human (("t1").data))).2.tasks
      = initStore.tasks) ∧
    ((execOp initStore (Op.start (("aaaaaaaa").data) .human (("t1").data))).2.history
      = initStore.history) ∧
    ((execOp initStore (Op.start (("aaaaaaaa").data) .human (("t1").data))).2
        = initStore ∨
      ∃ text o freshId nowMs nowIso,
        Op.start (("aaaaaaaa").data) .human (("t1").data) =
          .create text .agent o freshId nowMs nowIso ∧
        (execOp initStore (Op.start (("aaaaaaaa").data) .human (("t1").data))).2
          = setCfg initStore lastProposalKey (some ((Nat.repr nowMs).data))) :=
  c7_amended_atomicity initStore _ (err .taskNotFound) _ rfl

end Clawdo

namespace Clawdo

theorem mem_eq_of_nodup (l : List Task) (hnd : (l.map Task.id).Nodup)
    (t u : Task) (ht : t ∈ l) (hu : u ∈ l) (hid : u.id = t.id) : u = t :=
  List.inj_on_of_nodup_map hnd hu ht hid

theorem findTask_mem (s : Store) (i : Str) (task : Task)
    (h : findTask s i = some task) : task ∈ s.tasks ∧ task.id = i := by
  unfold findTask at h
  refine ⟨List.mem_of_find?_eq_some h, ?_⟩
  have := List.find?_some h
  exact eq_of_beq this

theorem getTask_mem (s : Store) (i : Str) (task : Task)
    (h : getTask s i = some task) : task ∈ s.tasks ∧ task.id = i := by
  unfold getTask at h
  split at h
  · exact findTask_mem s i task h
  · cases h

theorem map_mem_eq (l : List Task) (g : Task → Task)
    (hgid : ∀ u ∈ l, (g u).id = u.id)
    (hnd : (l.map Task.id).Nodup)
    (t t1 : Task) (ht : t ∈ l) (ht1 : t1 ∈ l.map g) (hid : t1.id = t.id) :
    t1 = g t := by
  obtain ⟨u, hu, rfl⟩ := List.mem_map.mp ht1
  have huid : u.id = t.id := by rw [← hgid u hu]; exact hid
  rw [mem_eq_of_nodup l hnd t u ht hu huid]

theorem replace1_mem (s : Store) (i : Str) (f : Task → Task)
    (hfid : ∀ u, (f u).id = u.id)
    (hnd : (s.tasks.map Task.id).Nodup)
    (t t1 : Task) (ht : t ∈ s.tasks)
    (ht1 : t1 ∈ (replace1 s i f).tasks) (hid : t1.id = t.id) :
    t1 = (if t.id == i then f t else t) := by
  have hg : ∀ u ∈ s.tasks,
      ((fun u => if u.id == i then f u else u) u).id = u.id := by
    intro u hu
    dsimp only
    split
    · exact hfid u
    · rfl
  have := map_mem_eq s.tasks (fun u => if u.id == i then f u else u)
    hg hnd t t1 ht ht1 hid
  simpa using this

theorem startTask_cases (s : Store) (i : Str) (actor : Actor) (nowIso : Str)
    (r : Except CError Unit) (s2 : Store)
    (h : startTask s i actor nowIso = (r, s2))
    (hnd : (s.tasks.map Task.id).Nodup)
    (t t1 : Task) (ht : t ∈ s.tasks) (ht1 : t1 ∈ s2.tasks)
    (hid : t1.id = t.id) :
    t1 = t ∨
    (t1 = { t with status := .inProgress, startedAt := some nowIso } ∧
     t.status = .todo) := by
  unfold startTask at h
  cases hget : getTask s i with
  | none =>
    rw [hget] at h
    have hs : s = s2 := congrArg Prod.snd h
    subst hs
    exact Or.inl (mem_eq_of_nodup _ hnd t t1 ht ht1 hid)
  | some task =>
    rw [hget] at h
    dsimp only at h
    by_cases hip : task.status = TStatus.inProgress
    · rw [if_pos hip] at h
      have hs : s = s2 := congrArg Prod.snd h
      subst hs
      exact Or.inl (mem_eq_of_nodup _ hnd t t1 ht ht1 hid)
    · rw [if_neg hip] at h
      by_cases hnt : task.status ≠ TStatus.todo
      · rw [if_pos hnt] at h
        have hs : s = s2 := congrArg Prod.snd h
        subst hs
        exact Or.inl (mem_eq_of_nodup _ hnd t t1 ht ht1 hid)
      · rw [if_neg hnt] at h
        by_cases hb : (match (if truthy task.blockedBy = true then
                                task.blockedBy.bind (getTask s) else none) with
                       | some blocker =>
                         blocker.status ≠ TStatus.done &&
                           blocker.status ≠ TStatus.archived
                       | none => false) = true
        · rw [if_pos hb] at h
          have hs : s = s2 := congrArg Prod.snd h
          subst hs
          exact Or.inl (mem_eq_of_nodup _ hnd t t1 ht ht1 hid)
        · rw [if_neg hb] at h
          have hs2 : _ = s2 := congrArg Prod.snd h
          rw [← hs2] at ht1
          have ht1m := replace1_mem s i
            (fun u => { u with status := .inProgress, startedAt := some nowIso })
            (fun u => rfl) hnd t t1 ht ht1 hid
          by_cases hmatch : (t.id == i) = true
          · rw [if_pos hmatch] at ht1m
            right
            refine ⟨ht1m, ?_⟩
            obtain ⟨htm, htid⟩ := getTask_mem s i _ hget
            have heqt := mem_eq_of_nodup _ hnd t _ ht htm
              (by rw [htid]; exact (eq_of_beq hmatch).symm)
            rw [← heqt]
            exact not_not.mp hnt
          · rw [if_neg hmatch] at ht1m
            exact Or.inl ht1m

end Clawdo

namespace Clawdo

theorem archiveTask_cases (s : Store) (i : Str) (actor : Actor) (nowIso : Str)
    (r : Except CError Unit) (s2 : Store)
    (h : archiveTask s i actor nowIso = (r, s2))
    (hnd : (s.tasks.map Task.id).Nodup)
    (t t1 : Task) (ht : t ∈ s.tasks) (ht1 : t1 ∈ s2.tasks)
    (hid : t1.id = t.id) :
    t1 = t ∨ (t1 = { t with status := .archived } ∧ t.status ≠ .archived) := by
  unfold archiveTask at h
  cases hget : getTask s i with
  | none =>
    rw [hget] at h
    have hs : s = s2 := congrArg Prod.snd h
    subst hs
    exact Or.inl (mem_eq_of_nodup _ hnd t t1 ht ht1 hid)
  | some task =>
    rw [hget] at h
    dsimp only at h
    by_cases ha : task.status = TStatus.archived
    · rw [if_pos ha] at h
      have hs : s = s2 := congrArg Prod.snd h
      subst hs
      exact Or.inl (mem_eq_of_nodup _ hnd t t1 ht ht1 hid)
    · rw [if_neg ha] at h
      have hs2 : _ = s2 := congrArg Prod.snd h
      rw [← hs2] at ht1
      have ht1m := replace1_mem s i (fun u => { u with status := .archived })
        (fun u => rfl) hnd t t1 ht ht1 hid
      by_cases hmatch : (t.id == i) = true
      · rw [if_pos hmatch] at ht1m
        right
        refine ⟨ht1m, ?_⟩
        obtain ⟨htm, htid⟩ := getTask_mem s i _ hget
        have heqt := mem_eq_of_nodup _ hnd t _ ht htm
          (by rw [htid]; exact (eq_of_beq hmatch).symm)
        rw [← heqt]
        exact ha
      · rw [if_neg hmatch] at ht1m
        exact Or.inl ht1m

theorem unarchiveTask_cases (s : Store) (i : Str) (actor : Actor)
    (nowIso : Str) (r : Except CError Unit) (s2 : Store)
    (h : unarchiveTask s i actor nowIso = (r, s2))
    (hnd : (s.tasks.map Task.id).Nodup)
    (t t1 : Task) (ht : t ∈ s.tasks) (ht1 : t1 ∈ s2.tasks)
    (hid : t1.id = t.id) :
    t1 = t ∨ t1 = { t with status := .todo } := by
  unfold unarchiveTask at h
  cases hget : getTask s i with
  | none =>
    rw [hget] at h
    have hs : s = s2 := congrArg Prod.snd h
    subst hs
    exact Or.inl (mem_eq_of_nodup _ hnd t t1 ht ht1 hid)
  | some task =>
    rw [hget] at h
    dsimp only at h
    have hs2 : _ = s2 := congrArg Prod.snd h
    rw [← hs2] at ht1
    have ht1m := replace1_mem s i (fun u => { u with status := .todo })
      (fun u => rfl) hnd t t1 ht ht1 hid
    by_cases hmatch : (t.id == i) = true
    · rw [if_pos hmatch] at ht1m
      exact Or.inr ht1m
    · rw [if_neg hmatch] at ht1m
      exact Or.inl ht1m

theorem confirmTask_cases (s : Store) (i : Str) (actor : Actor)
    (nowIso : Str) (r : Except CError Unit) (s2 : Store)
    (h : confirmTask s i actor nowIso = (r, s2))
    (hnd : (s.tasks.map Task.id).Nodup)
    (t t1 : Task) (ht : t ∈ s.tasks) (ht1 : t1 ∈ s2.tasks)
    (hid : t1.id = t.id) :
    t1 = t ∨ (t1 = { t with status := .todo } ∧ t.status = .proposed) := by
  unfold confirmTask at h
  cases hget : getTask s i with
  | none =>
    rw [hget] at h
    have hs : s = s2 := congrArg Prod.snd h
    subst hs
    exact Or.inl (mem_eq_of_nodup _ hnd t t1 ht ht1 hid)
  | some task =>
    rw [hget] at h
    dsimp only at h
    by_cases hp : task.status ≠ TStatus.proposed
    · rw [if_pos hp] at h
      have hs : s = s2 := congrArg Prod.snd h
      subst hs
      exact Or.inl (mem_eq_of_nodup _ hnd t t1 ht ht1 hid)
    · rw [if_neg hp] at h
      have hs2 : _ = s2 := congrArg Prod.snd h
      rw [← hs2] at ht1
      have ht1m := replace1_mem s i (fun u => { u with status := .todo })
        (fun u => rfl) hnd t t1 ht ht1 hid
      by_cases hmatch : (t.id == i) = true
      · rw [if_pos hmatch] at ht1m
        right
        refine ⟨ht1m, ?_⟩
        obtain ⟨htm, htid⟩ := getTask_mem s i _ hget
        have heqt := mem_eq_of_nodup _ hnd t _ ht htm
          (by rw [htid]; exact (eq_of_beq hmatch).symm)
        rw [← heqt]
        exact not_not.mp hp
      · rw [if_neg hmatch] at ht1m
        exact Or.inl ht1m

theorem rejectTask_cases (s : Store) (i : Str) (actor : Actor)
    (reason : Option Str) (nowIso : Str) (r : Except CError Unit) (s2 : Store)
    (h : rejectTask s i actor reason nowIso = (r, s2))
    (hnd : (s.tasks.map Task.id).Nodup)
    (t t1 : Task) (ht : t ∈ s.tasks) (ht1 : t1 ∈ s2.tasks)
    (hid : t1.id = t.id) :
    t1 = t ∨ (t1 = { t with status := .archived } ∧ t.status = .proposed) := by
  unfold rejectTask at h
  cases hget : getTask s i with
  | none =>
    rw [hget] at h
    have hs : s = s2 := congrArg Prod.snd h
    subst hs
    exact Or.inl (mem_eq_of_nodup _ hnd t t1 ht ht1 hid)
  | some task =>
    rw [hget] at h
    dsimp only at h
    by_cases hp : task.status ≠ TStatus.proposed
    · rw [if_pos hp] at h
      have hs : s = s2 := congrArg Prod.snd h
      subst hs
      exact Or.inl (mem_eq_of_nodup _ hnd t t1 ht ht1 hid)
    · rw [if_neg hp] at h
      have hs2 : _ = s2 := congrArg Prod.snd h
      rw [← hs2] at ht1
      have ht1m := replace1_mem s i (fun u => { u with status := .archived })
        (fun u => rfl) hnd t t1 ht ht1 hid
      by_cases hmatch : (t.id == i) = true
      · rw [if_pos hmatch] at ht1m
        right
        refine ⟨ht1m, ?_⟩
        obtain ⟨htm, htid⟩ := getTask_mem s i _ hget
        have heqt := mem_eq_of_nodup _ hnd t _ ht htm
          (by rw [htid]; exact (eq_of_beq hmatch).symm)
        rw [← heqt]
        exact not_not.mp hp
      · rw [if_neg hmatch] at ht1m
        exact Or.inl ht1m

theorem unblockTask_cases (s : Store) (i : Str) (actor : Actor)
    (nowIso : Str) (r : Except CError Unit) (s2 : Store)
    (h : unblockTask s i actor nowIso = (r, s2))
    (hnd : (s.tasks.map Task.id).Nodup)
    (t t1 : Task) (ht : t ∈ s.tasks) (ht1 : t1 ∈ s2.tasks)
    (hid : t1.id = t.id) :
    t1 = t ∨ t1 = { t with blockedBy := none } := by
  unfold unblockTask at h
  cases hget : getTask s i with
  | none =>
    rw [hget] at h
    have hs : s = s2 := congrArg Prod.snd h
    subst hs
    exact Or.inl (mem_eq_of_nodup _ hnd t t1 ht ht1 hid)
  | some task =>
    rw [hget] at h
    dsimp only at h
    have hs2 : _ = s2 := congrArg Prod.snd h
    rw [← hs2] at ht1
    have ht1m := replace1_mem s i (fun u => { u with blockedBy := none })
      (fun u => rfl) hnd t t1 ht ht1 hid
    by_cases hmatch : (t.id == i) = true
    · rw [if_pos hmatch] at ht1m
      exact Or.inr ht1m
    · rw [if_neg hmatch] at ht1m
      exact Or.inl ht1m

theorem canRetry_cases (s : Store) (i : Str) (threshold : Str) (s2 : Store)
    (h : (canRetry s i threshold).2 = s2)
    (hnd : (s.tasks.map Task.id).Nodup)
    (t t1 : Task) (ht : t ∈ s.tasks) (ht1 : t1 ∈ s2.tasks)
    (hid : t1.id = t.id) :
    t1 = t ∨ (t1 = { t with status := .inProgress } ∧ t.status = .todo) := by
  unfold canRetry at h
  by_cases hv : (!validateTaskId i) = true
  · rw [if_pos hv] at h
    dsimp only at h
    subst h
    exact Or.inl (mem_eq_of_nodup _ hnd t t1 ht ht1 hid)
  · rw [if_neg hv] at h
    cases hf : findTask s i with
    | none =>
      rw [hf] at h
      dsimp only at h
      subst h
      exact Or.inl (mem_eq_of_nodup _ hnd t t1 ht ht1 hid)
    | some task =>
      rw [hf] at h
      dsimp only at h
      by_cases hc : (task.status == TStatus.todo && task.attempts < 3 &&
          (task.lastAttemptAt.isNone ||
           strLt (task.lastAttemptAt.getD []) threshold)) = true
      · rw [if_pos hc] at h
        dsimp only at h
        rw [← h] at ht1
        have ht1m := replace1_mem s i
          (fun u => { u with status := .inProgress })
          (fun u => rfl) hnd t t1 ht ht1 hid
        by_cases hmatch : (t.id == i) = true
        · rw [if_pos hmatch] at ht1m
          right
          refine ⟨ht1m, ?_⟩
          obtain ⟨htm, htid⟩ := findTask_mem s i _ hf
          have heqt := mem_eq_of_nodup _ hnd t _ ht htm
            (by rw [htid]; exact (eq_of_beq hmatch).symm)
          rw [← heqt]
          rw [Bool.and_eq_true, Bool.and_eq_true] at hc
          exact eq_of_beq hc.1.1
        · rw [if_neg hmatch] at ht1m
          exact Or.inl ht1m
      · rw [if_neg hc] at h
        dsimp only at h
        subst h
        exact Or.inl (mem_eq_of_nodup _ hnd t t1 ht ht1 hid)

end Clawdo

namespace Clawdo

theorem completeTask_cases (s : Store) (i : Str) (actor : Actor)
    (nowIso : Str) (sid slp : Option Str) (tu : Option (List Str))
    (r : Except CError Unit) (s2 : Store)
    (h : completeTask s i actor nowIso sid slp tu = (r, s2))
    (hnd : (s.tasks.map Task.id).Nodup)
    (t t1 : Task) (ht : t ∈ s.tasks) (ht1 : t1 ∈ s2.tasks)
    (hid : t1.id = t.id) :
    t1 = t ∨
    (t1 = { t with blockedBy := none } ∧ t.blockedBy = some i ∧ t.id ≠ i) ∨
    ((t1 = { t with status := .done, completedAt := some nowIso } ∨
      t1 = { t with
             status := .done,
             completedAt := some nowIso,
             blockedBy := none }) ∧
     t.id = i ∧ t.status ≠ .proposed ∧ t.status ≠ .done) := by
  unfold completeTask at h
  cases hget : getTask s i with
  | none =>
    rw [hget] at h
    have hs : s = s2 := congrArg Prod.snd h
    subst hs
    exact Or.inl (mem_eq_of_nodup _ hnd t t1 ht ht1 hid)
  | some task =>
    rw [hget] at h
    dsimp only at h
    by_cases hp : task.status = TStatus.proposed
    · rw [if_pos hp] at h
      have hs : s = s2 := congrArg Prod.snd h
      subst hs
      exact Or.inl (mem_eq_of_nodup _ hnd t t1 ht ht1 hid)
    · rw [if_neg hp] at h
      by_cases hd : task.status = TStatus.done
      · rw [if_pos hd] at h
        have hs : s = s2 := congrArg Prod.snd h
        subst hs
        exact Or.inl (mem_eq_of_nodup _ hnd t t1 ht ht1 hid)
      · rw [if_neg hd] at h
        by_cases hb : (match (if truthy task.blockedBy = true then
                                task.blockedBy.bind (getTask s) else none) with
                       | some blocker =>
                         blocker.status ≠ TStatus.done &&
                           blocker.status ≠ TStatus.archived
                       | none => false) = true
        · rw [if_pos hb] at h
          have hs : s = s2 := congrArg Prod.snd h
          subst hs
          exact Or.inl (mem_eq_of_nodup _ hnd t t1 ht ht1 hid)
        · rw [if_neg hb] at h
          have hs2 : _ = s2 := congrArg Prod.snd h
          rw [← hs2] at ht1
          have ht1x : t1 ∈ List.map
              (fun u =>
                let u1 := if u.id == i then
                            { u with
                              status := .done,
                              completedAt := some nowIso }
                          else u
                if u1.blockedBy == some i then { u1 with blockedBy := none }
                else u1) s.tasks := ht1
          have ht1m := map_mem_eq s.tasks
            (fun u =>
              let u1 := if u.id == i then
                          { u with
                            status := .done,
                            completedAt := some nowIso }
                        else u
              if u1.blockedBy == some i then { u1 with blockedBy := none }
              else u1)
            (by
              intro u hu
              dsimp only
              split
              · split
                · rfl
                · rfl
              · split
                · rfl
                · rfl)
            hnd t t1 ht ht1x hid
          dsimp only at ht1m
          by_cases hmatch : (t.id == i) = true
          · rw [if_pos hmatch] at ht1m
            right; right
            obtain ⟨htm, htid⟩ := getTask_mem s i _ hget
            have heqt := mem_eq_of_nodup _ hnd t _ ht htm
              (by rw [htid]; exact (eq_of_beq hmatch).symm)
            refine ⟨?_, eq_of_beq hmatch, ?_, ?_⟩
            · by_cases hbb :
                (({ t with
                    status := TStatus.done,
                    completedAt := some nowIso } : Task).blockedBy
                  == some i) = true
              · rw [if_pos hbb] at ht1m
                exact Or.inr ht1m
              · rw [if_neg hbb] at ht1m
                exact Or.inl ht1m
            · rw [heqt] at hp; exact hp
            · rw [heqt] at hd; exact hd
          · rw [if_neg hmatch] at ht1m
            by_cases hbb : (t.blockedBy == some i) = true
            · rw [if_pos hbb] at ht1m
              right; left
              exact ⟨ht1m, eq_of_beq hbb, fun he => hmatch (beq_iff_eq.mpr he)⟩
            · rw [if_neg hbb] at ht1m
              exact Or.inl ht1m

theorem failTask_cases (s : Store) (i : Str) (reason : Str) (nowIso : Str)
    (r : Except CError Unit) (s2 : Store)
    (h : failTask s i reason nowIso = (r, s2))
    (hnd : (s.tasks.map Task.id).Nodup)
    (t t1 : Task) (ht : t ∈ s.tasks) (ht1 : t1 ∈ s2.tasks)
    (hid : t1.id = t.id) :
    t1 = t ∨
    (3 ≤ t.attempts + 1 ∧
     t1 = { t with
            status := .todo,
            autonomy := .collab,
            attempts := t.attempts + 1,
            lastAttemptAt := some nowIso,
            notes := some ((("[Auto-failed 3 times] ".data)
                             ++ (t.notes.getD [])).take 5000) }) ∨
    (¬ 3 ≤ t.attempts + 1 ∧
     t1 = { t with
            status := .todo,
            attempts := t.attempts + 1,
            lastAttemptAt := some nowIso }) := by
  unfold failTask at h
  cases hget : getTask s i with
  | none =>
    rw [hget] at h
    have hs : s = s2 := congrArg Prod.snd h
    subst hs
    exact Or.inl (mem_eq_of_nodup _ hnd t t1 ht ht1 hid)
  | some task =>
    rw [hget] at h
    dsimp only at h
    by_cases hge : task.attempts + 1 ≥ 3
    · rw [if_pos hge] at h
      have hs2 : _ = s2 := congrArg Prod.snd h
      rw [← hs2] at ht1
      have ht1m := replace1_mem s i
        (fun u =>
          { u with
            status := .todo,
            autonomy := .collab,
            attempts := task.attempts + 1,
            lastAttemptAt := some nowIso,
            notes := some ((("[Auto-failed 3 times] ".data)
                             ++ (task.notes.getD [])).take 5000) })
        (fun u => rfl) hnd t t1 ht ht1 hid
      by_cases hmatch : (t.id == i) = true
      · rw [if_pos hmatch] at ht1m
        obtain ⟨htm, htid⟩ := getTask_mem s i _ hget
        have heqt := mem_eq_of_nodup _ hnd t _ ht htm
          (by rw [htid]; exact (eq_of_beq hmatch).symm)
        rw [heqt] at ht1m hge
        exact Or.inr (Or.inl ⟨hge, ht1m⟩)
      · rw [if_neg hmatch] at ht1m
        exact Or.inl ht1m
    · rw [if_neg hge] at h
      have hs2 : _ = s2 := congrArg Prod.snd h
      rw [← hs2] at ht1
      have ht1m := replace1_mem s i
        (fun u =>
          { u with
            status := .todo,
            attempts := task.attempts + 1,
            lastAttemptAt := some nowIso })
        (fun u => rfl) hnd t t1 ht ht1 hid
      by_cases hmatch : (t.id == i) = true
      · rw [if_pos hmatch] at ht1m
        obtain ⟨htm, htid⟩ := getTask_mem s i _ hget
        have heqt := mem_eq_of_nodup _ hnd t _ ht htm
          (by rw [htid]; exact (eq_of_beq hmatch).symm)
        rw [heqt] at ht1m hge
        exact Or.inr (Or.inr ⟨hge, ht1m⟩)
      · rw [if_neg hmatch] at ht1m
        exact Or.inl ht1m

end Clawdo

namespace Clawdo

/-- A task-to-task function that keeps the id column unchanged. -/
def idPres (g : Task → Task) : Prop := ∀ u, (g u).id = u.id

theorem shape_of_eq (s s2 : Store) (hs : s = s2) :
    ∃ g, idPres g ∧ s2.tasks = s.tasks.map g :=
  ⟨id, fun u => rfl, by rw [← hs, List.map_id]⟩

theorem shape_of_tasks_eq (s s2 : Store) (ht : s2.tasks = s.tasks) :
    ∃ g, idPres g ∧ s2.tasks = s.tasks.map g :=
  ⟨id, fun u => rfl, by rw [ht, List.map_id]⟩

theorem shape_of_addHist_replace1 (s : Store) (i : Str) (f : Task → Task)
    (e : HistEntry) (s2 : Store) (hs : addHist (replace1 s i f) e = s2)
    (hf : ∀ u, (f u).id = u.id) :
    ∃ g, idPres g ∧ s2.tasks = s.tasks.map g :=
  ⟨fun u => if u.id == i then f u else u,
   fun u => by
     dsimp only
     split
     · exact hf u
     · rfl,
   (congrArg Store.tasks hs).symm⟩

theorem shape_of_replace1 (s : Store) (i : Str) (f : Task → Task)
    (s2 : Store) (hs : replace1 s i f = s2)
    (hf : ∀ u, (f u).id = u.id) :
    ∃ g, idPres g ∧ s2.tasks = s.tasks.map g :=
  ⟨fun u => if u.id == i then f u else u,
   fun u => by
     dsimp only
     split
     · exact hf u
     · rfl,
   (congrArg Store.tasks hs).symm⟩

theorem shape_of_addHist_map (s : Store) (g : Task → Task) (e : HistEntry)
    (s2 : Store) (hs : addHist { s with tasks := s.tasks.map g } e = s2)
    (hg : idPres g) : ∃ g2, idPres g2 ∧ s2.tasks = s.tasks.map g2 :=
  ⟨g, hg, (congrArg Store.tasks hs).symm⟩

theorem map_ids (l : List Task) (g : Task → Task) (hg : idPres g) :
    (l.map g).map Task.id = l.map Task.id := by
  rw [List.map_map]
  exact List.map_congr_left (fun u hu => hg u)

end Clawdo

namespace Clawdo

theorem shape_of_addHist_replace1C (s : Store) (i : Str) (f : Task → Task)
    (e : HistEntry) (s2 : Store) (hs : addHist (replace1 s i f) e = s2)
    (hf : ∀ u, (u.id == i) = true → (f u).id = u.id) :
    ∃ g, idPres g ∧ s2.tasks = s.tasks.map g :=
  ⟨fun u => if u.id == i then f u else u,
   fun u => by
     dsimp only
     split
     · exact hf u ‹_›
     · rfl,
   (congrArg Store.tasks hs).symm⟩

theorem startTask_shape (s : Store) (i : Str) (actor : Actor) (nowIso : Str)
    (r : Except CError Unit) (s2 : Store)
    (h : startTask s i actor nowIso = (r, s2)) :
    ∃ g, idPres g ∧ s2.tasks = s.tasks.map g := by
  unfold startTask at h
  repeat' (first | (split at h) | (dsimp only at h))
  all_goals
    first
    | exact shape_of_eq s s2 (congrArg Prod.snd h)
    | exact shape_of_addHist_replace1 s i _ _ s2 (congrArg Prod.snd h)
        (fun u => rfl)

theorem archiveTask_shape (s : Store) (i : Str) (actor : Actor)
    (nowIso : Str) (r : Except CError Unit) (s2 : Store)
    (h : archiveTask s i actor nowIso = (r, s2)) :
    ∃ g, idPres g ∧ s2.tasks = s.tasks.map g := by
  unfold archiveTask at h
  repeat' (first | (split at h) | (dsimp only at h))
  all_goals
    first
    | exact shape_of_eq s s2 (congrArg Prod.snd h)
    | exact shape_of_addHist_replace1 s i _ _ s2 (congrArg Prod.snd h)
        (fun u => rfl)

theorem unarchiveTask_shape (s : Store) (i : Str) (actor : Actor)
    (nowIso : Str) (r : Except CError Unit) (s2 : Store)
    (h : unarchiveTask s i actor nowIso = (r, s2)) :
    ∃ g, idPres g ∧ s2.tasks = s.tasks.map g := by
  unfold unarchiveTask at h
  repeat' (first | (split at h) | (dsimp only at h))
  all_goals
    first
    | exact shape_of_eq s s2 (congrArg Prod.snd h)
    | exact shape_of_addHist_replace1 s i _ _ s2 (congrArg Prod.snd h)
        (fun u => rfl)

theorem confirmTask_shape (s : Store) (i : Str) (actor : Actor)
    (nowIso : Str) (r : Except CError Unit) (s2 : Store)
    (h : confirmTask s i actor nowIso = (r, s2)) :
    ∃ g, idPres g ∧ s2.tasks = s.tasks.map g := by
  unfold confirmTask at h
  repeat' (first | (split at h) | (dsimp only at h))
  all_goals
    first
    | exact shape_of_eq s s2 (congrArg Prod.snd h)
    | exact shape_of_addHist_replace1 s i _ _ s2 (congrArg Prod.snd h)
        (fun u => rfl)

theorem rejectTask_shape (s : Store) (i : Str) (actor : Actor)
    (reason : Option Str) (nowIso : Str) (r : Except CError Unit) (s2 : Store)
    (h : rejectTask s i actor reason nowIso = (r, s2)) :
    ∃ g, idPres g ∧ s2.tasks = s.tasks.map g := by
  unfold rejectTask at h
  repeat' (first | (split at h) | (dsimp only at h))
  all_goals
    first
    | exact shape_of_eq s s2 (congrArg Prod.snd h)
    | exact shape_of_addHist_replace1 s i _ _ s2 (congrArg Prod.snd h)
        (fun u => rfl)

theorem unblockTask_shape (s : Store) (i : Str) (actor : Actor)
    (nowIso : Str) (r : Except CError Unit) (s2 : Store)
    (h : unblockTask s i actor nowIso = (r, s2)) :
    ∃ g, idPres g ∧ s2.tasks = s.tasks.map g := by
  unfold unblockTask at h
  repeat' (first | (split at h) | (dsimp only at h))
  all_goals
    first
    | exact shape_of_eq s s2 (congrArg Prod.snd h)
    | exact shape_of_addHist_replace1 s i _ _ s2 (congrArg Prod.snd h)
        (fun u => rfl)

theorem blockTask_shape (s : Store) (i blockerId : Str) (actor : Actor)
    (nowIso : Str) (r : Except CError Unit) (s2 : Store)
    (h : blockTask s i blockerId actor nowIso = (r, s2)) :
    ∃ g, idPres g ∧ s2.tasks = s.tasks.map g := by
  unfold blockTask at h
  repeat' (first | (split at h) | (dsimp only at h))
  all_goals
    first
    | exact shape_of_eq s s2 (congrArg Prod.snd h)
    | exact shape_of_addHist_replace1 s i _ _ s2 (congrArg Prod.snd h)
        (fun u => rfl)

theorem addNote_shape (s : Store) (i : Str) (note : Str) (actor : Actor)
    (nowIso : Str) (r : Except CError Unit) (s2 : Store)
    (h : addNote s i note actor nowIso = (r, s2)) :
    ∃ g, idPres g ∧ s2.tasks = s.tasks.map g := by
  unfold addNote at h
  repeat' (first | (split at h) | (dsimp only at h))
  all_goals
    first
    | exact shape_of_eq s s2 (congrArg Prod.snd h)
    | exact shape_of_addHist_replace1 s i _ _ s2 (congrArg Prod.snd h)
        (fun u => rfl)

theorem failTask_shape (s : Store) (i : Str) (reason : Str) (nowIso : Str)
    (r : Except CError Unit) (s2 : Store)
    (h : failTask s i reason nowIso = (r, s2)) :
    ∃ g, idPres g ∧ s2.tasks = s.tasks.map g := by
  unfold failTask at h
  repeat' (first | (split at h) | (dsimp only at h))
  all_goals
    first
    | exact shape_of_eq s s2 (congrArg Prod.snd h)
    | exact shape_of_addHist_replace1 s i _ _ s2 (congrArg Prod.snd h)
        (fun u => rfl)

theorem completeTask_shape (s : Store) (i : Str) (actor : Actor)
    (nowIso : Str) (sid slp : Option Str) (tu : Option (List Str))
    (r : Except CError Unit) (s2 : Store)
    (h : completeTask s i actor nowIso sid slp tu = (r, s2)) :
    ∃ g, idPres g ∧ s2.tasks = s.tasks.map g := by
  unfold completeTask at h
  repeat' (first | (split at h) | (dsimp only at h))
  all_goals
    first
    | exact shape_of_eq s s2 (congrArg Prod.snd h)
    | exact shape_of_addHist_map s _ _ s2 (congrArg Prod.snd h)
        (fun u => by
          try (dsimp only)
          repeat' split
          all_goals rfl)

theorem canRetry_shape (s : Store) (i : Str) (threshold : Str) (s2 : Store)
    (h : (canRetry s i threshold).2 = s2) :
    ∃ g, idPres g ∧ s2.tasks = s.tasks.map g := by
  unfold canRetry at h
  repeat' split at h
  all_goals
    first
    | exact shape_of_eq s s2 h
    | exact shape_of_replace1 s i _ s2 h (fun u => rfl)

theorem acquireLock_tasks (s : Store) (lockId : Str) (nowIso : Str) :
    (acquireLock s lockId nowIso).2.tasks = s.tasks := by
  unfold acquireLock
  repeat' split
  all_goals first | exact setCfg_tasks s lockId (some nowIso) | rfl

theorem releaseLock_tasks (s : Store) (lockId : Str) :
    (releaseLock s lockId).tasks = s.tasks := by
  unfold releaseLock
  repeat' split
  all_goals first | exact setCfg_tasks s lockId none | rfl

end Clawdo

namespace Clawdo

theorem isSome_of_not_isNone {α : Type} (o : Option α)
    (h : ¬ (o.isNone = true)) : o.isSome = true := by
  cases o
  · exact absurd rfl h
  · rfl

theorem shapeU_of_eq (s s2 : Store) (ob : Option (Option Str)) (hs : s = s2) :
    ∃ g, idPres g ∧ s2.tasks = s.tasks.map g ∧
      ∀ t ∈ s.tasks, g t = t ∨
        ((g t).autonomy = t.autonomy ∧ (g t).attempts = t.attempts ∧
         ((g t).blockedBy = t.blockedBy ∨ (g t).blockedBy = none ∨
          (ob = some ((g t).blockedBy) ∧
           ∀ bb, (g t).blockedBy = some bb →
             (findTask s bb).isSome = true))) :=
  ⟨id, fun v => rfl, by rw [← hs, List.map_id], fun t ht => Or.inl rfl⟩

theorem update_success_shape (s : Store) (i : Str)
    (ob : Option (Option Str))
    (nt : Task) (e : HistEntry) (s2 : Store)
    (hnd : (s.tasks.map Task.id).Nodup)
    (hs : addHist (replace1 s i (fun _ => nt)) e = s2)
    (existing : Task) (hex : findTask s i = some existing)
    (hid : nt.id = existing.id)
    (hP : nt.autonomy = existing.autonomy ∧ nt.attempts = existing.attempts ∧
      (nt.blockedBy = existing.blockedBy ∨ nt.blockedBy = none ∨
       (ob = some nt.blockedBy ∧
        ∀ bb, nt.blockedBy = some bb → (findTask s bb).isSome = true))) :
    ∃ g, idPres g ∧ s2.tasks = s.tasks.map g ∧
      ∀ t ∈ s.tasks, g t = t ∨
        ((g t).autonomy = t.autonomy ∧ (g t).attempts = t.attempts ∧
         ((g t).blockedBy = t.blockedBy ∨ (g t).blockedBy = none ∨
          (ob = some ((g t).blockedBy) ∧
           ∀ bb, (g t).blockedBy = some bb →
             (findTask s bb).isSome = true))) := by
  obtain ⟨hexm, hexi⟩ := findTask_mem s i existing hex
  refine ⟨fun v => if v.id == i then nt else v, ?_, ?_, ?_⟩
  · intro v
    dsimp only
    split
    · rename_i hv
      rw [hid, hexi]
      exact (eq_of_beq hv).symm
    · rfl
  · exact (congrArg Store.tasks hs).symm
  · intro t ht
    dsimp only
    by_cases hm : (t.id == i) = true
    · rw [if_pos hm]
      right
      have heqt : existing = t :=
        mem_eq_of_nodup _ hnd t existing ht hexm
          (by rw [hexi]; exact (eq_of_beq hm).symm)
      rw [← heqt]
      exact hP
    · rw [if_neg hm]
      exact Or.inl rfl

end Clawdo

namespace Clawdo

theorem updateTask_shape (s : Store) (i : Str) (u : TaskUpdates)
    (actor : Actor) (nowIso : Str) (r : Except CError Unit) (s2 : Store)
    (h : updateTask s i u actor nowIso = (r, s2))
    (hnd : (s.tasks.map Task.id).Nodup) :
    ∃ g, idPres g ∧ s2.tasks = s.tasks.map g ∧
      ∀ t ∈ s.tasks, g t = t ∨
        ((g t).autonomy = t.autonomy ∧ (g t).attempts = t.attempts ∧
         ((g t).blockedBy = t.blockedBy ∨ (g t).blockedBy = none ∨
          (u.blockedBy = some ((g t).blockedBy) ∧
           ∀ bb, (g t).blockedBy = some bb →
             (findTask s bb).isSome = true))) := by
  rcases hub : u.blockedBy with _ | (_ | b)
  all_goals
    unfold updateTask at h
    by_cases hv : (!validateTaskId i) = true
    · rw [if_pos hv] at h
      exact shapeU_of_eq s s2 _ (congrArg Prod.snd h)
    · rw [if_neg hv] at h
      cases hf : findTask s i with
      | none =>
        rw [hf] at h
        exact shapeU_of_eq s s2 _ (congrArg Prod.snd h)
      | some existing =>
        rw [hf] at h
        dsimp only at h
        by_cases ha : u.autonomy.isSome = true
        · rw [if_pos ha] at h
          exact shapeU_of_eq s s2 _ (congrArg Prod.snd h)
        · rw [if_neg ha] at h
          cases hct : sanField sanitizeText u.text with
          | error e1 =>
            rw [hct] at h
            exact shapeU_of_eq s s2 _ (congrArg Prod.snd h)
          | ok ctU =>
          rw [hct] at h
          dsimp only at h
          cases hcn : sanField sanitizeNotes u.notes with
          | error e1 =>
            rw [hcn] at h
            exact shapeU_of_eq s s2 _ (congrArg Prod.snd h)
          | ok cnU =>
          rw [hcn] at h
          dsimp only at h
          cases hcp : sanField sanitizeTag u.project with
          | error e1 =>
            rw [hcp] at h
            exact shapeU_of_eq s s2 _ (congrArg Prod.snd h)
          | ok cpU =>
          rw [hcp] at h
          dsimp only at h
          cases hcc : sanField sanitizeTag u.context with
          | error e1 =>
            rw [hcc] at h
            exact shapeU_of_eq s s2 _ (congrArg Prod.snd h)
          | ok ccU =>
          rw [hcc] at h
          dsimp only at h
          by_cases hhf : (!u.hasField) = true
          · rw [if_pos hhf] at h
            exact shapeU_of_eq s s2 _ (congrArg Prod.snd h)
          · rw [if_neg hhf] at h
            rw [hub] at h
            repeat' (first | (split at h) | (dsimp only at h))
            all_goals
              first
              | exact shapeU_of_eq s s2 _ (congrArg Prod.snd h)
              | exact update_success_shape s i _ _ _ s2 hnd
                  (congrArg Prod.snd h) existing hf rfl
                  ⟨rfl, rfl, Or.inl rfl⟩
              | exact update_success_shape s i _ _ _ s2 hnd
                  (congrArg Prod.snd h) existing hf rfl
                  ⟨rfl, rfl, Or.inr (Or.inl rfl)⟩
              | exact update_success_shape s i _ _ _ s2 hnd
                  (congrArg Prod.snd h) existing hf rfl
                  ⟨rfl, rfl, Or.inr (Or.inr ⟨rfl, fun bb hbb => by
                    injection hbb with he
                    exact he ▸ isSome_of_not_isNone _ (by assumption)⟩)⟩

end Clawdo

namespace Clawdo

theorem updateTask_permission (s : Store) (i : Str) (u : TaskUpdates)
    (actor : Actor) (nowIso : Str) (existing : Task)
    (hv : validateTaskId i = true) (hf : findTask s i = some existing)
    (ha : u.autonomy.isSome = true) :
    updateTask s i u actor nowIso =
      (.error { code := .permissionDenied,
                currentAutonomy := some existing.autonomy }, s) := by
  unfold updateTask
  rw [hv, hf, ha]
  rfl

/-- Pointwise effect of one bulkComplete fold step on a task row. -/
def Rc (u w : Task) : Prop :=
  w.autonomy = u.autonomy ∧ w.attempts = u.attempts ∧
  (w.status = u.status ∨
   ((u.status = .todo ∨ u.status = .inProgress) ∧ w.status = .done)) ∧
  (w.blockedBy = u.blockedBy ∨ w.blockedBy = none)

/-- Pointwise effect of one bulkArchive fold step on a task row. -/
def Ra (u w : Task) : Prop :=
  w.autonomy = u.autonomy ∧ w.attempts = u.attempts ∧
  w.blockedBy = u.blockedBy ∧
  (w.status = u.status ∨ (u.status ≠ .archived ∧ w.status = .archived))

theorem Rc_refl (u : Task) : Rc u u :=
  ⟨rfl, rfl, Or.inl rfl, Or.inl rfl⟩

theorem Ra_refl (u : Task) : Ra u u :=
  ⟨rfl, rfl, rfl, Or.inl rfl⟩

end Clawdo

namespace Clawdo

theorem bulkC_fold (s : Store) (actor : Actor) (nowIso : Str)
    (hnd : (s.tasks.map Task.id).Nodup) :
    ∀ (l : List Task) (acc : Nat × Store),
      (∀ x ∈ l, x ∈ s.tasks) →
      (∃ g, idPres g ∧ acc.2.tasks = s.tasks.map g ∧
        ∀ u ∈ s.tasks, Rc u (g u)) →
      ∃ g, idPres g ∧
        (l.foldl
          (fun (acc : Nat × Store) task =>
            if task.status == .todo || task.status == .inProgress then
              let sA := { acc.2 with
                tasks := acc.2.tasks.map (fun t =>
                  let t1 := if t.id == task.id then
                              { t with
                                status := .done,
                                completedAt := some nowIso }
                            else t
                  if t1.blockedBy == some task.id then
                    { t1 with blockedBy := none }
                  else t1) }
              let sB := addHist sA
                { taskId := task.id, action := "bulk_completed",
                  actor := actor, timestamp := nowIso, notes := none,
                  sessionId := none, sessionLogPath := none, oldTask := none,
                  newTask := none, toolsUsed := none }
              (acc.1 + 1, sB)
            else acc) acc).2.tasks = s.tasks.map g ∧
        ∀ u ∈ s.tasks, Rc u (g u) := by
  intro l
  induction l with
  | nil => intro acc hmem hinv; exact hinv
  | cons x xs ih =>
    intro acc hmem hinv
    rw [List.foldl_cons]
    refine ih _ (fun y hy => hmem y (List.mem_cons_of_mem x hy)) ?_
    obtain ⟨g, hgid, htks, hR⟩ := hinv
    by_cases hst : (x.status == TStatus.todo ||
        x.status == TStatus.inProgress) = true
    · dsimp only
      rw [if_pos hst]
      refine ⟨fun u =>
        (let t1 := if (g u).id == x.id then
                     { g u with status := .done, completedAt := some nowIso }
                   else g u
         if t1.blockedBy == some x.id then { t1 with blockedBy := none }
         else t1), ?_, ?_, ?_⟩
      · intro u
        dsimp only
        repeat' split
        all_goals exact hgid u
      · rw [addHist_tasks]
        dsimp only
        rw [htks, List.map_map]
        rfl
      · intro u hu
        have hRu := hR u hu
        dsimp only
        by_cases hm : ((g u).id == x.id) = true
        · rw [if_pos hm]
          have hux : u = x := mem_eq_of_nodup s.tasks hnd x u
            (hmem x (List.mem_cons_self x xs)) hu
            (by rw [← hgid u]; exact eq_of_beq hm)
          have hsu : u.status = TStatus.todo ∨ u.status = TStatus.inProgress := by
            rw [hux]
            rcases Bool.or_eq_true_iff.mp hst with h1 | h1
            · exact Or.inl (eq_of_beq h1)
            · exact Or.inr (eq_of_beq h1)
          by_cases hb : (({ g u with
              status := TStatus.done,
              completedAt := some nowIso } : Task).blockedBy
                == some x.id) = true
          · rw [if_pos hb]
            exact ⟨hRu.1, hRu.2.1, Or.inr ⟨hsu, rfl⟩, Or.inr rfl⟩
          · rw [if_neg hb]
            exact ⟨hRu.1, hRu.2.1, Or.inr ⟨hsu, rfl⟩, hRu.2.2.2⟩
        · rw [if_neg hm]
          by_cases hb : ((g u).blockedBy == some x.id) = true
          · rw [if_pos hb]
            exact ⟨hRu.1, hRu.2.1, hRu.2.2.1, Or.inr rfl⟩
          · rw [if_neg hb]
            exact hRu
    · dsimp only
      rw [if_neg hst]
      exact ⟨g, hgid, htks, hR⟩

end Clawdo

namespace Clawdo

theorem bulkA_fold (s : Store) (actor : Actor) (nowIso : Str)
    (hnd : (s.tasks.map Task.id).Nodup) :
    ∀ (l : List Task) (acc : Nat × Store),
      (∀ x ∈ l, x ∈ s.tasks) →
      (∃ g, idPres g ∧ acc.2.tasks = s.tasks.map g ∧
        ∀ u ∈ s.tasks, Ra u (g u)) →
      ∃ g, idPres g ∧
        (l.foldl
          (fun (acc : Nat × Store) task =>
            if task.status != .archived then
              let sA := replace1 acc.2 task.id
                (fun t => { t with status := .archived })
              let sB := addHist sA
                { taskId := task.id, action := "bulk_archived",
                  actor := actor, timestamp := nowIso, notes := none,
                  sessionId := none, sessionLogPath := none, oldTask := none,
                  newTask := none, toolsUsed := none }
              (acc.1 + 1, sB)
            else acc) acc).2.tasks = s.tasks.map g ∧
        ∀ u ∈ s.tasks, Ra u (g u) := by
  intro l
  induction l with
  | nil => intro acc hmem hinv; exact hinv
  | cons x xs ih =>
    intro acc hmem hinv
    rw [List.foldl_cons]
    refine ih _ (fun y hy => hmem y (List.mem_cons_of_mem x hy)) ?_
    obtain ⟨g, hgid, htks, hR⟩ := hinv
    by_cases hst : (x.status != TStatus.archived) = true
    · dsimp only
      rw [if_pos hst]
      refine ⟨fun u =>
        (if (g u).id == x.id then { g u with status := .archived }
         else g u), ?_, ?_, ?_⟩
      · intro u
        dsimp only
        split
        · exact hgid u
        · exact hgid u
      · rw [addHist_tasks]
        unfold replace1
        dsimp only
        rw [htks, List.map_map]
        rfl
      · intro u hu
        have hRu := hR u hu
        dsimp only
        by_cases hm : ((g u).id == x.id) = true
        · rw [if_pos hm]
          have hux : u = x := mem_eq_of_nodup s.tasks hnd x u
            (hmem x (List.mem_cons_self x xs)) hu
            (by rw [← hgid u]; exact eq_of_beq hm)
          have hsu : u.status ≠ TStatus.archived := by
            rw [hux]
            simpa using hst
          exact ⟨hRu.1, hRu.2.1, hRu.2.2.1, Or.inr ⟨hsu, rfl⟩⟩
        · rw [if_neg hm]
          exact hRu
    · dsimp only
      rw [if_neg hst]
      exact ⟨g, hgid, htks, hR⟩

theorem listTasks_sub (s : Store) (f : Filters) :
    ∀ x ∈ listTasks s f, x ∈ s.tasks := by
  intro x hx
  unfold listTasks at hx
  rw [List.mem_mergeSort] at hx
  exact List.mem_of_mem_filter hx

theorem bulkComplete_shape (s : Store) (f : Filters) (actor : Actor)
    (nowIso : Str) (hnd : (s.tasks.map Task.id).Nodup) :
    ∃ g, idPres g ∧
      (bulkComplete s f actor nowIso).2.tasks = s.tasks.map g ∧
      ∀ u ∈ s.tasks, Rc u (g u) := by
  unfold bulkComplete
  exact bulkC_fold s actor nowIso hnd (listTasks s f) (0, s)
    (listTasks_sub s f)
    ⟨id, fun u => rfl, (List.map_id s.tasks).symm, fun u hu => Rc_refl u⟩

theorem bulkArchive_shape (s : Store) (f : Filters) (actor : Actor)
    (nowIso : Str) (hnd : (s.tasks.map Task.id).Nodup) :
    ∃ g, idPres g ∧
      (bulkArchive s f actor nowIso).2.tasks = s.tasks.map g ∧
      ∀ u ∈ s.tasks, Ra u (g u) := by
  unfold bulkArchive
  exact bulkA_fold s actor nowIso hnd (listTasks s f) (0, s)
    (listTasks_sub s f)
    ⟨id, fun u => rfl, (List.map_id s.tasks).symm, fun u hu => Ra_refl u⟩

end Clawdo

namespace Clawdo

theorem addNote_cases (s : Store) (i : Str) (note : Str) (actor : Actor)
    (nowIso : Str) (r : Except CError Unit) (s2 : Store)
    (h : addNote s i note actor nowIso = (r, s2))
    (hnd : (s.tasks.map Task.id).Nodup)
    (t t1 : Task) (ht : t ∈ s.tasks) (ht1 : t1 ∈ s2.tasks)
    (hid : t1.id = t.id) :
    t1 = t ∨ ∃ n, t1 = { t with notes := some n } := by
  unfold addNote at h
  cases hget : getTask s i with
  | none =>
    rw [hget] at h
    have hs : s = s2 := congrArg Prod.snd h
    subst hs
    exact Or.inl (mem_eq_of_nodup _ hnd t t1 ht ht1 hid)
  | some task =>
    rw [hget] at h
    dsimp only at h
    cases hsn : sanitizeNotes (some note) with
    | error e1 =>
      rw [hsn] at h
      have hs : s = s2 := congrArg Prod.snd h
      subst hs
      exact Or.inl (mem_eq_of_nodup _ hnd t t1 ht ht1 hid)
    | ok cleanNote =>
      rw [hsn] at h
      dsimp only at h
      by_cases hlen : ((if truthy task.notes = true then
          (task.notes.getD []) ++
            ('\n' :: (('[' :: datePart nowIso) ++ ("] ".data) ++ cleanNote))
        else ('[' :: datePart nowIso) ++ ("] ".data) ++ cleanNote).length
          > 5000)
      · rw [if_pos hlen] at h
        have hs : s = s2 := congrArg Prod.snd h
        subst hs
        exact Or.inl (mem_eq_of_nodup _ hnd t t1 ht ht1 hid)
      · rw [if_neg hlen] at h
        have hs2 : _ = s2 := congrArg Prod.snd h
        rw [← hs2] at ht1
        have ht1m := replace1_mem s i
          (fun u =>
            { u with
              notes := some (if truthy task.notes = true then
                               (task.notes.getD []) ++
                                 ('\n' :: (('[' :: datePart nowIso) ++
                                   ("] ".data) ++ cleanNote))
                             else
                               ('[' :: datePart nowIso) ++ ("] ".data) ++
                                 cleanNote) })
          (fun u => rfl) hnd t t1 ht ht1 hid
        by_cases hmatch : (t.id == i) = true
        · rw [if_pos hmatch] at ht1m
          exact Or.inr ⟨_, ht1m⟩
        · rw [if_neg hmatch] at ht1m
          exact Or.inl ht1m

theorem blockTask_cases (s : Store) (i blockerId : Str) (actor : Actor)
    (nowIso : Str) (r : Except CError Unit) (s2 : Store)
    (h : blockTask s i blockerId actor nowIso = (r, s2))
    (hnd : (s.tasks.map Task.id).Nodup)
    (t t1 : Task) (ht : t ∈ s.tasks) (ht1 : t1 ∈ s2.tasks)
    (hid : t1.id = t.id) :
    t1 = t ∨
    (t1 = { t with blockedBy := some blockerId } ∧ t.id = i ∧
     (getTask s blockerId).isSome = true ∧
     detectBlockerCycle s i blockerId = false) := by
  unfold blockTask at h
  by_cases hv : (!validateTaskId i || !validateTaskId blockerId) = true
  · rw [if_pos hv] at h
    have hs : s = s2 := congrArg Prod.snd h
    subst hs
    exact Or.inl (mem_eq_of_nodup _ hnd t t1 ht ht1 hid)
  · rw [if_neg hv] at h
    cases hgi : getTask s i with
    | none =>
      rw [hgi] at h
      have hs : s = s2 := congrArg Prod.snd h
      subst hs
      exact Or.inl (mem_eq_of_nodup _ hnd t t1 ht ht1 hid)
    | some ti =>
      rw [hgi] at h
      dsimp only at h
      cases hgb : getTask s blockerId with
      | none =>
        rw [hgb] at h
        have hs : s = s2 := congrArg Prod.snd h
        subst hs
        exact Or.inl (mem_eq_of_nodup _ hnd t t1 ht ht1 hid)
      | some blocker =>
        rw [hgb] at h
        dsimp only at h
        by_cases hbd : (decide (blocker.status = TStatus.done) ||
            decide (blocker.status = TStatus.archived)) = true
        · rw [if_pos hbd] at h
          have hs : s = s2 := congrArg Prod.snd h
          subst hs
          exact Or.inl (mem_eq_of_nodup _ hnd t t1 ht ht1 hid)
        · rw [if_neg hbd] at h
          by_cases hcy : detectBlockerCycle s i blockerId = true
          · rw [if_pos hcy] at h
            have hs : s = s2 := congrArg Prod.snd h
            subst hs
            exact Or.inl (mem_eq_of_nodup _ hnd t t1 ht ht1 hid)
          · rw [if_neg hcy] at h
            have hs2 : _ = s2 := congrArg Prod.snd h
            rw [← hs2] at ht1
            have ht1m := replace1_mem s i
              (fun u => { u with blockedBy := some blockerId })
              (fun u => rfl) hnd t t1 ht ht1 hid
            by_cases hmatch : (t.id == i) = true
            · rw [if_pos hmatch] at ht1m
              exact Or.inr ⟨ht1m, eq_of_beq hmatch,
                rfl,
                Bool.eq_false_iff.mpr hcy⟩
            · rw [if_neg hmatch] at ht1m
              exact Or.inl ht1m

end Clawdo

namespace Clawdo

/-- Stored task ids are well-formed (eight lowercase alphanumerics, as the
id CHECK and the generation loop guarantee). -/
def ValidIds (s : Store) : Prop :=
  ∀ t ∈ s.tasks, validateTaskId t.id = true

/-- A task at three or more attempts has been demoted to collab (the
failTask three-strike rule). -/
def Demoted (s : Store) : Prop :=
  ∀ t ∈ s.tasks, 3 ≤ t.attempts → t.autonomy = .collab

/-- Every non-null blockedBy references a stored task id. -/
def BlockedValid (s : Store) : Prop :=
  ∀ t ∈ s.tasks, ∀ b, t.blockedBy = some b → ∃ w ∈ s.tasks, w.id = b

/-- The store invariant maintained by every public operation: distinct
well-formed ids, the three-failure demotion, and valid blocker
references. -/
def WFS (s : Store) : Prop :=
  (s.tasks.map Task.id).Nodup ∧ ValidIds s ∧ Demoted s ∧ BlockedValid s

theorem WFS_tasks_eq (s s2 : Store) (ht : s2.tasks = s.tasks)
    (hwf : WFS s) : WFS s2 := by
  obtain ⟨hnd, hvi, hdem, hbv⟩ := hwf
  refine ⟨by rw [ht]; exact hnd, fun t htm => hvi t (ht ▸ htm),
    fun t htm => hdem t (ht ▸ htm), fun t htm b hb => ?_⟩
  obtain ⟨w, hw, hwid⟩ := hbv t (ht ▸ htm) b hb
  exact ⟨w, by rw [ht]; exact hw, hwid⟩

theorem WFS_map (s s2 : Store) (g : Task → Task) (hgid : idPres g)
    (htks : s2.tasks = s.tasks.map g)
    (hnd : (s.tasks.map Task.id).Nodup)
    (hvi : ValidIds s)
    (hdem2 : ∀ u ∈ s.tasks, 3 ≤ (g u).attempts → (g u).autonomy = .collab)
    (hbv2 : ∀ u ∈ s.tasks, ∀ b, (g u).blockedBy = some b →
      ∃ w ∈ s.tasks, w.id = b) :
    WFS s2 := by
  refine ⟨?_, ?_, ?_, ?_⟩
  · rw [htks, map_ids s.tasks g hgid]
    exact hnd
  · intro t1 ht1
    rw [htks] at ht1
    obtain ⟨u, hu, rfl⟩ := List.mem_map.mp ht1
    rw [hgid u]
    exact hvi u hu
  · intro t1 ht1
    rw [htks] at ht1
    obtain ⟨u, hu, rfl⟩ := List.mem_map.mp ht1
    exact hdem2 u hu
  · intro t1 ht1 b hb
    rw [htks] at ht1
    obtain ⟨u, hu, rfl⟩ := List.mem_map.mp ht1
    obtain ⟨w, hw, hwid⟩ := hbv2 u hu b hb
    refine ⟨g w, ?_, ?_⟩
    · rw [htks]
      exact List.mem_map_of_mem g hw
    · rw [hgid w]
      exact hwid

theorem orNull_some (x : Option Str) (b : Str) (h : orNull x = some b) :
    x = some b ∧ truthy x = true := by
  cases x with
  | none => exact Option.noConfusion h
  | some l =>
    unfold orNull at h
    dsimp only at h
    by_cases he : l.isEmpty = true
    · rw [if_pos he] at h
      exact Option.noConfusion h
    · rw [if_neg he] at h
      injection h with h1
      subst h1
      refine ⟨rfl, ?_⟩
      show (!l.isEmpty) = true
      rw [Bool.eq_false_iff.mpr he]
      rfl

end Clawdo

namespace Clawdo

theorem findTask_of_getTask (s : Store) (i : Str) (w : Task)
    (h : getTask s i = some w) : findTask s i = some w := by
  unfold getTask at h
  by_cases hv : validateTaskId i = true
  · rw [if_pos hv] at h
    exact h
  · rw [if_neg hv] at h
    exact Option.noConfusion h

theorem execOp_WFS (s : Store) (op : Op) (r : Except CError Unit)
    (s2 : Store) (h : execOp s op = (r, s2)) (hwf : WFS s) : WFS s2 := by
  obtain ⟨hnd, hvi, hdem, hbv⟩ := hwf
  cases op with
  | create text addedBy o freshId nowMs nowIso =>
    simp only [execOp] at h
    have h2 : (createTask s text addedBy o freshId nowMs nowIso).2 = s2 :=
      congrArg Prod.snd h
    cases hc : (createTask s text addedBy o freshId nowMs nowIso).1 with
    | error e0 =>
      have hcr : createTask s text addedBy o freshId nowMs nowIso =
          (.error e0, s2) := by
        have hx := Prod.mk.eta
          (p := createTask s text addedBy o freshId nowMs nowIso)
        rw [hc, h2] at hx
        exact hx.symm
      obtain ⟨ht, _, _⟩ :=
        createTask_err s text addedBy o freshId nowMs nowIso e0 s2 hcr
      exact WFS_tasks_eq s s2 ht ⟨hnd, hvi, hdem, hbv⟩
    | ok id0 =>
      have hcr : createTask s text addedBy o freshId nowMs nowIso =
          (.ok id0, s2) := by
        have hx := Prod.mk.eta
          (p := createTask s text addedBy o freshId nowMs nowIso)
        rw [hc, h2] at hx
        exact hx.symm
      obtain ⟨hid0, hval, hfind, hblk, t, htasks, htid, hadd, hstatus, hatt,
        hbb, hpa⟩ :=
        createTask_ok s text addedBy o freshId nowMs nowIso id0 s2 hcr
      have hfr : ∀ x ∈ s.tasks, x.id ≠ freshId := by
        intro x hx hxe
        have hne := List.find?_eq_none.mp hfind x hx
        exact hne (by rw [hxe]; exact beq_self_eq_true freshId)
      refine ⟨?_, ?_, ?_, ?_⟩
      · rw [htasks, List.map_append, List.nodup_append]
        refine ⟨hnd, List.nodup_singleton _, ?_⟩
        intro a ha hb2
        obtain ⟨u, hu, hau⟩ := List.mem_map.mp ha
        obtain ⟨w, hw, haw⟩ := List.mem_map.mp hb2
        rw [List.mem_singleton.mp hw] at haw
        exact hfr u hu (by rw [hau, ← haw, htid])
      · intro x hx
        rw [htasks] at hx
        rcases List.mem_append.mp hx with hx1 | hx1
        · exact hvi x hx1
        · rw [List.mem_singleton.mp hx1, htid]
          exact hval
      · intro x hx h3
        rw [htasks] at hx
        rcases List.mem_append.mp hx with hx1 | hx1
        · exact hdem x hx1 h3
        · rw [List.mem_singleton.mp hx1, hatt] at h3
          exact absurd h3 (by omega)
      · intro x hx b hb
        rw [htasks] at hx
        rcases List.mem_append.mp hx with hx1 | hx1
        · obtain ⟨w, hw, hwid⟩ := hbv x hx1 b hb
          exact ⟨w, by rw [htasks]; exact List.mem_append_left _ hw, hwid⟩
        · rw [List.mem_singleton.mp hx1, hbb] at hb
          obtain ⟨hob, htr⟩ := orNull_some o.blockedBy b hb
          obtain ⟨b2, hob2, hgs, _⟩ := hblk htr
          rw [hob] at hob2
          injection hob2 with hb2e
          obtain ⟨w, hw⟩ := Option.isSome_iff_exists.mp hgs
          obtain ⟨hwm, hwid⟩ := findTask_mem s b2 w (findTask_of_getTask s b2 w hw)
          exact ⟨w, by rw [htasks]; exact List.mem_append_left _ hwm,
            hwid.trans hb2e.symm⟩
  | update i u actor nowIso =>
    simp only [execOp] at h
    obtain ⟨g, hgid, htks, hpt⟩ := updateTask_shape s i u actor nowIso r s2 h hnd
    refine WFS_map s s2 g hgid htks hnd hvi ?_ ?_
    · intro v hv h3
      rcases hpt v hv with he | ⟨hau, hat, _⟩
      · rw [he] at h3 ⊢
        exact hdem v hv h3
      · rw [hat] at h3
        rw [hau]
        exact hdem v hv h3
    · intro v hv b hb
      rcases hpt v hv with he | ⟨_, _, hbd | hbd | ⟨_, hbf⟩⟩
      · rw [he] at hb
        exact hbv v hv b hb
      · rw [hbd] at hb
        exact hbv v hv b hb
      · rw [hbd] at hb
        exact Option.noConfusion hb
      · obtain ⟨w, hw⟩ := Option.isSome_iff_exists.mp (hbf b hb)
        obtain ⟨hwm, hwid⟩ := findTask_mem s b w hw
        exact ⟨w, hwm, hwid⟩
  | start i actor nowIso =>
    simp only [execOp] at h
    obtain ⟨g, hgid, htks⟩ := startTask_shape s i actor nowIso r s2 h
    refine WFS_map s s2 g hgid htks hnd hvi ?_ ?_
    · intro v hv h3
      have hm2 : g v ∈ s2.tasks := by
        rw [htks]; exact List.mem_map_of_mem g hv
      rcases startTask_cases s i actor nowIso r s2 h hnd v (g v) hv hm2
        (hgid v) with he | ⟨he, _⟩ <;> rw [he] at h3 ⊢ <;> exact hdem v hv h3
    · intro v hv b hb
      have hm2 : g v ∈ s2.tasks := by
        rw [htks]; exact List.mem_map_of_mem g hv
      rcases startTask_cases s i actor nowIso r s2 h hnd v (g v) hv hm2
        (hgid v) with he | ⟨he, _⟩ <;> rw [he] at hb <;> exact hbv v hv b hb
  | complete i actor nowIso sid slp tu =>
    simp only [execOp] at h
    obtain ⟨g, hgid, htks⟩ :=
      completeTask_shape s i actor nowIso sid slp tu r s2 h
    refine WFS_map s s2 g hgid htks hnd hvi ?_ ?_
    · intro v hv h3
      have hm2 : g v ∈ s2.tasks := by
        rw [htks]; exact List.mem_map_of_mem g hv
      rcases completeTask_cases s i actor nowIso sid slp tu r s2 h hnd v (g v)
        hv hm2 (hgid v) with he | ⟨he, _, _⟩ | ⟨he | he, _, _, _⟩ <;>
        rw [he] at h3 ⊢ <;> exact hdem v hv h3
    · intro v hv b hb
      have hm2 : g v ∈ s2.tasks := by
        rw [htks]; exact List.mem_map_of_mem g hv
      rcases completeTask_cases s i actor nowIso sid slp tu r s2 h hnd v (g v)
        hv hm2 (hgid v) with he | ⟨he, _, _⟩ | ⟨he | he, _, _, _⟩
      · rw [he] at hb
        exact hbv v hv b hb
      · rw [he] at hb
        exact Option.noConfusion hb
      · rw [he] at hb
        exact hbv v hv b hb
      · rw [he] at hb
        exact Option.noConfusion hb
  | fail i reason nowIso =>
    simp only [execOp] at h
    obtain ⟨g, hgid, htks⟩ := failTask_shape s i reason nowIso r s2 h
    refine WFS_map s s2 g hgid htks hnd hvi ?_ ?_
    · intro v hv h3
      have hm2 : g v ∈ s2.tasks := by
        rw [htks]; exact List.mem_map_of_mem g hv
      rcases failTask_cases s i reason nowIso r s2 h hnd v (g v) hv hm2
        (hgid v) with he | ⟨hge, he⟩ | ⟨hlt, he⟩
      · rw [he] at h3 ⊢
        exact hdem v hv h3
      · rw [he]
      · rw [he] at h3
        exact absurd h3 hlt
    · intro v hv b hb
      have hm2 : g v ∈ s2.tasks := by
        rw [htks]; exact List.mem_map_of_mem g hv
      rcases failTask_cases s i reason nowIso r s2 h hnd v (g v) hv hm2
        (hgid v) with he | ⟨_, he⟩ | ⟨_, he⟩ <;> rw [he] at hb <;>
        exact hbv v hv b hb
  | archive i actor nowIso =>
    simp only [execOp] at h
    obtain ⟨g, hgid, htks⟩ := archiveTask_shape s i actor nowIso r s2 h
    refine WFS_map s s2 g hgid htks hnd hvi ?_ ?_
    · intro v hv h3
      have hm2 : g v ∈ s2.tasks := by
        rw [htks]; exact List.mem_map_of_mem g hv
      rcases archiveTask_cases s i actor nowIso r s2 h hnd v (g v) hv hm2
        (hgid v) with he | ⟨he, _⟩ <;> rw [he] at h3 ⊢ <;> exact hdem v hv h3
    · intro v hv b hb
      have hm2 : g v ∈ s2.tasks := by
        rw [htks]; exact List.mem_map_of_mem g hv
      rcases archiveTask_cases s i actor nowIso r s2 h hnd v (g v) hv hm2
        (hgid v) with he | ⟨he, _⟩ <;> rw [he] at hb <;> exact hbv v hv b hb
  | unarchive i actor nowIso =>
    simp only [execOp] at h
    obtain ⟨g, hgid, htks⟩ := unarchiveTask_shape s i actor nowIso r s2 h
    refine WFS_map s s2 g hgid htks hnd hvi ?_ ?_
    · intro v hv h3
      have hm2 : g v ∈ s2.tasks := by
        rw [htks]; exact List.mem_map_of_mem g hv
      rcases unarchiveTask_cases s i actor nowIso r s2 h hnd v (g v) hv hm2
        (hgid v) with he | he <;> rw [he] at h3 ⊢ <;> exact hdem v hv h3
    · intro v hv b hb
      have hm2 : g v ∈ s2.tasks := by
        rw [htks]; exact List.mem_map_of_mem g hv
      rcases unarchiveTask_cases s i actor nowIso r s2 h hnd v (g v) hv hm2
        (hgid v) with he | he <;> rw [he] at hb <;> exact hbv v hv b hb
  | bulkComplete f actor nowIso =>
    simp only [execOp] at h
    have hs2 : (bulkComplete s f actor nowIso).2 = s2 := congrArg Prod.snd h
    obtain ⟨g, hgid, htks, hR⟩ := bulkComplete_shape s f actor nowIso hnd
    rw [hs2] at htks
    refine WFS_map s s2 g hgid htks hnd hvi ?_ ?_
    · intro v hv h3
      obtain ⟨hau, hat, _, _⟩ := hR v hv
      rw [hat] at h3
      rw [hau]
      exact hdem v hv h3
    · intro v hv b hb
      obtain ⟨_, _, _, hbd | hbd⟩ := hR v hv
      · rw [hbd] at hb
        exact hbv v hv b hb
      · rw [hbd] at hb
        exact Option.noConfusion hb
  | bulkArchive f actor nowIso =>
    simp only [execOp] at h
    have hs2 : (bulkArchive s f actor nowIso).2 = s2 := congrArg Prod.snd h
    obtain ⟨g, hgid, htks, hR⟩ := bulkArchive_shape s f actor nowIso hnd
    rw [hs2] at htks
    refine WFS_map s s2 g hgid htks hnd hvi ?_ ?_
    · intro v hv h3
      obtain ⟨hau, hat, _, _⟩ := hR v hv
      rw [hat] at h3
      rw [hau]
      exact hdem v hv h3
    · intro v hv b hb
      obtain ⟨_, _, hbd, _⟩ := hR v hv
      rw [hbd] at hb
      exact hbv v hv b hb
  | confirm i actor nowIso =>
    simp only [execOp] at h
    obtain ⟨g, hgid, htks⟩ := confirmTask_shape s i actor nowIso r s2 h
    refine WFS_map s s2 g hgid htks hnd hvi ?_ ?_
    · intro v hv h3
      have hm2 : g v ∈ s2.tasks := by
        rw [htks]; exact List.mem_map_of_mem g hv
      rcases confirmTask_cases s i actor nowIso r s2 h hnd v (g v) hv hm2
        (hgid v) with he | ⟨he, _⟩ <;> rw [he] at h3 ⊢ <;> exact hdem v hv h3
    · intro v hv b hb
      have hm2 : g v ∈ s2.tasks := by
        rw [htks]; exact List.mem_map_of_mem g hv
      rcases confirmTask_cases s i actor nowIso r s2 h hnd v (g v) hv hm2
        (hgid v) with he | ⟨he, _⟩ <;> rw [he] at hb <;> exact hbv v hv b hb
  | reject i actor reason nowIso =>
    simp only [execOp] at h
    obtain ⟨g, hgid, htks⟩ := rejectTask_shape s i actor reason nowIso r s2 h
    refine WFS_map s s2 g hgid htks hnd hvi ?_ ?_
    · intro v hv h3
      have hm2 : g v ∈ s2.tasks := by
        rw [htks]; exact List.mem_map_of_mem g hv
      rcases rejectTask_cases s i actor reason nowIso r s2 h hnd v (g v) hv
        hm2 (hgid v) with he | ⟨he, _⟩ <;> rw [he] at h3 ⊢ <;>
        exact hdem v hv h3
    · intro v hv b hb
      have hm2 : g v ∈ s2.tasks := by
        rw [htks]; exact List.mem_map_of_mem g hv
      rcases rejectTask_cases s i actor reason nowIso r s2 h hnd v (g v) hv
        hm2 (hgid v) with he | ⟨he, _⟩ <;> rw [he] at hb <;>
        exact hbv v hv b hb
  | block i blockerId actor nowIso =>
    simp only [execOp] at h
    obtain ⟨g, hgid, htks⟩ := blockTask_shape s i blockerId actor nowIso r s2 h
    refine WFS_map s s2 g hgid htks hnd hvi ?_ ?_
    · intro v hv h3
      have hm2 : g v ∈ s2.tasks := by
        rw [htks]; exact List.mem_map_of_mem g hv
      rcases blockTask_cases s i blockerId actor nowIso r s2 h hnd v (g v) hv
        hm2 (hgid v) with he | ⟨he, _, _, _⟩ <;> rw [he] at h3 ⊢ <;>
        exact hdem v hv h3
    · intro v hv b hb
      have hm2 : g v ∈ s2.tasks := by
        rw [htks]; exact List.mem_map_of_mem g hv
      rcases blockTask_cases s i blockerId actor nowIso r s2 h hnd v (g v) hv
        hm2 (hgid v) with he | ⟨he, _, hbs, _⟩
      · rw [he] at hb
        exact hbv v hv b hb
      · rw [he] at hb
        injection hb with hbe
        obtain ⟨w, hw⟩ := Option.isSome_iff_exists.mp hbs
        obtain ⟨hwm, hwid⟩ :=
          findTask_mem s blockerId w (findTask_of_getTask s blockerId w hw)
        exact ⟨w, hwm, hwid.trans hbe⟩
  | unblock i actor nowIso =>
    simp only [execOp] at h
    obtain ⟨g, hgid, htks⟩ := unblockTask_shape s i actor nowIso r s2 h
    refine WFS_map s s2 g hgid htks hnd hvi ?_ ?_
    · intro v hv h3
      have hm2 : g v ∈ s2.tasks := by
        rw [htks]; exact List.mem_map_of_mem g hv
      rcases unblockTask_cases s i actor nowIso r s2 h hnd v (g v) hv hm2
        (hgid v) with he | he <;> rw [he] at h3 ⊢ <;> exact hdem v hv h3
    · intro v hv b hb
      have hm2 : g v ∈ s2.tasks := by
        rw [htks]; exact List.mem_map_of_mem g hv
      rcases unblockTask_cases s i actor nowIso r s2 h hnd v (g v) hv hm2
        (hgid v) with he | he
      · rw [he] at hb
        exact hbv v hv b hb
      · rw [he] at hb
        exact Option.noConfusion hb
  | note i text actor nowIso =>
    simp only [execOp] at h
    obtain ⟨g, hgid, htks⟩ := addNote_shape s i text actor nowIso r s2 h
    refine WFS_map s s2 g hgid htks hnd hvi ?_ ?_
    · intro v hv h3
      have hm2 : g v ∈ s2.tasks := by
        rw [htks]; exact List.mem_map_of_mem g hv
      rcases addNote_cases s i text actor nowIso r s2 h hnd v (g v) hv hm2
        (hgid v) with he | ⟨n, he⟩ <;> rw [he] at h3 ⊢ <;> exact hdem v hv h3
    · intro v hv b hb
      have hm2 : g v ∈ s2.tasks := by
        rw [htks]; exact List.mem_map_of_mem g hv
      rcases addNote_cases s i text actor nowIso r s2 h hnd v (g v) hv hm2
        (hgid v) with he | ⟨n, he⟩ <;> rw [he] at hb <;> exact hbv v hv b hb
  | retry i threshold =>
    simp only [execOp] at h
    have hs2 : (canRetry s i threshold).2 = s2 := congrArg Prod.snd h
    obtain ⟨g, hgid, htks⟩ := canRetry_shape s i threshold s2 hs2
    refine WFS_map s s2 g hgid htks hnd hvi ?_ ?_
    · intro v hv h3
      have hm2 : g v ∈ s2.tasks := by
        rw [htks]; exact List.mem_map_of_mem g hv
      rcases canRetry_cases s i threshold s2 hs2 hnd v (g v) hv hm2
        (hgid v) with he | ⟨he, _⟩ <;> rw [he] at h3 ⊢ <;> exact hdem v hv h3
    · intro v hv b hb
      have hm2 : g v ∈ s2.tasks := by
        rw [htks]; exact List.mem_map_of_mem g hv
      rcases canRetry_cases s i threshold s2 hs2 hnd v (g v) hv hm2
        (hgid v) with he | ⟨he, _⟩ <;> rw [he] at hb <;> exact hbv v hv b hb
  | putConfig k v =>
    simp only [execOp] at h
    have hs2 : setCfg s k v = s2 := congrArg Prod.snd h
    exact WFS_tasks_eq s s2 (by rw [← hs2, setCfg_tasks])
      ⟨hnd, hvi, hdem, hbv⟩
  | acquire lockId nowIso =>
    simp only [execOp] at h
    have hs2 : (acquireLock s lockId nowIso).2 = s2 := congrArg Prod.snd h
    exact WFS_tasks_eq s s2 (by rw [← hs2, acquireLock_tasks])
      ⟨hnd, hvi, hdem, hbv⟩
  | release lockId =>
    simp only [execOp] at h
    have hs2 : releaseLock s lockId = s2 := congrArg Prod.snd h
    exact WFS_tasks_eq s s2 (by rw [← hs2, releaseLock_tasks])
      ⟨hnd, hvi, hdem, hbv⟩

end Clawdo

namespace Clawdo

theorem WFS_init : WFS initStore := by
  refine ⟨List.nodup_nil, ?_, ?_, ?_⟩ <;> intro t ht <;> cases ht

theorem runOp_WFS (s : Store) (op : Op) (hwf : WFS s) :
    WFS (runOp s op) := by
  have hp := Prod.mk.eta (p := execOp s op)
  exact execOp_WFS s op (execOp s op).1 (execOp s op).2 hp.symm hwf

theorem runOps_WFS_from (ops : List Op) :
    ∀ (s : Store), WFS s → WFS (runOps s ops) := by
  induction ops with
  | nil => intro s hwf; exact hwf
  | cons op rest ih =>
    intro s hwf
    unfold runOps
    rw [List.foldl_cons]
    exact ih (runOp s op) (runOp_WFS s op hwf)

theorem Reachable_WFS (s : Store) (h : Reachable s) : WFS s := by
  obtain ⟨ops, hs⟩ := h
  rw [← hs]
  exact runOps_WFS_from ops initStore WFS_init

end Clawdo

namespace Clawdo

/-- Modelled from the spec: the status-transition graph of section 4.1 as
the claim enumerates it — proposed→todo (confirm), proposed→archived
(reject/archive), todo→in_progress (start), in_progress→done (complete),
in_progress→todo (fail), todo→archived, in_progress→archived, and
archived→todo (unarchive). -/
def specEdge (a b : TStatus) : Bool :=
  match a, b with
  | .proposed, .todo => true
  | .proposed, .archived => true
  | .todo, .inProgress => true
  | .inProgress, .done => true
  | .inProgress, .todo => true
  | .todo, .archived => true
  | .inProgress, .archived => true
  | .archived, .todo => true
  | _, _ => false

/-- The status transitions the lifecycle operations can actually perform:
confirm, fail and unarchive drive their statuses to todo (fail and
unarchive from any status at all), start drives todo to in_progress,
complete drives any status that is neither proposed nor done — archived
included — to done, and archive, reject and the bulk operations drive
non-archived statuses to archived. -/
def codeEdge (a b : TStatus) : Bool :=
  match b with
  | .todo => !(a == .todo)
  | .inProgress => a == .todo
  | .done => !(a == .proposed) && !(a == .done)
  | .archived => !(a == .archived)
  | .proposed => false

/-- The lifecycle operations listed by the claim: create, start, complete,
fail, confirm, reject, archive, unarchive and the two bulk operations. -/
def Op.lifecycle : Op → Prop
  | .create _ _ _ _ _ _ => True
  | .start _ _ _ => True
  | .complete _ _ _ _ _ _ => True
  | .fail _ _ _ => True
  | .confirm _ _ _ => True
  | .reject _ _ _ _ => True
  | .archive _ _ _ => True
  | .unarchive _ _ _ => True
  | .bulkComplete _ _ _ => True
  | .bulkArchive _ _ _ => True
  | _ => False

end Clawdo

namespace Clawdo

set_option maxHeartbeats 800000

/-- C3, amended: on every reachable store, a lifecycle operation changes a
task's status only along a codeEdge — which properly contains the section
4.1 graph: it also has done→archived and proposed→archived via archive,
archived→done via complete, todo→done via complete and bulk complete, and
done→todo, proposed→todo and archived→todo via fail and unarchive. -/
theorem c3_amended_transitions (s : Store) (op : Op)
    (r : Except CError Unit) (s2 : Store)
    (hr : Reachable s) (hlc : Op.lifecycle op)
    (h : execOp s op = (r, s2))
    (t t1 : Task) (ht : t ∈ s.tasks) (ht1 : t1 ∈ s2.tasks)
    (hid : t1.id = t.id) :
    t1.status = t.status ∨ codeEdge t.status t1.status = true := by
  have hnd : (s.tasks.map Task.id).Nodup := (Reachable_WFS s hr).1
  cases op with
  | create text addedBy o freshId nowMs nowIso =>
    simp only [execOp] at h
    have h2 : (createTask s text addedBy o freshId nowMs nowIso).2 = s2 :=
      congrArg Prod.snd h
    cases hc : (createTask s text addedBy o freshId nowMs nowIso).1 with
    | error e0 =>
      have hcr : createTask s text addedBy o freshId nowMs nowIso =
          (.error e0, s2) := by
        have hx := Prod.mk.eta
          (p := createTask s text addedBy o freshId nowMs nowIso)
        rw [hc, h2] at hx
        exact hx.symm
      obtain ⟨ht2, _, _⟩ :=
        createTask_err s text addedBy o freshId nowMs nowIso e0 s2 hcr
      rw [ht2] at ht1
      rw [mem_eq_of_nodup s.tasks hnd t t1 ht ht1 hid]
      exact Or.inl rfl
    | ok id0 =>
      have hcr : createTask s text addedBy o freshId nowMs nowIso =
          (.ok id0, s2) := by
        have hx := Prod.mk.eta
          (p := createTask s text addedBy o freshId nowMs nowIso)
        rw [hc, h2] at hx
        exact hx.symm
      obtain ⟨hid0, hval, hfind, hblk, w, htasks, htid, hadd, hstatus, hatt,
        hbb, hpa⟩ :=
        createTask_ok s text addedBy o freshId nowMs nowIso id0 s2 hcr
      rw [htasks] at ht1
      rcases List.mem_append.mp ht1 with hx1 | hx1
      · rw [mem_eq_of_nodup s.tasks hnd t t1 ht hx1 hid]
        exact Or.inl rfl
      · exfalso
        have hne := List.find?_eq_none.mp hfind t ht
        rw [List.mem_singleton.mp hx1] at hid
        rw [htid] at hid
        exact hne (by rw [← hid]; exact beq_self_eq_true freshId)
  | update i u actor nowIso => exact hlc.elim
  | start i actor nowIso =>
    simp only [execOp] at h
    rcases startTask_cases s i actor nowIso r s2 h hnd t t1 ht ht1 hid with
      he | ⟨he, hts⟩
    · rw [he]
      exact Or.inl rfl
    · right
      rw [he, hts]
      rfl
  | complete i actor nowIso sid slp tu =>
    simp only [execOp] at h
    rcases completeTask_cases s i actor nowIso sid slp tu r s2 h hnd t t1 ht
      ht1 hid with he | ⟨he, _, _⟩ | ⟨he | he, _, hnp, hndn⟩
    · rw [he]
      exact Or.inl rfl
    · rw [he]
      exact Or.inl rfl
    · right
      rw [he]
      show (!(t.status == TStatus.proposed) && !(t.status == TStatus.done)) = true
      rw [beq_eq_false_iff_ne.mpr hnp, beq_eq_false_iff_ne.mpr hndn]
      rfl
    · right
      rw [he]
      show (!(t.status == TStatus.proposed) && !(t.status == TStatus.done)) = true
      rw [beq_eq_false_iff_ne.mpr hnp, beq_eq_false_iff_ne.mpr hndn]
      rfl
  | fail i reason nowIso =>
    simp only [execOp] at h
    rcases failTask_cases s i reason nowIso r s2 h hnd t t1 ht ht1 hid with
      he | ⟨_, he⟩ | ⟨_, he⟩ <;> rw [he]
    · exact Or.inl rfl
    all_goals
      by_cases hts : t.status = TStatus.todo
      · exact Or.inl (by rw [hts])
      · right
        show (!(t.status == TStatus.todo)) = true
        rw [beq_eq_false_iff_ne.mpr hts]
        rfl
  | archive i actor nowIso =>
    simp only [execOp] at h
    rcases archiveTask_cases s i actor nowIso r s2 h hnd t t1 ht ht1 hid with
      he | ⟨he, hts⟩
    · rw [he]
      exact Or.inl rfl
    · right
      rw [he]
      show (!(t.status == TStatus.archived)) = true
      rw [beq_eq_false_iff_ne.mpr hts]
      rfl
  | unarchive i actor nowIso =>
    simp only [execOp] at h
    rcases unarchiveTask_cases s i actor nowIso r s2 h hnd t t1 ht ht1 hid
      with he | he <;> rw [he]
    · exact Or.inl rfl
    · by_cases hts : t.status = TStatus.todo
      · exact Or.inl (by rw [hts])
      · right
        show (!(t.status == TStatus.todo)) = true
        rw [beq_eq_false_iff_ne.mpr hts]
        rfl
  | bulkComplete f actor nowIso =>
    simp only [execOp] at h
    have hs2 : (bulkComplete s f actor nowIso).2 = s2 := congrArg Prod.snd h
    obtain ⟨g, hgid, htks, hR⟩ := bulkComplete_shape s f actor nowIso hnd
    rw [hs2] at htks
    have he : t1 = g t := map_mem_eq s.tasks g
      (fun v hv => hgid v) hnd t t1 ht (by rw [← htks]; exact ht1) hid
    obtain ⟨_, _, hst | ⟨hor, hdone⟩, _⟩ := hR t ht
    · rw [he, hst]
      exact Or.inl rfl
    · right
      rw [he, hdone]
      show (!(t.status == TStatus.proposed) && !(t.status == TStatus.done)) = true
      rcases hor with hts | hts <;> rw [hts] <;> rfl
  | bulkArchive f actor nowIso =>
    simp only [execOp] at h
    have hs2 : (bulkArchive s f actor nowIso).2 = s2 := congrArg Prod.snd h
    obtain ⟨g, hgid, htks, hR⟩ := bulkArchive_shape s f actor nowIso hnd
    rw [hs2] at htks
    have he : t1 = g t := map_mem_eq s.tasks g
      (fun v hv => hgid v) hnd t t1 ht (by rw [← htks]; exact ht1) hid
    obtain ⟨_, _, _, hst | ⟨hna, harc⟩⟩ := hR t ht
    · rw [he, hst]
      exact Or.inl rfl
    · right
      rw [he, harc]
      show (!(t.status == TStatus.archived)) = true
      rw [beq_eq_false_iff_ne.mpr hna]
      rfl
  | confirm i actor nowIso =>
    simp only [execOp] at h
    rcases confirmTask_cases s i actor nowIso r s2 h hnd t t1 ht ht1 hid with
      he | ⟨he, hts⟩
    · rw [he]
      exact Or.inl rfl
    · right
      rw [he, hts]
      rfl
  | reject i actor reason nowIso =>
    simp only [execOp] at h
    rcases rejectTask_cases s i actor reason nowIso r s2 h hnd t t1 ht ht1
      hid with he | ⟨he, hts⟩
    · rw [he]
      exact Or.inl rfl
    · right
      rw [he, hts]
      rfl
  | block i blockerId actor nowIso => exact hlc.elim
  | unblock i actor nowIso => exact hlc.elim
  | note i text actor nowIso => exact hlc.elim
  | retry i threshold => exact hlc.elim
  | putConfig k v => exact hlc.elim
  | acquire lockId nowIso => exact hlc.elim
  | release lockId => exact hlc.elim

set_option maxHeartbeats 200000

end Clawdo

namespace Clawdo

/-- C3, counterexample: from the empty store, create then archive leaves
the task archived, and a completeTask call then drives it to done —
archived→done, a transition outside the section 4.1 graph. -/
theorem c3_counterexample :
    (findTask (runOps initStore
      [Op.create (("Task a").data) .human {} (("aaaaaaaa").data) 0
         (("t1").data),
       Op.archive (("aaaaaaaa").data) .human (("t2").data)])
      (("aaaaaaaa").data)).map Task.status = some TStatus.archived ∧
    (findTask (runOp (runOps initStore
      [Op.create (("Task a").data) .human {} (("aaaaaaaa").data) 0
         (("t1").data),
       Op.archive (("aaaaaaaa").data) .human (("t2").data)])
      (Op.complete (("aaaaaaaa").data) .human (("t3").data) none none none))
      (("aaaaaaaa").data)).map Task.status = some TStatus.done ∧
    specEdge TStatus.archived TStatus.done = false := by
  exact ⟨rfl, rfl, rfl⟩

/-- The todo task that the C3 witness creates. -/
def wTaskA : Task :=
  { id := (("aaaaaaaa").data),
    text := (("Task a").data),
    status := .todo,
    autonomy := .collab,
    urgency := .whenever,
    project := none,
    context := none,
    dueDate := none,
    blockedBy := none,
    addedBy := .human,
    createdAt := (("t1").data),
    startedAt := none,
    completedAt := none,
    notes := none,
    attempts := 0,
    lastAttemptAt := none,
    tokensUsed := 0,
    durationSec := 0 }

/-- C3, witness: archiving a freshly created todo task takes a codeEdge
(todo→archived) on a reachable store. -/
theorem c3_witness :
    ({ wTaskA with status := .archived } : Task).status = wTaskA.status ∨
    codeEdge wTaskA.status
      ({ wTaskA with status := .archived } : Task).status = true :=
  c3_amended_transitions
    (runOps initStore
      [Op.create (("Task a").data) .human {} (("aaaaaaaa").data) 0
         (("t1").data)])
    (Op.archive (("aaaaaaaa").data) .human (("t2").data)) (.ok ()) _
    ⟨[Op.create (("Task a").data) .human {} (("aaaaaaaa").data) 0
        (("t1").data)], rfl⟩
    trivial rfl
    wTaskA
    { wTaskA with status := .archived }
    (by decide) (by decide) rfl

end Clawdo

namespace Clawdo

set_option maxHeartbeats 800000

/-- C1: on every reachable store, no operation changes a task's autonomy,
with the single exception of a failTask that brings the attempt count
from two to three, which sets it to collab; autonomy never leaves collab
(no downgrade is ever reversed); and updateTask called with any autonomy
value in its updates fails with PERMISSION_DENIED carrying the current
autonomy and changes nothing. -/
theorem c1_autonomy_policy :
    (∀ (s : Store) (op : Op) (r : Except CError Unit) (s2 : Store),
      Reachable s → execOp s op = (r, s2) →
      ∀ t ∈ s.tasks, ∀ t1 ∈ s2.tasks, t1.id = t.id →
        (t.autonomy = .collab → t1.autonomy = .collab) ∧
        (t1.autonomy = t.autonomy ∨
         (∃ i reason nowIso, op = .fail i reason nowIso ∧
          t.attempts = 2 ∧ t1.attempts = 3 ∧ t1.autonomy = .collab))) ∧
    (∀ (s : Store) (i : Str) (u : TaskUpdates) (actor : Actor)
      (nowIso : Str) (existing : Task),
      validateTaskId i = true → findTask s i = some existing →
      u.autonomy.isSome = true →
      updateTask s i u actor nowIso =
        (.error { code := .permissionDenied,
                  currentAutonomy := some existing.autonomy }, s)) := by
  constructor
  · intro s op r s2 hr h t ht t1 ht1 hid
    have hnd : (s.tasks.map Task.id).Nodup := (Reachable_WFS s hr).1
    have hdem : Demoted s := (Reachable_WFS s hr).2.2.1
    cases op with
    | create text addedBy o freshId nowMs nowIso =>
      simp only [execOp] at h
      have h2 : (createTask s text addedBy o freshId nowMs nowIso).2 = s2 :=
        congrArg Prod.snd h
      cases hc : (createTask s text addedBy o freshId nowMs nowIso).1 with
      | error e0 =>
        have hcr : createTask s text addedBy o freshId nowMs nowIso =
            (.error e0, s2) := by
          have hx := Prod.mk.eta
            (p := createTask s text addedBy o freshId nowMs nowIso)
          rw [hc, h2] at hx
          exact hx.symm
        obtain ⟨ht2, _, _⟩ :=
          createTask_err s text addedBy o freshId nowMs nowIso e0 s2 hcr
        rw [ht2] at ht1
        rw [mem_eq_of_nodup s.tasks hnd t t1 ht ht1 hid]
        exact ⟨fun hc2 => hc2, Or.inl rfl⟩
      | ok id0 =>
        have hcr : createTask s text addedBy o freshId nowMs nowIso =
            (.ok id0, s2) := by
          have hx := Prod.mk.eta
            (p := createTask s text addedBy o freshId nowMs nowIso)
          rw [hc, h2] at hx
          exact hx.symm
        obtain ⟨hid0, hval, hfind, hblk, w, htasks, htid, hadd, hstatus,
          hatt, hbb, hpa⟩ :=
          createTask_ok s text addedBy o freshId nowMs nowIso id0 s2 hcr
        rw [htasks] at ht1
        rcases List.mem_append.mp ht1 with hx1 | hx1
        · rw [mem_eq_of_nodup s.tasks hnd t t1 ht hx1 hid]
          exact ⟨fun hc2 => hc2, Or.inl rfl⟩
        · exfalso
          have hne := List.find?_eq_none.mp hfind t ht
          rw [List.mem_singleton.mp hx1] at hid
          rw [htid] at hid
          exact hne (by rw [← hid]; exact beq_self_eq_true freshId)
    | update i u actor nowIso =>
      simp only [execOp] at h
      obtain ⟨g, hgid, htks, hpt⟩ :=
        updateTask_shape s i u actor nowIso r s2 h hnd
      have he : t1 = g t := map_mem_eq s.tasks g
        (fun v hv => hgid v) hnd t t1 ht (by rw [← htks]; exact ht1) hid
      rcases hpt t ht with he2 | ⟨hau, _, _⟩
      · rw [he, he2]
        exact ⟨fun hc2 => hc2, Or.inl rfl⟩
      · rw [he]
        exact ⟨fun hc2 => hau.trans hc2, Or.inl hau⟩
    | start i actor nowIso =>
      simp only [execOp] at h
      rcases startTask_cases s i actor nowIso r s2 h hnd t t1 ht ht1 hid
        with he | ⟨he, _⟩ <;> rw [he] <;> exact ⟨fun hc2 => hc2, Or.inl rfl⟩
    | complete i actor nowIso sid slp tu =>
      simp only [execOp] at h
      rcases completeTask_cases s i actor nowIso sid slp tu r s2 h hnd t t1
        ht ht1 hid with he | ⟨he, _, _⟩ | ⟨he | he, _, _, _⟩ <;> rw [he] <;>
        exact ⟨fun hc2 => hc2, Or.inl rfl⟩
    | fail i reason nowIso =>
      simp only [execOp] at h
      rcases failTask_cases s i reason nowIso r s2 h hnd t t1 ht ht1 hid
        with he | ⟨hge, he⟩ | ⟨hlt, he⟩
      · rw [he]
        exact ⟨fun hc2 => hc2, Or.inl rfl⟩
      · rw [he]
        refine ⟨fun hc2 => rfl, ?_⟩
        by_cases h2 : t.attempts = 2
        · exact Or.inr ⟨i, reason, nowIso, rfl, h2, by rw [h2], rfl⟩
        · have h3 : 3 ≤ t.attempts := by omega
          have hcol := hdem t ht h3
          exact Or.inl (by rw [hcol])
      · rw [he]
        exact ⟨fun hc2 => hc2, Or.inl rfl⟩
    | archive i actor nowIso =>
      simp only [execOp] at h
      rcases archiveTask_cases s i actor nowIso r s2 h hnd t t1 ht ht1 hid
        with he | ⟨he, _⟩ <;> rw [he] <;> exact ⟨fun hc2 => hc2, Or.inl rfl⟩
    | unarchive i actor nowIso =>
      simp only [execOp] at h
      rcases unarchiveTask_cases s i actor nowIso r s2 h hnd t t1 ht ht1 hid
        with he | he <;> rw [he] <;> exact ⟨fun hc2 => hc2, Or.inl rfl⟩
    | bulkComplete f actor nowIso =>
      simp only [execOp] at h
      have hs2 : (bulkComplete s f actor nowIso).2 = s2 := congrArg Prod.snd h
      obtain ⟨g, hgid, htks, hR⟩ := bulkComplete_shape s f actor nowIso hnd
      rw [hs2] at htks
      have he : t1 = g t := map_mem_eq s.tasks g
        (fun v hv => hgid v) hnd t t1 ht (by rw [← htks]; exact ht1) hid
      obtain ⟨hau, _, _, _⟩ := hR t ht
      rw [he]
      exact ⟨fun hc2 => hau.trans hc2, Or.inl hau⟩
    | bulkArchive f actor nowIso =>
      simp only [execOp] at h
      have hs2 : (bulkArchive s f actor nowIso).2 = s2 := congrArg Prod.snd h
      obtain ⟨g, hgid, htks, hR⟩ := bulkArchive_shape s f actor nowIso hnd
      rw [hs2] at htks
      have he : t1 = g t := map_mem_eq s.tasks g
        (fun v hv => hgid v) hnd t t1 ht (by rw [← htks]; exact ht1) hid
      obtain ⟨hau, _, _, _⟩ := hR t ht
      rw [he]
      exact ⟨fun hc2 => hau.trans hc2, Or.inl hau⟩
    | confirm i actor nowIso =>
      simp only [execOp] at h
      rcases confirmTask_cases s i actor nowIso r s2 h hnd t t1 ht ht1 hid
        with he | ⟨he, _⟩ <;> rw [he] <;> exact ⟨fun hc2 => hc2, Or.inl rfl⟩
    | reject i actor reason nowIso =>
      simp only [execOp] at h
      rcases rejectTask_cases s i actor reason nowIso r s2 h hnd t t1 ht ht1
        hid with he | ⟨he, _⟩ <;> rw [he] <;>
        exact ⟨fun hc2 => hc2, Or.inl rfl⟩
    | block i blockerId actor nowIso =>
      simp only [execOp] at h
      rcases blockTask_cases s i blockerId actor nowIso r s2 h hnd t t1 ht
        ht1 hid with he | ⟨he, _, _, _⟩ <;> rw [he] <;>
        exact ⟨fun hc2 => hc2, Or.inl rfl⟩
    | unblock i actor nowIso =>
      simp only [execOp] at h
      rcases unblockTask_cases s i actor nowIso r s2 h hnd t t1 ht ht1 hid
        with he | he <;> rw [he] <;> exact ⟨fun hc2 => hc2, Or.inl rfl⟩
    | note i text actor nowIso =>
      simp only [execOp] at h
      rcases addNote_cases s i text actor nowIso r s2 h hnd t t1 ht ht1 hid
        with he | ⟨n, he⟩ <;> rw [he] <;> exact ⟨fun hc2 => hc2, Or.inl rfl⟩
    | retry i threshold =>
      simp only [execOp] at h
      have hs2 : (canRetry s i threshold).2 = s2 := congrArg Prod.snd h
      rcases canRetry_cases s i threshold s2 hs2 hnd t t1 ht ht1 hid
        with he | ⟨he, _⟩ <;> rw [he] <;> exact ⟨fun hc2 => hc2, Or.inl rfl⟩
    | putConfig k v =>
      simp only [execOp] at h
      have hs2 : setCfg s k v = s2 := congrArg Prod.snd h
      rw [← hs2, setCfg_tasks] at ht1
      rw [mem_eq_of_nodup s.tasks hnd t t1 ht ht1 hid]
      exact ⟨fun hc2 => hc2, Or.inl rfl⟩
    | acquire lockId nowIso =>
      simp only [execOp] at h
      have hs2 : (acquireLock s lockId nowIso).2 = s2 := congrArg Prod.snd h
      rw [← hs2, acquireLock_tasks] at ht1
      rw [mem_eq_of_nodup s.tasks hnd t t1 ht ht1 hid]
      exact ⟨fun hc2 => hc2, Or.inl rfl⟩
    | release lockId =>
      simp only [execOp] at h
      have hs2 : releaseLock s lockId = s2 := congrArg Prod.snd h
      rw [← hs2, releaseLock_tasks] at ht1
      rw [mem_eq_of_nodup s.tasks hnd t t1 ht ht1 hid]
      exact ⟨fun hc2 => hc2, Or.inl rfl⟩
  · intro s i u actor nowIso existing hv hf ha
    exact updateTask_permission s i u actor nowIso existing hv hf ha

set_option maxHeartbeats 200000

end Clawdo

namespace Clawdo

/-- The C1 witness task after two recorded failures. -/
def wTaskF : Task :=
  { wTaskA with attempts := 2, lastAttemptAt := some (("t3").data) }

/-- The C1 witness task after its third failure: demoted to collab with
the demotion note. -/
def wTaskF2 : Task :=
  { wTaskA with
    status := .todo,
    autonomy := .collab,
    attempts := 3,
    lastAttemptAt := some (("t4").data),
    notes := some (("[Auto-failed 3 times] ").data) }

/-- C1, witness: the third failTask on a reachable store demotes the
witness task from attempts two to three with autonomy collab, and an
updateTask carrying an autonomy value fails with PERMISSION_DENIED
naming the current autonomy and leaves the store unchanged. -/
theorem c1_witness :
    ((wTaskF.autonomy = .collab → wTaskF2.autonomy = .collab) ∧
     (wTaskF2.autonomy = wTaskF.autonomy ∨
      (∃ i reason nowIso,
        Op.fail (("aaaaaaaa").data) (("r3").data) (("t4").data) =
          Op.fail i reason nowIso ∧
        wTaskF.attempts = 2 ∧ wTaskF2.attempts = 3 ∧
        wTaskF2.autonomy = .collab))) ∧
    updateTask
      (runOps initStore
        [Op.create (("Task a").data) .human {} (("aaaaaaaa").data) 0
           (("t1").data)])
      (("aaaaaaaa").data) { autonomy := some .auto } .human (("t9").data) =
      (.error { code := .permissionDenied,
                currentAutonomy := some wTaskA.autonomy },
       runOps initStore
        [Op.create (("Task a").data) .human {} (("aaaaaaaa").data) 0
           (("t1").data)]) :=
  ⟨c1_autonomy_policy.1
      (runOps initStore
        [Op.create (("Task a").data) .human {} (("aaaaaaaa").data) 0
           (("t1").data),
         Op.fail (("aaaaaaaa").data) (("r1").data) (("t2").data),
         Op.fail (("aaaaaaaa").data) (("r2").data) (("t3").data)])
      (Op.fail (("aaaaaaaa").data) (("r3").data) (("t4").data)) (.ok ()) _
      ⟨[Op.create (("Task a").data) .human {} (("aaaaaaaa").data) 0
           (("t1").data),
        Op.fail (("aaaaaaaa").data) (("r1").data) (("t2").data),
        Op.fail (("aaaaaaaa").data) (("r2").data) (("t3").data)], rfl⟩
      rfl wTaskF (by decide) wTaskF2 (by decide) rfl,
   c1_autonomy_policy.2
      (runOps initStore
        [Op.create (("Task a").data) .human {} (("aaaaaaaa").data) 0
           (("t1").data)])
      (("aaaaaaaa").data) { autonomy := some .auto } .human
      (("t9").data) wTaskA rfl (by decide) rfl⟩

end Clawdo

namespace Clawdo

end Clawdo

namespace Clawdo

end Clawdo

namespace Clawdo

end Clawdo

namespace Clawdo

end Clawdo

namespace Clawdo

end Clawdo

namespace Clawdo

end Clawdo

namespace Clawdo

end Clawdo

namespace Clawdo

end Clawdo
